import Mathlib

/-!
# Open Salamanca: the XML dataset parser

A shallow embedding of `assets/js/xml-parser.js` (class `XMLParser`), of `buildChartConfig`
with its builders and helpers in `assets/js/chart-generator.js` (class `ChartGenerator`), and
of `getNestedValue` and the regular expression literals of `assets/js/template-engine.js`
(class `TemplateEngine`).

* JavaScript strings are Lean strings, handled through their character lists.
* A parsed XML document is a tree of `Node`s; `getElementsByTagName`, `children` and
  `textContent` follow the DOM.
* A thrown `Error` is `Except.error` carrying the message; `console.warn` output is returned
  next to the value.
* What the browser supplies and the repository does not define (the `Date` constructor,
  `JSON.parse`, the clock and the random source behind `generateId`) is gathered in `Platform`.
* Numbers produced by `Number(text)` are kept as exact decimal values; IEEE rounding is not
  modelled there. The integers of `parseInt` in the colour helpers are rounded to a Number.
* A property read looks at the own properties of a value and then at its prototype chain. The
  built-in objects found there (inherited methods, constructors, prototype objects) are
  supplied by a `Realm`. Values of the model are plain: their prototype is the standard one.
* The methods of the language that the source calls (`trim`, `split`, `map`, `slice`,
  `replace`, `parseInt`, `Object.keys`, `Object.entries`) are the standard ones.
-/

namespace OpenSalamanca

/-! ## JavaScript text primitives -/

/-- White space and line terminators of ECMAScript, the characters removed by
`String.prototype.trim` and skipped around a numeric string. -/
def isJSWhitespace (c : Char) : Bool :=
  c.toNat ∈ [0x09, 0x0A, 0x0B, 0x0C, 0x0D, 0x20, 0xA0, 0x1680, 0x2028, 0x2029,
      0x202F, 0x205F, 0x3000, 0xFEFF]
    || (0x2000 ≤ c.toNat && c.toNat ≤ 0x200A)

/-- Character-list form of `trim`. -/
def trimChars (cs : List Char) : List Char :=
  ((cs.dropWhile isJSWhitespace).reverse.dropWhile isJSWhitespace).reverse

/-- The method `String.prototype.trim`. -/
def jsTrim (s : String) : String := ⟨trimChars s.data⟩

/-- Worker of `jsSplit`: `skip` counts the characters of a separator that was just matched and
are still to be dropped, `cur` is the current segment in reverse. -/
def splitGo (sep : List Char) : Nat → List Char → List Char → List (List Char)
  | _, [], cur => [cur.reverse]
  | skip + 1, _ :: cs, cur => splitGo sep skip cs cur
  | 0, c :: cs, cur =>
    if sep.isPrefixOf (c :: cs) then cur.reverse :: splitGo sep (sep.length - 1) cs []
    else splitGo sep 0 cs (c :: cur)

/-- The method `String.prototype.split` with a non-empty string separator: the segments
between the non-overlapping occurrences of `sep`, found left to right. -/
def jsSplit (sep : String) (s : String) : List String :=
  (splitGo sep.data 0 s.data []).map String.mk

/-- The method `String.prototype.startsWith`. -/
def jsStartsWith (s pre : String) : Bool := pre.data.isPrefixOf s.data

/-! ## Numbers -/

/-- A JavaScript number as produced from text: `NaN`, an infinity, or the exact decimal value
`± mantissa * 10 ^ exponent`, with the mantissa free of trailing zeros. -/
inductive JsNumber where
  | nan
  | infinity (negative : Bool)
  | finite (negative : Bool) (mantissa : Nat) (exponent : Int)
  deriving DecidableEq, Repr

/-- Decimal digit test. -/
def isDecimalDigit (c : Char) : Bool := 48 ≤ c.toNat && c.toNat ≤ 57

/-- Value of a digit in the given radix, if the character is one. -/
def digitInRadix (radix : Nat) (c : Char) : Option Nat :=
  let v : Option Nat :=
    if 48 ≤ c.toNat && c.toNat ≤ 57 then some (c.toNat - 48)
    else if 97 ≤ c.toNat && c.toNat ≤ 102 then some (c.toNat - 87)
    else if 65 ≤ c.toNat && c.toNat ≤ 70 then some (c.toNat - 55)
    else none
  v.bind fun d => if d < radix then some d else none

/-- Value of a digit sequence, most significant digit first. -/
def digitsToNat (radix : Nat) (ds : List Nat) : Nat :=
  ds.foldl (fun acc d => acc * radix + d) 0

/-- Removes trailing decimal zeros of a mantissa, raising the exponent accordingly. -/
def stripZeros : Nat → Nat → Int → Nat × Int
  | 0, m, e => (m, e)
  | fuel + 1, m, e =>
    if m ≠ 0 ∧ m % 10 = 0 then stripZeros fuel (m / 10) (e + 1) else (m, e)

/-- The finite number `± m * 10 ^ e` in normal form. -/
def JsNumber.ofDecimal (negative : Bool) (m : Nat) (e : Int) : JsNumber :=
  if m = 0 then .finite negative 0 0
  else
    let r := stripZeros m m e
    .finite negative r.1 r.2

/-- A non-decimal integer literal body (the digits after `0x`, `0o` or `0b`). -/
def parseRadixDigits (radix : Nat) (cs : List Char) : JsNumber :=
  if cs.isEmpty then .nan
  else
    match cs.mapM (digitInRadix radix) with
    | some ds => JsNumber.ofDecimal false (digitsToNat radix ds) 0
    | none => .nan

/-- The part after `e` or `E`: an optional sign and at least one digit. -/
def parseExponentPart (cs : List Char) : Option Int :=
  let signed : Bool × List Char :=
    match cs with
    | '+' :: r => (false, r)
    | '-' :: r => (true, r)
    | r => (false, r)
  if signed.2.isEmpty || !signed.2.all isDecimalDigit then none
  else
    let n : Int := digitsToNat 10 (signed.2.map fun c => c.toNat - 48)
    some (if signed.1 then -n else n)

/-- The grammar `StrUnsignedDecimalLiteral` without `Infinity`: digits, an optional fraction and
an optional exponent, with at least one digit before the exponent. Yields mantissa and
exponent. -/
def parseUnsignedDecimal (cs : List Char) : Option (Nat × Int) :=
  let intPart := cs.takeWhile isDecimalDigit
  let rest := cs.dropWhile isDecimalDigit
  let frac : List Char × List Char :=
    match rest with
    | '.' :: r => (r.takeWhile isDecimalDigit, r.dropWhile isDecimalDigit)
    | r => ([], r)
  if intPart.isEmpty && frac.1.isEmpty then none
  else
    let expo : Option Int :=
      match frac.2 with
      | [] => some 0
      | c :: r => if c = 'e' || c = 'E' then parseExponentPart r else none
    expo.map fun e =>
      (digitsToNat 10 ((intPart ++ frac.1).map fun c => c.toNat - 48), e - frac.1.length)

/-- The abstract operation `StringToNumber` behind `Number(text)` and `isNaN(text)`. -/
def stringToNumber (s : String) : JsNumber :=
  match trimChars s.data with
  | [] => .finite false 0 0
  | '0' :: 'x' :: r => parseRadixDigits 16 r
  | '0' :: 'X' :: r => parseRadixDigits 16 r
  | '0' :: 'o' :: r => parseRadixDigits 8 r
  | '0' :: 'O' :: r => parseRadixDigits 8 r
  | '0' :: 'b' :: r => parseRadixDigits 2 r
  | '0' :: 'B' :: r => parseRadixDigits 2 r
  | cs =>
    let signed : Bool × List Char :=
      match cs with
      | '+' :: r => (false, r)
      | '-' :: r => (true, r)
      | r => (false, r)
    if signed.2 = "Infinity".data then .infinity signed.1
    else
      match parseUnsignedDecimal signed.2 with
      | some (m, e) => JsNumber.ofDecimal signed.1 m e
      | none => .nan

/-- The global function `isNaN` applied to a string. -/
def jsIsNaN (s : String) : Bool :=
  match stringToNumber s with
  | .nan => true
  | _ => false

/-! ## Values and objects -/

/-- JavaScript values as they occur in parsed models. -/
inductive JsValue where
  | null
  | bool (b : Bool)
  | num (n : JsNumber)
  | str (s : String)
  | arr (items : List JsValue)
  | obj (entries : List (String × JsValue))

/-- Own enumerable properties of a plain object, in insertion order. -/
abbrev JsObject := List (String × JsValue)

/-- Own-property lookup `o[k]`; `none` stands for `undefined`. -/
def JsObject.get : JsObject → String → Option JsValue
  | [], _ => none
  | (k, v) :: rest, key => if k = key then some v else JsObject.get rest key

/-- Assignment of an own property: an existing key keeps its place and takes the new value, a
new key is appended. -/
def JsObject.setOwn : JsObject → String → JsValue → JsObject
  | [], key, val => [(key, val)]
  | (k, v) :: rest, key, val =>
    if k = key then (k, val) :: rest else (k, v) :: JsObject.setOwn rest key val

/-- The assignment `o[k] = v` on an object literal, for a value `v` that is a text, a number or a
boolean, or for a key other than `__proto__`. The key `__proto__` reaches the inherited setter
of `Object.prototype`, which ignores such a value: no own property is created and the prototype
stays. (Where the value can be an object, in `parseConfig`, the assignment is
`ConfigState.assign`.) -/
def JsObject.set (o : JsObject) (key : String) (val : JsValue) : JsObject :=
  if key = "__proto__" then o else JsObject.setOwn o key val

/-- Truthiness of a value (`ToBoolean`). -/
def JsValue.truthy : JsValue → Bool
  | .null => false
  | .bool b => b
  | .num .nan => false
  | .num (.finite _ m _) => m != 0
  | .num (.infinity _) => true
  | .str s => s != ""
  | .arr _ => true
  | .obj _ => true

/-- Truthiness of a property read, `undefined` being falsy. -/
def truthyOpt : Option JsValue → Bool
  | none => false
  | some v => v.truthy

/-! ## The DOM -/

/-- A node of a parsed XML document. Comments stand for every node kind that is neither text
nor element. -/
inductive Node where
  | text (data : String)
  | comment (data : String)
  | element (tagName : String) (attributes : List (String × String)) (childNodes : List Node)

/-- An element node. -/
structure Element where
  tagName : String
  attributes : List (String × String)
  childNodes : List Node

/-- The element behind a node, if it is one. -/
def Node.toElement? : Node → Option Element
  | .element t a cs => some ⟨t, a, cs⟩
  | _ => none

mutual
/-- Text content of a node: the concatenated text of all its descendants. -/
def Node.textContent : Node → String
  | .text d => d
  | .comment _ => ""
  | .element _ _ cs => Node.textContentList cs
/-- Concatenated text content of a list of nodes. -/
def Node.textContentList : List Node → String
  | [] => ""
  | n :: ns => Node.textContent n ++ Node.textContentList ns
end

mutual
/-- The elements of the subtree rooted at a node, the node first, in document order. -/
def Node.subtreeElements : Node → List Element
  | .text _ => []
  | .comment _ => []
  | .element t a cs => ⟨t, a, cs⟩ :: Node.subtreeElementsList cs
/-- The elements of the subtrees of a list of nodes, in document order. -/
def Node.subtreeElementsList : List Node → List Element
  | [] => []
  | n :: ns => Node.subtreeElements n ++ Node.subtreeElementsList ns
end

/-- The property `textContent` of an element. -/
def Element.textContent (e : Element) : String := Node.textContentList e.childNodes

/-- The property `children`: the child nodes that are elements. -/
def Element.children (e : Element) : List Element := e.childNodes.filterMap Node.toElement?

/-- All descendants of an element, in document order. -/
def Element.descendants (e : Element) : List Element := Node.subtreeElementsList e.childNodes

/-- The method `getElementsByTagName` of an element: the descendants with the given name, in
document order; the name `*` matches every element. -/
def Element.getElementsByTagName (e : Element) (name : String) : List Element :=
  e.descendants.filter fun d => name == "*" || d.tagName == name

/-- The method `getElementsByTagName` of the document whose root is `root`: the root counts. -/
def documentElementsByTagName (root : Element) (name : String) : List Element :=
  (root :: root.descendants).filter fun d => name == "*" || d.tagName == name

/-- The method `getAttribute`; `none` stands for `null`. -/
def Element.getAttribute (e : Element) (name : String) : Option String :=
  (e.attributes.find? fun a => a.1 == name).map fun a => a.2

/-! ## Regular expressions of the parser -/

/-- An atom of an anchored regular expression without alternatives: a literal character or the
digit class. -/
inductive RegexAtom where
  | lit (c : Char)
  | digit

/-- Does a character match an atom. -/
def RegexAtom.test : RegexAtom → Char → Bool
  | .lit c, x => x == c
  | .digit, x => isDecimalDigit x

/-- Anchored match of a sequence of atoms against a whole text. -/
def matchAtoms : List RegexAtom → List Char → Bool
  | [], [] => true
  | a :: as, c :: cs => a.test c && matchAtoms as cs
  | _, _ => false

/-- Expansion of counted repetitions such as `d{4}`. -/
def expandCounts (p : List (RegexAtom × Nat)) : List RegexAtom :=
  p.flatMap fun a => List.replicate a.2 a.1

/-- The regular expression literal of `isValidDate` as it stands in the source. In a regular
expression literal `\\` is an escaped backslash, so the atoms are: a backslash, `d{4}`, a
hyphen, a backslash, `d{2}`, a hyphen, a backslash, `d{2}`, between `^` and `$`. -/
def isValidDateRegex : List (RegexAtom × Nat) :=
  [(.lit '\\', 1), (.lit 'd', 4), (.lit '-', 1), (.lit '\\', 1), (.lit 'd', 2), (.lit '-', 1),
    (.lit '\\', 1), (.lit 'd', 2)]

/-! ## Platform -/

/-- What the browser supplies to the parser. -/
structure Platform where
  /-- Whether `new Date(text)` is a valid date (its time value is not `NaN`). -/
  dateIsValid : String → Bool
  /-- The function `JSON.parse`; `none` stands for a thrown `SyntaxError`. -/
  jsonParse : String → Option JsValue
  /-- The value of `Date.now()` at the call of `generateId`. -/
  now : Nat
  /-- The value of `Math.random().toString(36).substr(2, 9)` at the call of `generateId`. -/
  randomSuffix : String
  /-- The conversion of a number to text (`Number::toString`). -/
  numberToString : JsNumber → String
  /-- The call `JSON.stringify(value)`. -/
  jsonStringify : JsValue → String
  /-- The call `JSON.stringify(value, null, indent)`. -/
  jsonStringifyIndent : Nat → JsValue → String

mutual
/-- The conversion `String(v)` of a value, as done by a template literal. -/
def jsToString (p : Platform) : JsValue → String
  | .null => "null"
  | .bool b => if b then "true" else "false"
  | .num n => p.numberToString n
  | .str s => s
  | .arr items => jsJoinComma p items
  | .obj _ => "[object Object]"
/-- The method `Array.prototype.join` with the default separator; `null` elements give the empty
text. -/
def jsJoinComma (p : Platform) : List JsValue → String
  | [] => ""
  | .null :: rest => (if rest.isEmpty then "" else ",") ++ jsJoinComma p rest
  | v :: rest => jsToString p v ++ (if rest.isEmpty then "" else ",") ++ jsJoinComma p rest
end

/-- The conversion `String(o[k])` of a property read; a missing property reads `undefined`. -/
def jsToStringOpt (p : Platform) : Option JsValue → String
  | none => "undefined"
  | some v => jsToString p v

/-- The text of an array element inside `join`: empty for `null`. -/
def jsJoinElement (p : Platform) : JsValue → String
  | .null => ""
  | v => jsToString p v

/-- The method `Array.prototype.join` with a given separator. -/
def jsJoin (p : Platform) (sep : String) : List JsValue → String
  | [] => ""
  | [v] => jsJoinElement p v
  | v :: w :: rest => jsJoinElement p v ++ sep ++ jsJoin p sep (w :: rest)

/-- The test `typeof v === 'object'`: objects, arrays and `null`. -/
def typeofIsObject : JsValue → Bool
  | .null => true
  | .arr _ => true
  | .obj _ => true
  | _ => false

/-- The test `Array.isArray(v)`. -/
def isArray : JsValue → Bool
  | .arr _ => true
  | _ => false

/-- The function `Object.entries`: the own entries of an object, the indexed elements of an
array, the indexed characters of a string, nothing for the other values. -/
def objectEntries : JsValue → List (String × JsValue)
  | .obj entries => entries
  | .arr items => items.enum.map fun iv => (toString iv.1, iv.2)
  | .str s => s.data.enum.map fun ic => (toString ic.1, .str (String.singleton ic.2))
  | _ => []

/-! ## XMLParser -/

namespace XMLParser

/-- Required metadata fields of the `dataset` schema (`loadSchemas`). -/
def metadataRequired : List String :=
  ["title", "description", "category", "source", "updated", "license"]

/-- Optional metadata fields of the `dataset` schema (`loadSchemas`). -/
def metadataOptional : List String := ["tags", "contact", "frequency"]

/-- Required sections of the `dataset` schema (`loadSchemas`). -/
def datasetRequired : List String := ["metadata", "data"]

/-- Required fields of the `category` schema (`loadSchemas`). -/
def categoryRequired : List String := ["name", "description"]

/-- Optional fields of the `category` schema (`loadSchemas`). -/
def categoryOptional : List String := ["icon", "color", "parent"]

/-- The method `generateId`. -/
def generateId (p : Platform) : String :=
  "dataset_" ++ toString p.now ++ "_" ++ p.randomSuffix

/-- The method `isValidDate`. -/
def isValidDate (p : Platform) (dateString : String) : Bool :=
  if !matchAtoms (expandCounts isValidDateRegex) dateString.data then false
  else p.dateIsValid dateString

/-- The method `parseMetadata`, first loop: the required fields in schema order. -/
def parseRequiredFields (metadataElement : Element) : List String → JsObject → Except String JsObject
  | [], metadata => .ok metadata
  | field :: rest, metadata =>
    match (metadataElement.getElementsByTagName field).head? with
    | none => .error ("Missing required metadata field: " ++ field)
    | some element =>
      parseRequiredFields metadataElement rest
        (metadata.set field (.str (jsTrim element.textContent)))

/-- The method `parseMetadata`, second loop: the optional fields, `tags` being split on commas. -/
def parseOptionalFields (metadataElement : Element) : List String → JsObject → JsObject
  | [], metadata => metadata
  | field :: rest, metadata =>
    match (metadataElement.getElementsByTagName field).head? with
    | none => parseOptionalFields metadataElement rest metadata
    | some element =>
      if field = "tags" then
        parseOptionalFields metadataElement rest
          (metadata.set field
            (.arr ((jsSplit "," element.textContent).map fun tag => .str (jsTrim tag))))
      else
        parseOptionalFields metadataElement rest
          (metadata.set field (.str (jsTrim element.textContent)))

/-- The final check of `parseMetadata`: a truthy `updated` must pass `isValidDate`. At this point
`updated` is always a string. -/
def checkUpdated (p : Platform) (metadata : JsObject) : Except String JsObject :=
  match metadata.get "updated" with
  | some (.str updated) =>
    if updated != "" && !isValidDate p updated then
      .error "Invalid date format in updated field. Use YYYY-MM-DD format."
    else .ok metadata
  | _ => .ok metadata

/-- The method `parseMetadata`. -/
def parseMetadata (p : Platform) (metadataElement : Element) : Except String JsObject :=
  match parseRequiredFields metadataElement metadataRequired [] with
  | .error e => .error e
  | .ok metadata => checkUpdated p (parseOptionalFields metadataElement metadataOptional metadata)

/-- The coercion of a config value in `parseConfig`. -/
def configValue (p : Platform) (value : String) : JsValue :=
  if jsStartsWith value "\x7b" || jsStartsWith value "[" then
    match p.jsonParse value with
    | some v => v
    | none => .str value
  else if value = "true" || value = "false" then .bool (value = "true")
  else if !jsIsNaN value && value != "" then .num (stringToNumber value)
  else .str value

/-- The prototype of the object that `parseConfig` builds: `Object.prototype` for the object
literal it starts from; an assignment to `__proto__` can install a parsed object, a parsed array
or `null` in its place. -/
inductive ConfigPrototype where
  | objectPrototype
  | object (entries : JsObject)
  | array (items : List JsValue)
  | null

/-- The object under construction in `parseConfig`: its own properties and its prototype. -/
structure ConfigState where
  own : JsObject
  prototype : ConfigPrototype

/-- Does an assignment to the key `__proto__`, not found among the own properties, reach the
accessor of `Object.prototype` along the prototype chain. It does from `Object.prototype`
itself, from a parsed array (its chain is `Array.prototype`, `Object.prototype`) and from a
parsed object without own property of that name; it does not when the chain is empty, nor from
a parsed object with an own property `__proto__`, which `JSON.parse` defines as a writable data
property. -/
def ConfigPrototype.reachesAccessor : ConfigPrototype → Bool
  | .objectPrototype => true
  | .object entries => (JsObject.get entries "__proto__").isNone
  | .array _ => true
  | .null => false

/-- The setter of the accessor `__proto__` of `Object.prototype`, called on the object under
construction: an object, an array or `null` becomes the prototype, any other value is
ignored. -/
def ConfigPrototype.assigned (current : ConfigPrototype) : JsValue → ConfigPrototype
  | .obj entries => .object entries
  | .arr items => .array items
  | .null => .null
  | _ => current

/-- The assignment `config[key] = value` of `parseConfig`. The key `__proto__` is the only one
for which the prototype chain can hold an accessor: while the object has no own property of that
name and the chain reaches the accessor, the setter is called and no own property is stored. In
every other case (any other key, whose inherited properties are writable data properties, or
`__proto__` once it is an own property or the chain no longer reaches the accessor) the
assignment defines or updates an own property. -/
def ConfigState.assign (config : ConfigState) (key : String) (value : JsValue) : ConfigState :=
  if key = "__proto__" && (config.own.get key).isNone && config.prototype.reachesAccessor then
    ⟨config.own, config.prototype.assigned value⟩
  else ⟨config.own.setOwn key value, config.prototype⟩

/-- The loop of `parseConfig` over the immediate child elements: the object built, with its
prototype. -/
def parseConfigState (p : Platform) (configElement : Element) : ConfigState :=
  configElement.children.foldl
    (fun config child => config.assign child.tagName (configValue p (jsTrim child.textContent)))
    ⟨[], .objectPrototype⟩

/-- The method `parseConfig`: the object returned, given by its own properties. -/
def parseConfig (p : Platform) (configElement : Element) : JsObject :=
  (parseConfigState p configElement).own

/-- The list `validTypes` of `parseVisualization`. -/
def validTypes : List String :=
  ["bar", "line", "pie", "doughnut", "scatter", "area", "map", "table", "heatmap"]

/-- The method `parseVisualization`. -/
def parseVisualization (p : Platform) (vizElement : Element) : Except String JsObject :=
  match (vizElement.getElementsByTagName "type").head? with
  | none => .error "Missing required visualization type"
  | some typeElement =>
    let type := jsTrim typeElement.textContent
    if !validTypes.contains type then .error ("Invalid visualization type: " ++ type)
    else
      let visualization : JsObject := [("type", .str type)]
      let visualization : JsObject :=
        match (vizElement.getElementsByTagName "config").head? with
        | some configElement => visualization.set "config" (.obj (parseConfig p configElement))
        | none => visualization
      let visualization : JsObject :=
        match (vizElement.getElementsByTagName "template").head? with
        | some templateElement =>
          visualization.set "template" (.str (jsTrim templateElement.textContent))
        | none => visualization
      .ok visualization

/-- The coercion of a CSV value in `parseCSV`: a number when the text is numeric and not empty. -/
def csvValue (value : String) : JsValue :=
  if !jsIsNaN value && value != "" then .num (stringToNumber value) else .str value

/-- One row object of `parseCSV`. The two lists have the same length when this is called, so
pairing them is the indexed read `values[index]`. -/
def csvRow (headers values : List String) : JsObject :=
  (headers.zip values).foldl (fun row hv => row.set hv.1 (csvValue hv.2)) []

/-- The loop of `parseCSV` over the lines after the header, `i` being the index of the line and
`data` the rows pushed so far. -/
def parseCSVLoop (headers : List String) : Nat → List String → List JsValue →
    Except String (List JsValue)
  | _, [], data => .ok data
  | i, line :: rest, data =>
    let values := (jsSplit "," line).map jsTrim
    if values.length != headers.length then
      .error ("CSV row " ++ toString i ++ " has " ++ toString values.length
        ++ " values but expected " ++ toString headers.length)
    else parseCSVLoop headers (i + 1) rest (data ++ [.obj (csvRow headers values)])

/-- The method `parseCSV`. The separator of the line split is the string literal of the source,
whose two characters are a backslash and the letter n. -/
def parseCSV (csvText : String) : Except String JsValue :=
  let lines := jsSplit "\\n" (jsTrim csvText)
  if lines.length < 2 then .error "CSV must have at least header and one data row"
  else
    let headers := (jsSplit "," (lines.headD "")).map jsTrim
    match parseCSVLoop headers 1 lines.tail [] with
    | .error e => .error e
    | .ok data => .ok (.arr data)

/-- The coercion of a record field or item value: a number when the text is numeric and not
empty, else a boolean for `true` and `false`, else the text. -/
def coerceValue (value : String) : JsValue :=
  if !jsIsNaN value && value != "" then .num (stringToNumber value)
  else if value = "true" || value = "false" then .bool (value = "true")
  else .str value

/-- The object built for one `record` element in `parseRecords`. -/
def recordObject (record : Element) : JsObject :=
  record.children.foldl
    (fun recordData field => recordData.set field.tagName (coerceValue (jsTrim field.textContent)))
    []

/-- The method `parseRecords`. -/
def parseRecords (records : List Element) : List JsValue :=
  records.map fun record => .obj (recordObject record)

/-- The key of an item in `parseItems`: the `key` attribute unless it is missing or empty, else
the `name` attribute. -/
def itemKey (item : Element) : Option String :=
  match item.getAttribute "key" with
  | some k => if k != "" then some k else item.getAttribute "name"
  | none => item.getAttribute "name"

/-- The method `parseItems`. The object literal with a computed key defines an own property. -/
def parseItems (items : List Element) : List JsValue :=
  items.map fun item =>
    let value := coerceValue (jsTrim item.textContent)
    match itemKey item with
    | some key => if key != "" then .obj [(key, value)] else value
    | none => value

/-- The method `parseData`. -/
def parseData (p : Platform) (dataElement : Element) : Except String JsValue :=
  match (dataElement.getElementsByTagName "json").head? with
  | some jsonData =>
    match p.jsonParse jsonData.textContent with
    | some v => .ok v
    | none => .error "Invalid JSON data format"
  | none =>
    match (dataElement.getElementsByTagName "csv").head? with
    | some csvData => parseCSV csvData.textContent
    | none =>
      let records := dataElement.getElementsByTagName "record"
      if records.length > 0 then .ok (.arr (parseRecords records))
      else
        let items := dataElement.getElementsByTagName "item"
        if items.length > 0 then .ok (.arr (parseItems items))
        else .error "No valid data format found. Use json, csv, record, or item elements."

/-- The dataset object built by `parseDataset`. -/
structure Dataset where
  id : String
  metadata : JsObject
  visualization : JsObject
  data : JsValue

/-- The property read `dataset[name]`. -/
def Dataset.prop (d : Dataset) (name : String) : Option JsValue :=
  if name = "id" then some (.str d.id)
  else if name = "metadata" then some (.obj d.metadata)
  else if name = "visualization" then some (.obj d.visualization)
  else if name = "data" then some d.data
  else none

/-- First failing element of a `forEach` whose body throws when the check fails. -/
def firstMissing (present : String → Bool) : List String → Option String
  | [] => none
  | x :: rest => if !present x then some x else firstMissing present rest

/-- The list `validCategories` of `validateDataset`. -/
def validCategories : List String :=
  ["Demografia", "Economia", "Educacion", "Finanzas", "Transporte", "Medio Ambiente",
    "Cultura", "Deportes", "Salud", "Seguridad"]

/-- The list `validLicenses` of `validateDataset`. -/
def validLicenses : List String :=
  ["CC BY 4.0", "CC BY-SA 4.0", "CC0 1.0", "ODbL", "Public Domain"]

/-- The method `Array.prototype.includes` on a list of strings, for a property read. -/
def includesValue (xs : List String) : Option JsValue → Bool
  | some (.str s) => xs.contains s
  | _ => false

/-- The is-an-empty-array test of `validateDataset`. -/
def isEmptyArray : JsValue → Bool
  | .arr items => items.length == 0
  | _ => false

/-- The method `validateDataset`; the result is the list of `console.warn` messages. -/
def validateDataset (p : Platform) (dataset : Dataset) : Except String (List String) :=
  match firstMissing (fun s => truthyOpt (dataset.prop s)) datasetRequired with
  | some s => .error ("Missing required section: " ++ s)
  | none =>
    match firstMissing (fun field => truthyOpt (dataset.metadata.get field)) metadataRequired with
    | some field => .error ("Missing required metadata field: " ++ field)
    | none =>
      if !dataset.data.truthy || isEmptyArray dataset.data then
        .error "Data section cannot be empty"
      else
        let w1 : List String :=
          if !includesValue validCategories (dataset.metadata.get "category") then
            ["Category '" ++ jsToStringOpt p (dataset.metadata.get "category")
              ++ "' is not in the standard list"]
          else []
        let w2 : List String :=
          if !includesValue validLicenses (dataset.metadata.get "license") then
            ["License '" ++ jsToStringOpt p (dataset.metadata.get "license")
              ++ "' is not in the recommended list"]
          else []
        .ok (w1 ++ w2)

/-- The method `parseDataset`; the result carries the warnings logged by the validation. -/
def parseDataset (p : Platform) (rootElement : Element) : Except String (Dataset × List String) :=
  match (rootElement.getElementsByTagName "metadata").head? with
  | none => .error "Missing required metadata section"
  | some metadataElement =>
    match parseMetadata p metadataElement with
    | .error e => .error e
    | .ok metadata =>
      let viz : Except String JsObject :=
        match (rootElement.getElementsByTagName "visualization").head? with
        | some vizElement => parseVisualization p vizElement
        | none => .ok []
      match viz with
      | .error e => .error e
      | .ok visualization =>
        match (rootElement.getElementsByTagName "data").head? with
        | none => .error "Missing required data section"
        | some dataElement =>
          match parseData p dataElement with
          | .error e => .error e
          | .ok data =>
            let dataset : Dataset := ⟨generateId p, metadata, visualization, data⟩
            match validateDataset p dataset with
            | .error e => .error e
            | .ok warnings => .ok (dataset, warnings)

/-- The method `parseCategory`, first loop. -/
def parseCategoryRequired (rootElement : Element) : List String → JsObject → Except String JsObject
  | [], category => .ok category
  | field :: rest, category =>
    match (rootElement.getElementsByTagName field).head? with
    | none => .error ("Missing required category field: " ++ field)
    | some element =>
      parseCategoryRequired rootElement rest
        (category.set field (.str (jsTrim element.textContent)))

/-- The method `parseCategory`, second loop. -/
def parseCategoryOptional (rootElement : Element) : List String → JsObject → JsObject
  | [], category => category
  | field :: rest, category =>
    match (rootElement.getElementsByTagName field).head? with
    | none => parseCategoryOptional rootElement rest category
    | some element =>
      parseCategoryOptional rootElement rest
        (category.set field (.str (jsTrim element.textContent)))

/-- The method `parseCategory`. -/
def parseCategory (p : Platform) (rootElement : Element) : Except String JsObject :=
  match parseCategoryRequired rootElement categoryRequired [("id", .str (generateId p))] with
  | .error e => .error e
  | .ok category => .ok (parseCategoryOptional rootElement categoryOptional category)

/-- What `parseXML` returns: a dataset or a category object. -/
inductive Parsed where
  | dataset (d : Dataset)
  | category (c : JsObject)

/-- The body of the `try` block of `parseXML`, on the document produced by `DOMParser`, given by
its root element. -/
def parseXMLBody (p : Platform) (root : Element) (schemaType : String) :
    Except String (Parsed × List String) :=
  match (documentElementsByTagName root "parsererror").head? with
  | some parseError => .error ("XML Parse Error: " ++ parseError.textContent)
  | none =>
    if schemaType = "dataset" then
      match parseDataset p root with
      | .error e => .error e
      | .ok r => .ok (.dataset r.1, r.2)
    else if schemaType = "category" then
      match parseCategory p root with
      | .error e => .error e
      | .ok c => .ok (.category c, [])
    else .error ("Unknown schema type: " ++ schemaType)

/-- The method `parseXML`: every error of the body is rethrown with a prefix. -/
def parseXML (p : Platform) (root : Element) (schemaType : String) :
    Except String (Parsed × List String) :=
  match parseXMLBody p root schemaType with
  | .error message => .error ("XML Processing Error: " ++ message)
  | .ok r => .ok r

/-- The method `parseXML` from its text argument. The argument `parseFromString` is the
`DOMParser` of the browser for the type `text/xml`, given by the root element of the document
that it returns. -/
def parseXMLText (p : Platform) (parseFromString : String → Element)
    (xmlString schemaType : String) : Except String (Parsed × List String) :=
  parseXML p (parseFromString xmlString) schemaType

/-- One call `text.replace(/c/g, r)` of `escapeXML`: every occurrence of the character `c` is
replaced by the text `r`. -/
def replaceAllChar (c : Char) (r : String) (text : String) : String :=
  ⟨text.data.flatMap fun x => if x = c then r.data else [x]⟩

/-- The chain of five replacements of `escapeXML`, in source order: ampersand, less-than,
greater-than, double quote (character 34), single quote (character 39). -/
def escapeText (text : String) : String :=
  replaceAllChar (Char.ofNat 39) "&#39;"
    (replaceAllChar (Char.ofNat 34) "&quot;"
      (replaceAllChar '>' "&gt;" (replaceAllChar '<' "&lt;" (replaceAllChar '&' "&amp;" text))))

/-- The method `escapeXML`: a value that is not a string is first converted with `String`. -/
def escapeXML (p : Platform) (text : JsValue) : String :=
  match text with
  | .str s => escapeText s
  | v => escapeText (jsToString p v)

/-- The method `escapeXML` applied to a property read, `undefined` included. -/
def escapeXMLOpt (p : Platform) : Option JsValue → String
  | none => escapeText "undefined"
  | some v => escapeXML p v

/-- The line written by `datasetToXML` for one metadata entry. Every line ends with the string
literal of the source, a backslash and the letter n. -/
def metadataLine (p : Platform) (entry : String × JsValue) : String :=
  match entry.2 with
  | .arr items =>
    "    <" ++ entry.1 ++ ">" ++ jsJoin p ", " items ++ "</" ++ entry.1 ++ ">\\n"
  | value => "    <" ++ entry.1 ++ ">" ++ escapeXML p value ++ "</" ++ entry.1 ++ ">\\n"

/-- The metadata section written by `datasetToXML`. -/
def metadataSection (p : Platform) (metadata : JsObject) : String :=
  metadata.foldl (fun xml entry => xml ++ metadataLine p entry) "  <metadata>\\n"
    ++ "  </metadata>\\n"

/-- The line written by `datasetToXML` for one config entry. -/
def configLine (p : Platform) (entry : String × JsValue) : String :=
  if typeofIsObject entry.2 then
    "      <" ++ entry.1 ++ ">" ++ p.jsonStringify entry.2 ++ "</" ++ entry.1 ++ ">\\n"
  else "      <" ++ entry.1 ++ ">" ++ escapeXML p entry.2 ++ "</" ++ entry.1 ++ ">\\n"

/-- The config block written by `datasetToXML` when `visualization.config` is truthy. -/
def configSection (p : Platform) (visualization : JsObject) : String :=
  if truthyOpt (visualization.get "config") then
    (objectEntries ((visualization.get "config").getD .null)).foldl
        (fun xml entry => xml ++ configLine p entry) "    <config>\\n"
      ++ "    </config>\\n"
  else ""

/-- The template line written by `datasetToXML` when `visualization.template` is truthy. -/
def templateSection (p : Platform) (visualization : JsObject) : String :=
  if truthyOpt (visualization.get "template") then
    "    <template>" ++ escapeXMLOpt p (visualization.get "template") ++ "</template>\\n"
  else ""

/-- The visualization section written by `datasetToXML`: nothing when the object has no key. -/
def visualizationSection (p : Platform) (visualization : JsObject) : String :=
  if visualization.length > 0 then
    "  <visualization>\\n"
      ++ ("    <type>" ++ jsToStringOpt p (visualization.get "type") ++ "</type>\\n")
      ++ configSection p visualization
      ++ templateSection p visualization
      ++ "  </visualization>\\n"
  else ""

/-- The data section written by `datasetToXML`. -/
def dataSection (p : Platform) (data : JsValue) : String :=
  "  <data>\\n" ++ "    <json>\\n" ++ p.jsonStringifyIndent 6 data ++ "\\n    </json>\\n"
    ++ "  </data>\\n"

/-- The method `datasetToXML`. -/
def datasetToXML (p : Platform) (dataset : Dataset) : String :=
  "<?xml version=\"1.0\" encoding=\"UTF-8\"?>\\n" ++ "<dataset>\\n"
    ++ metadataSection p dataset.metadata
    ++ visualizationSection p dataset.visualization
    ++ dataSection p dataset.data
    ++ "</dataset>"

end XMLParser

/-! ## Property reads -/

/-- A property key: a text, or the string of one code unit that is half of a surrogate pair,
which is no text of the model. -/
inductive PropertyKey where
  | text (s : String)
  | unit (u : Nat)

/-- A value that a property read can reach: a value of the model, a string of one code unit
that is half of a surrogate pair, or a value `b` that belongs to the realm, such as an inherited
method, a constructor or a prototype object. -/
inductive Reached (β : Type) where
  | value (v : JsValue)
  | surrogate (unit : Nat)
  | builtin (b : β)

/-- What the realm, the set of built-in objects of the page, supplies to a property read. A read
can throw (an accessor can), which `Except.error` stands for; `none` stands for `undefined`. -/
structure Realm (β : Type) where
  /-- Truthiness of a value of the realm. -/
  truthy : β → Bool
  /-- The property read `b[key]` on a value of the realm. -/
  builtinProp : β → PropertyKey → Except String (Option (Reached β))
  /-- The read `v[key]` when `v` has no own property `key`: the lookup along the prototype chain
  of `v`, with `v` as the receiver. -/
  inherited : Reached β → PropertyKey → Except String (Option (Reached β))
  /-- The conversion of a value of the realm to a property key (`ToPropertyKey`). -/
  propertyKey : β → Except String PropertyKey

/-- The number of a length or an index. -/
def natNumber (n : Nat) : JsValue := .num (JsNumber.ofDecimal false n 0)

/-- The element of a list at the index written by `key` in canonical decimal form. -/
def indexed {α : Type} (xs : List α) (key : String) : Option α :=
  match (List.range xs.length).find? fun i => toString i == key with
  | some i => xs[i]?
  | none => none

/-- The UTF-16 code units of a text, which are what the length and the indices of a JavaScript
string count: one unit for a character of the basic plane, a surrogate pair for any other. -/
def utf16Units (s : String) : List Nat :=
  s.data.flatMap fun c =>
    if c.toNat < 0x10000 then [c.toNat]
    else [0xD800 + (c.toNat - 0x10000) / 0x400, 0xDC00 + (c.toNat - 0x10000) % 0x400]

/-- The string of one code unit. -/
def unitString {β : Type} (u : Nat) : Reached β :=
  if 0xD800 ≤ u && u ≤ 0xDFFF then .surrogate u else .value (.str (String.singleton (Char.ofNat u)))

/-- The own property `key` of a value, when it has one: the entries of an object; the elements
and the length of an array; the code units and the length of a string. Numbers and booleans
have none. -/
def ownProp {β : Type} : Reached β → String → Option (Reached β)
  | .value (.obj entries), key => (JsObject.get entries key).map .value
  | .value (.arr items), key =>
    if key = "length" then some (.value (natNumber items.length))
    else (indexed items key).map .value
  | .value (.str s), key =>
    if key = "length" then some (.value (natNumber (utf16Units s).length))
    else (indexed (utf16Units s) key).map unitString
  | .surrogate u, key =>
    if key = "length" then some (.value (natNumber 1))
    else if key = "0" then some (.surrogate u)
    else none
  | _, _ => none

/-- The own property for a key of either kind: no value of the model has an own property named
by half of a surrogate pair. -/
def ownKey {β : Type} (current : Reached β) : PropertyKey → Option (Reached β)
  | .text key => ownProp current key
  | .unit _ => none

/-- The property read `current[key]`: a `TypeError` on `null`; else the own property when there
is one, else the property found along the prototype chain. -/
def readKey {β : Type} (realm : Realm β) (current : Reached β) (key : PropertyKey) :
    Except String (Option (Reached β)) :=
  match current with
  | .value .null => .error "TypeError: Cannot read properties of null"
  | .builtin b => realm.builtinProp b key
  | c =>
    match ownKey c key with
    | some v => .ok (some v)
    | none => realm.inherited c key

/-- The property read `current[key]` for a key that is a text. -/
def readProp {β : Type} (realm : Realm β) (current : Reached β) (key : String) :
    Except String (Option (Reached β)) :=
  readKey realm current (.text key)

/-- Truthiness of a reached value (`ToBoolean`). -/
def Reached.truthy {β : Type} (realm : Realm β) : Reached β → Bool
  | .value v => v.truthy
  | .surrogate _ => true
  | .builtin b => realm.truthy b

/-! ## ChartGenerator -/

namespace ChartGenerator

/-- The list `labelCandidates` of `guessLabelField`, as the source file holds it: the fifth name
is the letter a, the characters U+00C3 and U+00B1, and the letter o. -/
def labelCandidates : List String :=
  ["name", "label", "category", "distrito", "aÃ±o", "mes", "fecha", "tipo"]

/-- The test `typeof sample[field] === 'string'`. -/
def isStringValue : Option JsValue → Bool
  | some (.str _) => true
  | _ => false

/-- The test `typeof sample[field] === 'number'`. -/
def isNumberValue : Option JsValue → Bool
  | some (.num _) => true
  | _ => false

/-- The method `guessLabelField` on a record; `none` stands for `undefined`, the first key of a
record without keys. -/
def guessLabelField (sample : JsObject) : Option String :=
  let fields := sample.map Prod.fst
  match labelCandidates.find? fun candidate => fields.contains candidate with
  | some candidate => some candidate
  | none =>
    match fields.find? fun field => isStringValue (sample.get field) with
    | some field => some field
    | none => fields.head?

/-- The method `guessValueFields` on a record. -/
def guessValueFields (sample : JsObject) (labelField : Option String) : List String :=
  (sample.map Prod.fst).filter fun field =>
    some field != labelField && isNumberValue (sample.get field)

/-- The names of the properties that `buildChartConfig` and the builders read on the
visualization and on the config. -/
def optionNames : List String :=
  ["type", "config", "labelField", "valueFields", "valueField", "colors", "datasetLabels",
    "tension", "fill", "xField", "yField", "groupField", "label", "title", "xAxis", "yAxis",
    "showGrid", "beginAtZero", "pointRadius", "pointHoverRadius", "legendPosition"]

/-- The field `defaultColors` set by the constructor. -/
def defaultColors : List String :=
  ["#2C5F2D", "#97BC62", "#F4A261", "#264653", "#28A745", "#FFC107", "#DC3545", "#17A2B8",
    "#6F42C1", "#E83E8C", "#20C997", "#FD7E14"]

/-- A value of a chart configuration: `undefined`, a value that was read from the data or the
config (or a constant of the source), an array, an object literal, or a function literal of the
source, given by a name. -/
inductive ChartValue (β : Type) where
  | undefined
  | reached (r : Reached β)
  | arr (items : List (ChartValue β))
  | obj (entries : List (String × ChartValue β))
  | func (name : String)

/-- What `buildChartConfig` throws: the `Error` of its `default` case, carrying the type; a
`TypeError` of the language, such as the call of a method that a value does not have (the text
of its message is the engine's, the model gives a description); or what a read of the realm
threw. -/
inductive ChartError (β : Type) where
  | unsupportedType (type : Reached β)
  | typeError (description : String)
  | thrown (message : String)

/-- The message of the `Error` thrown for an unsupported type that is a text. -/
def ChartError.message {β : Type} : ChartError β → Option String
  | .unsupportedType (.value (.str type)) => some ("Unsupported chart type: " ++ type)
  | .typeError description => some description
  | .thrown message => some message
  | _ => none

/-- A text as a chart value. -/
def ChartValue.text {β : Type} (s : String) : ChartValue β := .reached (.value (.str s))

/-- A boolean as a chart value. -/
def ChartValue.bool {β : Type} (b : Bool) : ChartValue β := .reached (.value (.bool b))

/-- The number `mantissa * 10 ^ exponent` as a chart value. -/
def ChartValue.number {β : Type} (mantissa : Nat) (exponent : Int) : ChartValue β :=
  .reached (.value (.num (JsNumber.ofDecimal false mantissa exponent)))

/-- The result of a property read as a chart value. -/
def ChartValue.ofRead {β : Type} : Option (Reached β) → ChartValue β
  | none => .undefined
  | some r => .reached r

/-- Truthiness of the result of a property read. -/
def truthyRead {β : Type} (realm : Realm β) : Option (Reached β) → Bool
  | none => false
  | some r => r.truthy realm

/-- The operator `||` between the result of a read and a default. -/
def orReached {β : Type} (realm : Realm β) (read : Option (Reached β)) (fallback : Reached β) :
    Reached β :=
  match read with
  | some r => if r.truthy realm then r else fallback
  | none => fallback

/-- The operator `||` between the result of a read and a default, as a chart value. -/
def orValue {β : Type} (realm : Realm β) (read : Option (Reached β)) (fallback : ChartValue β) :
    ChartValue β :=
  match read with
  | some r => if r.truthy realm then .reached r else fallback
  | none => fallback

/-- An error thrown by a read of the realm, as an error of `buildChartConfig`. -/
def liftRead {β α : Type} : Except String α → Except (ChartError β) α
  | .ok a => .ok a
  | .error message => .error (.thrown message)

/-- The read `config.name` of an option. -/
def option {β : Type} (realm : Realm β) (config : Reached β) (name : String) :
    Except (ChartError β) (Option (Reached β)) :=
  liftRead (readProp realm config name)

mutual
/-- Does the conversion of a value to a string throw. The conversion of an object looks for its
method `toString`: an own property of that name, which in a parsed value is never a function,
hides the inherited method, after which the inherited `valueOf` returns the object itself and
the conversion ends in a `TypeError`. The conversion of an array joins the conversions of its
elements, `null` giving the empty text. -/
def stringConversionThrows : JsValue → Bool
  | .obj entries => (JsObject.get entries "toString").isSome
  | .arr items => stringConversionThrowsList items
  | _ => false
/-- Does the conversion of an element of the list throw. -/
def stringConversionThrowsList : List JsValue → Bool
  | [] => false
  | .null :: rest => stringConversionThrowsList rest
  | v :: rest => stringConversionThrows v || stringConversionThrowsList rest
end

/-- The conversion of a value used as a property key (`ToPropertyKey`); `undefined` gives the
text `undefined`. -/
def toPropertyKey {β : Type} (p : Platform) (realm : Realm β) :
    Option (Reached β) → Except (ChartError β) PropertyKey
  | none => .ok (.text "undefined")
  | some (.value v) =>
    if stringConversionThrows v then
      .error (.typeError "Cannot convert object to primitive value")
    else .ok (.text (jsToString p v))
  | some (.surrogate u) => .ok (.unit u)
  | some (.builtin b) => liftRead (realm.propertyKey b)

/-- The read `item[key]` on an item of the data: a `TypeError` when the item is `null`. -/
def itemProp {β : Type} (p : Platform) (realm : Realm β) (item : JsValue)
    (key : Option (Reached β)) : Except (ChartError β) (Option (Reached β)) :=
  match item with
  | .null => .error (.typeError "Cannot read properties of null")
  | _ =>
    match toPropertyKey p realm key with
    | .error e => .error e
    | .ok k => liftRead (readKey realm (.value item) k)

/-- The method `Array.prototype.map` with a callback that can throw: the first error ends the
loop. The callback takes the element and its index; `index` is the index of the first
element. -/
def mapThrowing {α γ ε : Type} (f : α → Nat → Except ε γ) : List α → Nat → Except ε (List γ)
  | [], _ => .ok []
  | x :: xs, index =>
    match f x index with
    | .error e => .error e
    | .ok y =>
      match mapThrowing f xs (index + 1) with
      | .error e => .error e
      | .ok ys => .ok (y :: ys)

/-- The call `Object.keys(sample)` of the two guessing methods, with what `typeof sample[field]`
needs of each value: `none` stands for the `TypeError` on `null`. An array has its indices as
keys; a string has the indices of its code units, each holding a string, for which the empty
text stands; a number or a boolean has no key. -/
def sampleFields : JsValue → Option JsObject
  | .null => none
  | .obj entries => some entries
  | .arr items => some (objectEntries (.arr items))
  | .str s => some ((utf16Units s).enum.map fun iu => (toString iu.1, .str ""))
  | _ => some []

/-- The value `config.labelField || this.guessLabelField(data[0])`. -/
def labelFieldOf {β : Type} (realm : Realm β) (sample : JsValue) (config : Reached β) :
    Except (ChartError β) (Option (Reached β)) :=
  match option realm config "labelField" with
  | .error e => .error e
  | .ok configured =>
    if truthyRead realm configured then .ok configured
    else
      match sampleFields sample with
      | none => .error (.typeError "Cannot convert undefined or null to object")
      | some fields => .ok ((guessLabelField fields).map fun field => .value (.str field))

/-- The label field as the strict comparison `field !== labelField` of `guessValueFields` sees
it: only a text can equal a field name. -/
def labelName {β : Type} : Option (Reached β) → Option String
  | some (.value (.str s)) => some s
  | _ => none

/-- The call `this.guessValueFields(data[0], labelField)`. -/
def guessValueFieldsOf {β : Type} (sample : JsValue) (labelField : Option (Reached β)) :
    Except (ChartError β) (List String) :=
  match sampleFields sample with
  | none => .error (.typeError "Cannot convert undefined or null to object")
  | some fields => .ok (guessValueFields fields (labelName labelField))

/-- The method `extractLabels`. -/
def extractLabels {β : Type} (p : Platform) (realm : Realm β) (data : JsValue)
    (config : Reached β) : Except (ChartError β) (List (ChartValue β)) :=
  match data with
  | .arr (first :: rest) =>
    match labelFieldOf realm first config with
    | .error e => .error e
    | .ok labelField =>
      mapThrowing
        (fun item _ =>
          match itemProp p realm item labelField with
          | .error e => .error e
          | .ok v => .ok (orValue realm v (.text "")))
        (first :: rest) 0
  | _ => .ok []

/-- The Number nearest to a natural number (round to nearest, ties to even); `none` stands for
`Infinity`. A natural number below `2 ^ 53` is a Number. -/
def roundToNumber (n : Nat) : Option Nat :=
  if n < 2 ^ 53 then some n
  else
    let e := Nat.log2 n + 1 - 53
    let q := n / 2 ^ e
    let r := n % 2 ^ e
    let up := decide (r > 2 ^ (e - 1)) || (r == 2 ^ (e - 1) && q % 2 == 1)
    let v := (if up then q + 1 else q) * 2 ^ e
    if v < 2 ^ 1024 then some v else none

/-- The call `parseInt(text, 16)` on the code units of the text: white space is skipped, then a
sign and the prefix `0x` or `0X` are taken, then the longest run of hexadecimal digits. `none`
stands for `NaN`; the other results are a sign and a magnitude, the latter still to be rounded
to a Number. -/
def parseIntHex (units : List Nat) : Option (Bool × Nat) :=
  let trimmed := units.dropWhile fun u => isJSWhitespace (Char.ofNat u)
  let signed : Bool × List Nat :=
    match trimmed with
    | 45 :: r => (true, r)
    | 43 :: r => (false, r)
    | r => (false, r)
  let body : List Nat :=
    match signed.2 with
    | 48 :: 120 :: r => r
    | 48 :: 88 :: r => r
    | r => r
  let digits := (body.takeWhile fun u => (digitInRadix 16 (Char.ofNat u)).isSome).filterMap
    fun u => digitInRadix 16 (Char.ofNat u)
  if digits.isEmpty then none else some (signed.1, digitsToNat 16 digits)

/-- The text of the result of `parseInt` in a template literal. Below `2 ^ 53` an integer is
written with its decimal digits; a larger one is written by `Number::toString`. -/
def parsedIntText (p : Platform) : Option (Bool × Nat) → String
  | none => "NaN"
  | some (negative, n) =>
    match roundToNumber n with
    | none => if negative then "-Infinity" else "Infinity"
    | some m =>
      if m < 2 ^ 53 then (if negative && m != 0 then "-" else "") ++ toString m
      else p.numberToString (JsNumber.ofDecimal negative m 0)

/-- The conversion `ToInt32` of the result of `parseInt`, which the operators `>>` and `&`
apply: `NaN` and the infinities give 0, an integer is taken modulo `2 ^ 32` into the signed
range. -/
def toInt32 : Option (Bool × Nat) → Int
  | none => 0
  | some (negative, n) =>
    match roundToNumber n with
    | none => 0
    | some m =>
      let k : Int := if negative then -(m : Int) else (m : Int)
      let r := k % 4294967296
      if r ≥ 2147483648 then r - 4294967296 else r

/-- The method `String.prototype.slice` for two indices `start ≤ end` that are not negative, on
code units. -/
def sliceUnits (units : List Nat) (start stop : Nat) : List Nat :=
  (units.drop start).take (stop - start)

/-- The text that `parseInt` sees of `hex.slice(start, stop)`: the code units of the slice of a
string; the conversion to a string of the slice of an array, which can throw; `none` when the
value has no method `slice`, as a number, a boolean or an object. -/
def slicedText {β : Type} (p : Platform) (hex : Reached β) (start stop : Nat) :
    Option (Except (ChartError β) (List Nat)) :=
  match hex with
  | .value (.str s) => some (.ok (sliceUnits (utf16Units s) start stop))
  | .surrogate u => some (.ok (sliceUnits [u] start stop))
  | .value (.arr items) =>
    let part := (items.drop start).take (stop - start)
    if stringConversionThrowsList part then
      some (.error (.typeError "Cannot convert object to primitive value"))
    else some (.ok (utf16Units (jsToString p (.arr part))))
  | _ => none

/-- One colour component of `hexToRgba`: `parseInt(hex.slice(start, stop), 16)` as it is
written into the template literal. -/
def hexComponent {β : Type} (p : Platform) (hex : Reached β) (start stop : Nat) :
    Except (ChartError β) String :=
  match slicedText p hex start stop with
  | none => .error (.typeError "hex.slice is not a function")
  | some (.error e) => .error e
  | some (.ok units) => .ok (parsedIntText p (parseIntHex units))

/-- The method `hexToRgba`; `alpha` is the text of the second argument, a constant of the
caller. -/
def hexToRgba {β : Type} (p : Platform) (hex : Reached β) (alpha : String) :
    Except (ChartError β) String :=
  match hexComponent p hex 1 3 with
  | .error e => .error e
  | .ok r =>
    match hexComponent p hex 3 5 with
    | .error e => .error e
    | .ok g =>
      match hexComponent p hex 5 7 with
      | .error e => .error e
      | .ok b => .ok ("rgba(" ++ r ++ ", " ++ g ++ ", " ++ b ++ ", " ++ alpha ++ ")")

/-- The call `color.replace('#', '')` on code units: the first number sign is removed. -/
def removeFirstHash : List Nat → List Nat
  | [] => []
  | u :: rest => if u = 35 then rest else u :: removeFirstHash rest

/-- The clamp `c < 255 ? c < 1 ? 0 : c : 255` of `darkenColor`. -/
def clampChannel (c : Int) : Nat := if c < 255 then (if c < 1 then 0 else c.toNat) else 255

/-- The method `darkenColor` for the percentage 0.2 of its only call, for which
`Math.round(2.55 * percent * 100)` is 51. A value that is not a string has no method `replace`
and the call throws a `TypeError`. -/
def darkenColor {β : Type} (color : JsValue) : Except (ChartError β) String :=
  match color with
  | .str s =>
    let num := toInt32 (parseIntHex (removeFirstHash (utf16Units s)))
    let amt : Int := 51
    let r := num / 65536 - amt
    let g := (num / 256) % 256 - amt
    let b := num % 256 - amt
    .ok ("#" ++ String.mk ((Nat.toDigits 16
      (0x1000000 + clampChannel r * 0x10000 + clampChannel g * 0x100 + clampChannel b)).drop 1))
  | _ => .error (.typeError "color.replace is not a function")

/-- The reads `config.name` for the names of a list, in order; the first read that throws ends
them. -/
def readOptions {β : Type} (realm : Realm β) (config : Reached β) (names : List String) :
    Except (ChartError β) (List (String × Option (Reached β))) :=
  mapThrowing
    (fun name _ =>
      match option realm config name with
      | .error e => .error e
      | .ok v => .ok (name, v))
    names 0

/-- The result of the read of the option `name` among the reads made. -/
def optionRead {β : Type} (reads : List (String × Option (Reached β))) (name : String) :
    Option (Reached β) :=
  match reads.find? fun r => r.1 == name with
  | some r => r.2
  | none => none

/-- The colour `this.defaultColors[index % this.defaultColors.length]`. -/
def defaultColor (index : Nat) : String :=
  defaultColors.getD (index % defaultColors.length) ""

/-- The colour of a series,
`(config.colors && config.colors[index]) || this.defaultColors[index % this.defaultColors.length]`. -/
def seriesColor {β : Type} (realm : Realm β) (config : Reached β) (index : Nat) :
    Except (ChartError β) (Reached β) :=
  match option realm config "colors" with
  | .error e => .error e
  | .ok none => .ok (.value (.str (defaultColor index)))
  | .ok (some colors) =>
    if colors.truthy realm then
      match liftRead (readProp realm colors (toString index)) with
      | .error e => .error e
      | .ok picked => .ok (orReached realm picked (.value (.str (defaultColor index))))
    else .ok (.value (.str (defaultColor index)))

/-- The label of a series, `config.datasetLabels ? config.datasetLabels[index] : field`. -/
def seriesLabel {β : Type} (realm : Realm β) (config : Reached β) (field : JsValue)
    (index : Nat) : Except (ChartError β) (ChartValue β) :=
  match option realm config "datasetLabels" with
  | .error e => .error e
  | .ok none => .ok (.reached (.value field))
  | .ok (some labels) =>
    if labels.truthy realm then
      match liftRead (readProp realm labels (toString index)) with
      | .error e => .error e
      | .ok label => .ok (.ofRead label)
    else .ok (.reached (.value field))

/-- One element of the array returned by `extractDatasets`: the properties `label`, `data`,
`borderColor` and `backgroundColor`, and for the chart type `line` also `tension` and `fill`. -/
structure Series (β : Type) where
  label : ChartValue β
  data : List (ChartValue β)
  borderColor : Reached β
  backgroundColor : ChartValue β
  lineOptions : Option (ChartValue β × ChartValue β)

/-- The object of a series, its properties in the order of their definition. -/
def Series.toValue {β : Type} (s : Series β) : ChartValue β :=
  .obj ([("label", s.label), ("data", .arr s.data), ("borderColor", .reached s.borderColor),
      ("backgroundColor", s.backgroundColor)]
    ++ match s.lineOptions with
      | some (tension, fill) => [("tension", tension), ("fill", fill)]
      | none => [])

/-- The array `config.valueFields || this.guessValueFields(data[0], labelField)` as the receiver
of `map`: a truthy value that is not an array has no method `map`, and the call throws a
`TypeError`. -/
def valueFieldsOf {β : Type} (realm : Realm β) (sample : JsValue) (config : Reached β)
    (labelField : Option (Reached β)) : Except (ChartError β) (List JsValue) :=
  match option realm config "valueFields" with
  | .error e => .error e
  | .ok configured =>
    if truthyRead realm configured then
      match configured with
      | some (.value (.arr fields)) => .ok fields
      | _ => .error (.typeError "valueFields.map is not a function")
    else
      match guessValueFieldsOf sample labelField with
      | .error e => .error e
      | .ok fields => .ok (fields.map .str)

/-- The callback of `valueFields.map` in `extractDatasets`. -/
def seriesOf {β : Type} (p : Platform) (realm : Realm β) (items : List JsValue)
    (config : Reached β) (chartType : String) (field : JsValue) (index : Nat) :
    Except (ChartError β) (Series β) :=
  match seriesColor realm config index with
  | .error e => .error e
  | .ok color =>
    match seriesLabel realm config field index with
    | .error e => .error e
    | .ok label =>
      match mapThrowing
        (fun item _ =>
          match itemProp p realm item (some (.value field)) with
          | .error e => .error e
          | .ok v => .ok (orValue realm v (.number 0 0)))
        items 0 with
      | .error e => .error e
      | .ok data =>
        if chartType = "line" then
          match hexToRgba p color "0.1" with
          | .error e => .error e
          | .ok background =>
            match readOptions realm config ["tension", "fill"] with
            | .error e => .error e
            | .ok reads =>
              .ok ⟨label, data, color, .text background,
                some (orValue realm (optionRead reads "tension") (.number 4 (-1)),
                  orValue realm (optionRead reads "fill") (.bool false))⟩
        else .ok ⟨label, data, color, .reached color, none⟩

/-- The method `extractDatasets`. -/
def extractDatasets {β : Type} (p : Platform) (realm : Realm β) (data : JsValue)
    (config : Reached β) (chartType : String) : Except (ChartError β) (List (Series β)) :=
  match data with
  | .arr (first :: rest) =>
    match labelFieldOf realm first config with
    | .error e => .error e
    | .ok labelField =>
      match valueFieldsOf realm first config labelField with
      | .error e => .error e
      | .ok valueFields => mapThrowing (seriesOf p realm (first :: rest) config chartType)
          valueFields 0
  | _ => .ok []

/-- The value `config.valueField || this.guessValueFields(data[0], labelField)[0]`. -/
def valueFieldOf {β : Type} (realm : Realm β) (sample : JsValue) (config : Reached β)
    (labelField : Option (Reached β)) : Except (ChartError β) (Option (Reached β)) :=
  match option realm config "valueField" with
  | .error e => .error e
  | .ok configured =>
    if truthyRead realm configured then .ok configured
    else
      match guessValueFieldsOf sample labelField with
      | .error e => .error e
      | .ok fields => .ok (fields.head?.map fun field => .value (.str field))

/-- The method `extractValues`. -/
def extractValues {β : Type} (p : Platform) (realm : Realm β) (data : JsValue)
    (config : Reached β) : Except (ChartError β) (List (ChartValue β)) :=
  match data with
  | .arr (first :: rest) =>
    match labelFieldOf realm first config with
    | .error e => .error e
    | .ok labelField =>
      match valueFieldOf realm first config labelField with
      | .error e => .error e
      | .ok valueField =>
        mapThrowing
          (fun item _ =>
            match itemProp p realm item valueField with
            | .error e => .error e
            | .ok v => .ok (orValue realm v (.number 0 0)))
          (first :: rest) 0
  | _ => .ok []

/-- The point `{ x: item[xField], y: item[yField] }` of a scatter chart. -/
def scatterPoint {β : Type} (p : Platform) (realm : Realm β) (xField yField : Reached β)
    (item : JsValue) : Except (ChartError β) (ChartValue β) :=
  match itemProp p realm item (some xField) with
  | .error e => .error e
  | .ok x =>
    match itemProp p realm item (some yField) with
    | .error e => .error e
    | .ok y => .ok (.obj [("x", .ofRead x), ("y", .ofRead y)])

/-- A property key as a chart value, the text it is. -/
def keyValue {β : Type} : PropertyKey → ChartValue β
  | .text s => .text s
  | .unit u => .reached (.surrogate u)

/-- Equality of property keys. -/
def sameKey : PropertyKey → PropertyKey → Bool
  | .text a, .text b => a == b
  | .unit a, .unit b => a == b
  | _, _ => false

/-- The points pushed so far for a group, when the object `groups` has the key. -/
def groupPoints {β : Type} (groups : List (PropertyKey × List (ChartValue β)))
    (key : PropertyKey) : Option (List (ChartValue β)) :=
  match groups.find? fun g => sameKey g.1 key with
  | some g => some g.2
  | none => none

/-- The push of a point onto the array of a group that the object `groups` has. -/
def pushPoint {β : Type} (groups : List (PropertyKey × List (ChartValue β)))
    (key : PropertyKey) (point : ChartValue β) : List (PropertyKey × List (ChartValue β)) :=
  groups.map fun g => if sameKey g.1 key then (g.1, g.2 ++ [point]) else g

/-- The body of the `forEach` of `extractScatterDatasets` for one item:
`if (!groups[group]) groups[group] = []; groups[group].push(point)`. The object `groups` starts
as an empty object literal, so a key that it does not have is looked up along the prototype
chain of a plain object, for which the empty object stands as the receiver. Where that lookup
gives a truthy value, no array is stored, and the call of `push` on the inherited value (a
method or the prototype object itself) throws a `TypeError`, unless that value is an array. -/
def groupStep {β : Type} (p : Platform) (realm : Realm β) (groupField xField yField : Reached β)
    (groups : List (PropertyKey × List (ChartValue β))) (item : JsValue) :
    Except (ChartError β) (List (PropertyKey × List (ChartValue β))) :=
  match itemProp p realm item (some groupField) with
  | .error e => .error e
  | .ok group =>
    match toPropertyKey p realm group with
    | .error e => .error e
    | .ok key =>
      match groupPoints groups key with
      | some _ =>
        match scatterPoint p realm xField yField item with
        | .error e => .error e
        | .ok point => .ok (pushPoint groups key point)
      | none =>
        match liftRead (realm.inherited (.value (.obj [])) key) with
        | .error e => .error e
        | .ok inherited =>
          match scatterPoint p realm xField yField item with
          | .error e => .error e
          | .ok point =>
            if truthyRead realm inherited then
              match inherited with
              | some (.value (.arr _)) => .ok groups
              | _ => .error (.typeError "groups[group].push is not a function")
            else .ok (groups ++ [(key, [point])])

/-- The loop `data.forEach` of `extractScatterDatasets`. -/
def groupLoop {β : Type} (p : Platform) (realm : Realm β) (groupField xField yField : Reached β) :
    List JsValue → List (PropertyKey × List (ChartValue β)) →
      Except (ChartError β) (List (PropertyKey × List (ChartValue β)))
  | [], groups => .ok groups
  | item :: rest, groups =>
    match groupStep p realm groupField xField yField groups item with
    | .error e => .error e
    | .ok next => groupLoop p realm groupField xField yField rest next

/-- The array index that a key is, if it is one: a canonical decimal numeral below
`2 ^ 32 - 1`. -/
def arrayIndex : PropertyKey → Option Nat
  | .text s =>
    match s.toNat? with
    | some n => if toString n == s && n < 4294967295 then some n else none
    | none => none
  | .unit _ => none

/-- Insertion of an entry into a list sorted by index, after the entries with a smaller or equal
index. -/
def insertByIndex {α : Type} (entry : Nat × α) : List (Nat × α) → List (Nat × α)
  | [] => [entry]
  | e :: rest => if entry.1 < e.1 then entry :: e :: rest else e :: insertByIndex entry rest

/-- The order of `Object.entries`: the keys that are array indices in ascending order, then the
other keys in the order of their creation. -/
def entriesInOrder {α : Type} (entries : List (PropertyKey × α)) : List (PropertyKey × α) :=
  ((entries.filterMap fun e => (arrayIndex e.1).map fun n => (n, e)).foldl
      (fun sorted e => insertByIndex e sorted) []).map (fun e => e.2)
    ++ entries.filter fun e => (arrayIndex e.1).isNone

/-- The object of a scatter series. -/
def scatterSeries {β : Type} (label : ChartValue β) (points : List (ChartValue β))
    (index : Nat) : ChartValue β :=
  .obj [("label", label), ("data", .arr points), ("backgroundColor", .text (defaultColor index)),
    ("borderColor", .text (defaultColor index))]

/-- The method `extractScatterDatasets`. -/
def extractScatterDatasets {β : Type} (p : Platform) (realm : Realm β) (data : JsValue)
    (config : Reached β) : Except (ChartError β) (List (ChartValue β)) :=
  match data with
  | .arr (first :: rest) =>
    match readOptions realm config ["xField", "yField", "groupField"] with
    | .error e => .error e
    | .ok reads =>
      let xField := orReached realm (optionRead reads "xField") (.value (.str "x"))
      let yField := orReached realm (optionRead reads "yField") (.value (.str "y"))
      match optionRead reads "groupField" with
      | some groupField =>
        if groupField.truthy realm then
          match groupLoop p realm groupField xField yField (first :: rest) [] with
          | .error e => .error e
          | .ok groups =>
            .ok ((entriesInOrder groups).enum.map fun g =>
              scatterSeries (keyValue g.2.1) g.2.2 g.1)
        else
          match option realm config "label" with
          | .error e => .error e
          | .ok label =>
            match mapThrowing (fun item _ => scatterPoint p realm xField yField item)
              (first :: rest) 0 with
            | .error e => .error e
            | .ok points => .ok [scatterSeries (orValue realm label (.text "Data")) points 0]
      | none =>
        match option realm config "label" with
        | .error e => .error e
        | .ok label =>
          match mapThrowing (fun item _ => scatterPoint p realm xField yField item)
            (first :: rest) 0 with
          | .error e => .error e
          | .ok points => .ok [scatterSeries (orValue realm label (.text "Data")) points 0]
  | _ => .ok []

/-- The test `value !== false` on the result of a read. -/
def notFalse {β : Type} : Option (Reached β) → Bool
  | some (.value (.bool false)) => false
  | _ => true

/-- The object `{ display: !!value, text: value }` of an axis title, and the start of the title
of the chart. -/
def displayAndText {β : Type} (realm : Realm β) (value : Option (Reached β)) :
    List (String × ChartValue β) :=
  [("display", .bool (truthyRead realm value)), ("text", .ofRead value)]

/-- The object `plugins.title` of every builder. -/
def titlePlugin {β : Type} (realm : Realm β) (title : Option (Reached β)) : ChartValue β :=
  .obj (displayAndText realm title
    ++ [("font", .obj [("size", .number 16 0), ("weight", .text "bold")])])

/-- The object `plugins.legend` of the builders with several series. -/
def legendPlugin {β : Type} (series : Nat) : ChartValue β :=
  .obj [("display", .bool (decide (series > 1))), ("position", .text "top")]

/-- The object `scales` of the bar and line charts. -/
def cartesianScales {β : Type} (realm : Realm β) (reads : List (String × Option (Reached β))) :
    ChartValue β :=
  .obj
    [("x", .obj
        [("title", .obj (displayAndText realm (optionRead reads "xAxis"))),
          ("grid", .obj [("display", .bool (notFalse (optionRead reads "showGrid")))])]),
      ("y", .obj
        [("title", .obj (displayAndText realm (optionRead reads "yAxis"))),
          ("beginAtZero", .bool (notFalse (optionRead reads "beginAtZero"))),
          ("grid", .obj [("display", .bool (notFalse (optionRead reads "showGrid")))])])]

/-- The method `buildBarChart`. -/
def buildBarChart {β : Type} (p : Platform) (realm : Realm β) (data : JsValue)
    (config : Reached β) : Except (ChartError β) (ChartValue β) :=
  match extractLabels p realm data config with
  | .error e => .error e
  | .ok labels =>
    match extractDatasets p realm data config "bar" with
    | .error e => .error e
    | .ok datasets =>
      match readOptions realm config ["title", "xAxis", "showGrid", "yAxis", "beginAtZero"] with
      | .error e => .error e
      | .ok reads =>
        .ok (.obj
          [("type", .text "bar"),
            ("data", .obj [("labels", .arr labels),
              ("datasets", .arr (datasets.map Series.toValue))]),
            ("options", .obj
              [("responsive", .bool true), ("maintainAspectRatio", .bool false),
                ("plugins", .obj
                  [("title", titlePlugin realm (optionRead reads "title")),
                    ("legend", legendPlugin datasets.length),
                    ("tooltip", .obj [("mode", .text "index"), ("intersect", .bool false)])]),
                ("scales", cartesianScales realm reads),
                ("interaction", .obj [("mode", .text "nearest"), ("axis", .text "x"),
                  ("intersect", .bool false)])])])

/-- What `buildLineChart` computes: the labels, the series and the options read. -/
structure LineParts (β : Type) where
  labels : List (ChartValue β)
  datasets : List (Series β)
  reads : List (String × Option (Reached β))

/-- The computations of `buildLineChart`, in the order of the source. -/
def lineParts {β : Type} (p : Platform) (realm : Realm β) (data : JsValue)
    (config : Reached β) : Except (ChartError β) (LineParts β) :=
  match extractLabels p realm data config with
  | .error e => .error e
  | .ok labels =>
    match extractDatasets p realm data config "line" with
    | .error e => .error e
    | .ok datasets =>
      match readOptions realm config
        ["title", "xAxis", "showGrid", "yAxis", "beginAtZero", "tension", "pointRadius",
          "pointHoverRadius"] with
      | .error e => .error e
      | .ok reads => .ok ⟨labels, datasets, reads⟩

/-- The object literal returned by `buildLineChart`. -/
def LineParts.toValue {β : Type} (realm : Realm β) (parts : LineParts β) : ChartValue β :=
  .obj
    [("type", .text "line"),
      ("data", .obj [("labels", .arr parts.labels),
        ("datasets", .arr (parts.datasets.map Series.toValue))]),
      ("options", .obj
        [("responsive", .bool true), ("maintainAspectRatio", .bool false),
          ("plugins", .obj
            [("title", titlePlugin realm (optionRead parts.reads "title")),
              ("legend", legendPlugin parts.datasets.length)]),
          ("scales", cartesianScales realm parts.reads),
          ("elements", .obj
            [("line", .obj
                [("tension", orValue realm (optionRead parts.reads "tension") (.number 4 (-1)))]),
              ("point", .obj
                [("radius", orValue realm (optionRead parts.reads "pointRadius") (.number 4 0)),
                  ("hoverRadius",
                    orValue realm (optionRead parts.reads "pointHoverRadius")
                      (.number 6 0))])])])]

/-- The method `buildLineChart`. -/
def buildLineChart {β : Type} (p : Platform) (realm : Realm β) (data : JsValue)
    (config : Reached β) : Except (ChartError β) (ChartValue β) :=
  match lineParts p realm data config with
  | .error e => .error e
  | .ok parts => .ok (parts.toValue realm)

/-- The callback of the `forEach` of `buildAreaChart` on one series: `fill` becomes `true` and
`backgroundColor` becomes `hexToRgba(dataset.borderColor, 0.2)`. The series come from the chart
type `line`, so they have the property `fill` already and it keeps its place. -/
def areaSeries {β : Type} (p : Platform) (series : Series β) : Except (ChartError β) (Series β) :=
  match hexToRgba p series.borderColor "0.2" with
  | .error e => .error e
  | .ok background =>
    .ok ⟨series.label, series.data, series.borderColor, .text background,
      match series.lineOptions with
      | some (tension, _) => some (tension, .bool true)
      | none => none⟩

/-- The method `buildAreaChart`. -/
def buildAreaChart {β : Type} (p : Platform) (realm : Realm β) (data : JsValue)
    (config : Reached β) : Except (ChartError β) (ChartValue β) :=
  match lineParts p realm data config with
  | .error e => .error e
  | .ok parts =>
    match mapThrowing (fun series _ => areaSeries p series) parts.datasets 0 with
    | .error e => .error e
    | .ok datasets => .ok (LineParts.toValue realm ⟨parts.labels, datasets, parts.reads⟩)

/-- The array `config.colors || this.defaultColors.slice(0, labels.length)` of `buildPieChart`,
as the receiver of `map`: `none` when the value, being truthy and no array, has no method
`map`. -/
def pieColors {β : Type} (realm : Realm β) (colors : Option (Reached β)) (labels : Nat) :
    Option (List JsValue) :=
  if truthyRead realm colors then
    match colors with
    | some (.value (.arr items)) => some items
    | _ => none
  else some ((defaultColors.take labels).map .str)

/-- The method `buildPieChart`, which `buildChartConfig` calls for the types `pie` and
`doughnut` and `buildPolarAreaChart` for `polarArea`. -/
def buildPieChart {β : Type} (p : Platform) (realm : Realm β) (data : JsValue)
    (config : Reached β) (type : String) : Except (ChartError β) (ChartValue β) :=
  match extractLabels p realm data config with
  | .error e => .error e
  | .ok labels =>
    match extractValues p realm data config with
    | .error e => .error e
    | .ok values =>
      match option realm config "colors" with
      | .error e => .error e
      | .ok colorsRead =>
        match pieColors realm colorsRead labels.length with
        | none => .error (.typeError "colors.map is not a function")
        | some colors =>
          match mapThrowing (fun color _ => darkenColor color) colors 0 with
          | .error e => .error e
          | .ok borders =>
            match readOptions realm config ["title", "legendPosition"] with
            | .error e => .error e
            | .ok reads =>
              .ok (.obj
                [("type", .text type),
                  ("data", .obj
                    [("labels", .arr labels),
                      ("datasets", .arr
                        [.obj
                          [("data", .arr values),
                            ("backgroundColor",
                              .arr (colors.map fun color => .reached (.value color))),
                            ("borderColor", .arr (borders.map .text)),
                            ("borderWidth", .number 2 0)]])]),
                  ("options", .obj
                    [("responsive", .bool true), ("maintainAspectRatio", .bool false),
                      ("plugins", .obj
                        [("title", titlePlugin realm (optionRead reads "title")),
                          ("legend", .obj
                            [("position",
                                orValue realm (optionRead reads "legendPosition")
                                  (.text "bottom")),
                              ("labels", .obj [("padding", .number 20 0),
                                ("usePointStyle", .bool true)])]),
                          ("tooltip", .obj
                            [("callbacks", .obj [("label", .func "label")])])])])])

/-- The method `buildScatterChart`. -/
def buildScatterChart {β : Type} (p : Platform) (realm : Realm β) (data : JsValue)
    (config : Reached β) : Except (ChartError β) (ChartValue β) :=
  match extractScatterDatasets p realm data config with
  | .error e => .error e
  | .ok datasets =>
    match readOptions realm config ["title", "xAxis", "yAxis"] with
    | .error e => .error e
    | .ok reads =>
      .ok (.obj
        [("type", .text "scatter"),
          ("data", .obj [("datasets", .arr datasets)]),
          ("options", .obj
            [("responsive", .bool true), ("maintainAspectRatio", .bool false),
              ("plugins", .obj
                [("title", titlePlugin realm (optionRead reads "title")),
                  ("legend", legendPlugin datasets.length)]),
              ("scales", .obj
                [("x", .obj
                    [("type", .text "linear"), ("position", .text "bottom"),
                      ("title", .obj (displayAndText realm (optionRead reads "xAxis")))]),
                  ("y", .obj
                    [("title", .obj (displayAndText realm (optionRead reads "yAxis")))])])])])

/-- The method `buildRadarChart`. -/
def buildRadarChart {β : Type} (p : Platform) (realm : Realm β) (data : JsValue)
    (config : Reached β) : Except (ChartError β) (ChartValue β) :=
  match extractLabels p realm data config with
  | .error e => .error e
  | .ok labels =>
    match extractDatasets p realm data config "radar" with
    | .error e => .error e
    | .ok datasets =>
      match option realm config "title" with
      | .error e => .error e
      | .ok title =>
        .ok (.obj
          [("type", .text "radar"),
            ("data", .obj [("labels", .arr labels),
              ("datasets", .arr (datasets.map Series.toValue))]),
            ("options", .obj
              [("responsive", .bool true), ("maintainAspectRatio", .bool false),
                ("plugins", .obj
                  [("title", titlePlugin realm title), ("legend", legendPlugin datasets.length)]),
                ("scales", .obj
                  [("r", .obj
                    [("beginAtZero", .bool true),
                      ("grid", .obj [("color", .text "rgba(0, 0, 0, 0.1)")]),
                      ("pointLabels", .obj [("font", .obj [("size", .number 12 0)])])])])])])

/-- The method `buildPolarAreaChart`. -/
def buildPolarAreaChart {β : Type} (p : Platform) (realm : Realm β) (data : JsValue)
    (config : Reached β) : Except (ChartError β) (ChartValue β) :=
  buildPieChart p realm data config "polarArea"

/-- The method `buildChartConfig`: the type is `visualization.type || 'bar'`, the config is
`visualization.config || \x7b\x7d`, and a `switch` with strict equality picks the builder. -/
def buildChartConfig {β : Type} (p : Platform) (realm : Realm β) (dataset : XMLParser.Dataset) :
    Except (ChartError β) (ChartValue β) :=
  match liftRead (readProp realm (.value (.obj dataset.visualization)) "type") with
  | .error e => .error e
  | .ok typeRead =>
    match liftRead (readProp realm (.value (.obj dataset.visualization)) "config") with
    | .error e => .error e
    | .ok configRead =>
      let config := orReached realm configRead (.value (.obj []))
      match orReached realm typeRead (.value (.str "bar")) with
      | .value (.str type) =>
        if type = "bar" then buildBarChart p realm dataset.data config
        else if type = "line" then buildLineChart p realm dataset.data config
        else if type = "pie" || type = "doughnut" then
          buildPieChart p realm dataset.data config type
        else if type = "scatter" then buildScatterChart p realm dataset.data config
        else if type = "area" then buildAreaChart p realm dataset.data config
        else if type = "radar" then buildRadarChart p realm dataset.data config
        else if type = "polarArea" then buildPolarAreaChart p realm dataset.data config
        else .error (.unsupportedType (.value (.str type)))
      | type => .error (.unsupportedType type)

end ChartGenerator

/-! ## TemplateEngine -/

namespace TemplateEngine

/-- The callback of the `reduce` in `getNestedValue`:
`current && current[key] !== undefined ? current[key] : undefined`. -/
def getNestedStep {β : Type} (realm : Realm β) (current : Option (Reached β)) (key : String) :
    Except String (Option (Reached β)) :=
  match current with
  | some c => if c.truthy realm then readProp realm c key else .ok none
  | none => .ok none

/-- The method `Array.prototype.reduce` with the callback of `getNestedValue`, which can throw. -/
def reduceKeys {β : Type} (realm : Realm β) :
    List String → Option (Reached β) → Except String (Option (Reached β))
  | [], current => .ok current
  | key :: rest, current =>
    match getNestedStep realm current key with
    | .error e => .error e
    | .ok next => reduceKeys realm rest next

/-- The method `getNestedValue`. -/
def getNestedValue {β : Type} (realm : Realm β) (obj : JsValue) (path : String) :
    Except String (Option (Reached β)) :=
  reduceKeys realm (jsSplit "." path) (some (.value obj))

end TemplateEngine

/-! ## Regular expression literals in the source text -/

/-- Line terminators of ECMAScript source text. -/
def isLineTerminator (c : Char) : Bool :=
  c.toNat = 0x0A || c.toNat = 0x0D || c.toNat = 0x2028 || c.toNat = 0x2029

/-- Scan of the body of a regular expression literal after its opening slash, by the lexical
grammar of ECMAScript: a backslash takes the next character with it, a slash inside a character
class does not end the body, the first other slash does. The result is the body and the text
after the closing slash; `inClass` tells whether a class is open, `acc` is the body so far in
reverse. -/
def scanRegexBody : Bool → List Char → List Char → Option (List Char × List Char)
  | _, [], _ => none
  | inClass, '\\' :: c :: rest, acc =>
    if isLineTerminator c then none else scanRegexBody inClass rest (c :: '\\' :: acc)
  | false, '/' :: rest, acc => some (acc.reverse, rest)
  | false, '[' :: rest, acc => scanRegexBody true rest ('[' :: acc)
  | true, ']' :: rest, acc => scanRegexBody false rest (']' :: acc)
  | inClass, c :: rest, acc =>
    if isLineTerminator c then none else scanRegexBody inClass rest (c :: acc)

/-- Characters that continue an identifier, which is what the flags of a regular expression
literal are made of (ASCII part). -/
def isIdentifierPart (c : Char) : Bool :=
  (97 ≤ c.toNat && c.toNat ≤ 122) || (65 ≤ c.toNat && c.toNat ≤ 90)
    || (48 ≤ c.toNat && c.toNat ≤ 57) || c = '$' || c = '_'

/-- Scan of a regular expression literal that starts with its opening slash: body and flags. -/
def scanRegexLiteral (src : String) : Option (String × String) :=
  match src.data with
  | '/' :: rest =>
    match scanRegexBody false rest [] with
    | some (body, after) => some (String.mk body, String.mk (after.takeWhile isIdentifierPart))
    | none => none
  | _ => none

/-- Validity of the flags of a regular expression literal: letters among `dgimsuvy`, none
twice. A literal with other flags is a syntax error of the script. -/
def validRegexFlags (flags : String) : Bool :=
  flags.data.all (fun c => "dgimsuvy".data.contains c) && decide flags.data.Nodup

/-- The source text of the regular expression literal of the `if` blocks in `processTemplate`,
from its opening slash to the `g` that was meant as its flag. -/
def ifBlockRegexSource : String :=
  "/\\\\\x7b\\\\\x7b#if\\\\s+([^\x7d]+)\\\\\x7d\\\\\x7d([\\\\s\\\\S]*?)\\\\\x7b\\\\\x7b\\\\/if\\\\\x7d\\\\\x7d/g"

/-! ## Vocabulary of the specification -/

/-- Trimmed text content of the first element named `name` below `e`, when there is one: what
the parser reads for a field. -/
def Element.firstText (e : Element) (name : String) : Option String :=
  (e.getElementsByTagName name).head?.map fun x => jsTrim x.textContent

/-- The pattern `YYYY-MM-DD` as the documentation of `isValidDate` words it: four digits, a
hyphen, two digits, a hyphen, two digits. -/
def datePatternYMD : List (RegexAtom × Nat) :=
  [(.digit, 4), (.lit '-', 1), (.digit, 2), (.lit '-', 1), (.digit, 2)]

/-- Does a text have the form `YYYY-MM-DD`. -/
def matchesYMD (s : String) : Bool := matchAtoms (expandCounts datePatternYMD) s.data

/-- Leap years of the Gregorian calendar. -/
def isLeapYear (y : Nat) : Bool := (y % 4 == 0 && y % 100 != 0) || y % 400 == 0

/-- Number of days of a month. -/
def daysInMonth (y m : Nat) : Nat :=
  if m == 2 then (if isLeapYear y then 29 else 28)
  else if m == 4 || m == 6 || m == 9 || m == 11 then 30
  else 31

/-- Value of a run of decimal digits. -/
def decimalValue (cs : List Char) : Nat := digitsToNat 10 (cs.map fun c => c.toNat - 48)

/-- Does a text of the form `YYYY-MM-DD` denote a day that exists in the calendar. -/
def denotesRealDate (s : String) : Bool :=
  matchesYMD s &&
    (let y := decimalValue (s.data.take 4)
     let m := decimalValue ((s.data.drop 5).take 2)
     let d := decimalValue ((s.data.drop 8).take 2)
     1 ≤ m && m ≤ 12 && 1 ≤ d && d ≤ daysInMonth y m)

/-- White space of XML: blank, tab, line feed and carriage return. -/
def isXmlSpace (c : Char) : Bool :=
  c.toNat = 0x20 || c.toNat = 0x09 || c.toNat = 0x0A || c.toNat = 0x0D

/-- The text after the first `?>`, the end of the first processing instruction or of the XML
declaration. -/
def afterFirstInstructionEnd : List Char → Option (List Char)
  | [] => none
  | '?' :: '>' :: rest => some rest
  | _ :: rest => afterFirstInstructionEnd rest

/-- Does a text start with `<?xml` and go on, right after the first `?>`, with a character that
is neither white space nor `<`. Such a text has character data before its root element and is
not a well-formed XML document (`document ::= prolog element Misc*`, and a prolog holds only
the declaration, comments, processing instructions, white space and a document type, all of
which start with `<` or are white space). -/
def hasTextAfterDeclaration (text : String) : Bool :=
  "<?xml".data.isPrefixOf text.data &&
    match afterFirstInstructionEnd text.data with
    | some (c :: _) => !isXmlSpace c && c != '<'
    | _ => false

/-- Number of places of the text `hay` at which the text `needle` starts. -/
def countOccurrences (needle hay : String) : Nat :=
  (hay.data.tails.filter fun t => needle.data.isPrefixOf t).length

/-- The only text accepted by the regular expression of `isValidDate`. -/
def escapedDateText : String := "\\dddd-\\dd-\\dd"

/-- A browser whose `Date` constructor accepts exactly the real calendar dates written
`YYYY-MM-DD`; its `JSON` functions and number printing are stand-ins that the statements made
with it do not use. -/
def strictPlatform : Platform :=
  ⟨denotesRealDate, fun _ => none, 1735689600000, "k3x9q2m1z", fun _ => "0", fun _ => "null",
    fun _ _ => "null"⟩

/-! ## Sample documents -/

/-- An element holding one text node. -/
def leaf (tag text : String) : Node := .element tag [] [.text text]

/-- A metadata section with the six required fields, for a given `updated` text. -/
def sampleMetadata (updated : String) : Element :=
  ⟨"metadata", [],
    [leaf "title" "Padron municipal", leaf "description" "Habitantes por barrio",
      leaf "category" "Demografia", leaf "source" "Ayuntamiento de Salamanca",
      leaf "updated" updated, leaf "license" "CC BY 4.0"]⟩

/-- The document
`<dataset><metadata>...<updated>2025-01-01</updated>...</metadata>
<data><record><x>1</x><y>true</y></record></data></dataset>`. -/
def sampleDataset : Element :=
  ⟨"dataset", [],
    [.element "metadata" [] (sampleMetadata "2025-01-01").childNodes,
      .element "data" [] [.element "record" [] [leaf "x" "1", leaf "y" "true"]]]⟩

/-- A metadata section that lacks both `source` and `license`. -/
def metadataWithoutSource : Element :=
  ⟨"metadata", [],
    [leaf "title" "Padron municipal", leaf "description" "Habitantes por barrio",
      leaf "category" "Demografia", leaf "updated" "2025-01-01"]⟩

/-- A dataset document whose metadata section lacks both `source` and `license`. -/
def datasetWithoutSource : Element :=
  ⟨"dataset", [],
    [.element "metadata" [] metadataWithoutSource.childNodes,
      .element "data" [] [.element "record" [] [leaf "x" "1"]]]⟩

/-- The record `<record><x>1</x><y>true</y></record>`. -/
def sampleRecord : Element := ⟨"record", [], [leaf "x" "1", leaf "y" "true"]⟩

/-- The record `<record><x>1</x><x>2</x></record>`, whose two fields share a tag. -/
def recordWithRepeatedTag : Element := ⟨"record", [], [leaf "x" "1", leaf "x" "2"]⟩

/-- The entries of a record as the specification words them: one entry per immediate child
element, keyed by its tag name, holding the coerced trimmed text of that child. -/
def entriesPerChild (record : Element) : JsObject :=
  record.children.map fun field =>
    (field.tagName, XMLParser.coerceValue (jsTrim field.textContent))

/-- The keys of an object. -/
def JsObject.keys (o : JsObject) : List String := o.map Prod.fst

/-- The item `<item key="">5</item>`, whose `key` attribute is empty. -/
def itemWithEmptyKey : Element := ⟨"item", [("key", "")], [.text "5"]⟩

/-- The result for one item as the specification words it: the `key` attribute when the item
carries one, else the `name` attribute when it carries one, keys the single entry; an item with
neither attribute gives the bare value. -/
def itemPerAttribute (item : Element) : JsValue :=
  match item.getAttribute "key" with
  | some k => .obj [(k, XMLParser.coerceValue (jsTrim item.textContent))]
  | none =>
    match item.getAttribute "name" with
    | some n => .obj [(n, XMLParser.coerceValue (jsTrim item.textContent))]
    | none => XMLParser.coerceValue (jsTrim item.textContent)

/-- The value of an attribute when the element carries it with a non-empty value. -/
def nonEmptyAttribute (item : Element) (name : String) : Option String :=
  match item.getAttribute name with
  | some v => if v = "" then none else some v
  | none => none

/-- The result for one item with empty attributes counted as missing. -/
def itemPerNonEmptyAttribute (item : Element) : JsValue :=
  match nonEmptyAttribute item "key" with
  | some k => .obj [(k, XMLParser.coerceValue (jsTrim item.textContent))]
  | none =>
    match nonEmptyAttribute item "name" with
    | some n => .obj [(n, XMLParser.coerceValue (jsTrim item.textContent))]
    | none => XMLParser.coerceValue (jsTrim item.textContent)

/-- The element `<config><a>1</a><a>2</a></config>`, whose two entries share a tag. -/
def configWithRepeatedTag : Element := ⟨"config", [], [leaf "a" "1", leaf "a" "2"]⟩

/-- The element
`<config><__proto__>\x7b"__proto__":null\x7d</__proto__><__proto__>x</__proto__></config>`: the
first child replaces the prototype by a parsed object that has an own property `__proto__`,
after which the second child is stored as an own property. -/
def configWithProtoChildren : Element :=
  ⟨"config", [], [leaf "__proto__" "\x7b\"__proto__\":null\x7d", leaf "__proto__" "x"]⟩

/-- The entries of a config section as the specification words them: one entry per immediate
child element, keyed by its tag name, holding the coerced trimmed text of that child. -/
def configEntriesPerChild (p : Platform) (configElement : Element) : JsObject :=
  configElement.children.map fun child =>
    (child.tagName, XMLParser.configValue p (jsTrim child.textContent))

/-- A dataset model that passes the hard rules and whose category `Foo` is not a known one. -/
def fooDataset : XMLParser.Dataset :=
  ⟨"dataset_1735689600000_k3x9q2m1z",
    [("title", .str "Padron municipal"), ("description", .str "Habitantes por barrio"),
      ("category", .str "Foo"), ("source", .str "Ayuntamiento de Salamanca"),
      ("updated", .str "2025-01-01"), ("license", .str "CC BY 4.0")],
    [], .arr [.obj [("x", .num (.finite false 1 0))]]⟩

/-- A browser whose `Date` constructor accepts every text. It serves to reach the code after the
date check; its `JSON` functions and number printing are stand-ins. -/
def lenientPlatform : Platform :=
  ⟨fun _ => true, fun _ => none, 1735689600000, "k3x9q2m1z", fun _ => "0", fun _ => "null",
    fun _ _ => "null"⟩

/-- The sample document with the `updated` text that the regular expression of `isValidDate`
accepts, a backslash and `dddd`, and so on. -/
def escapedDataset : Element :=
  ⟨"dataset", [],
    [.element "metadata" [] (sampleMetadata "\\dddd-\\dd-\\dd").childNodes,
      .element "data" [] [.element "record" [] [leaf "x" "1", leaf "y" "true"]]]⟩

/-- The model that `escapedDataset` is parsed to when the date check lets it through. -/
def escapedModel : XMLParser.Dataset :=
  ⟨"dataset_1735689600000_k3x9q2m1z",
    [("title", .str "Padron municipal"), ("description", .str "Habitantes por barrio"),
      ("category", .str "Demografia"), ("source", .str "Ayuntamiento de Salamanca"),
      ("updated", .str "\\dddd-\\dd-\\dd"), ("license", .str "CC BY 4.0")],
    [], .arr [.obj [("x", .num (.finite false 1 0)), ("y", .bool true)]]⟩

/-- The model that `sampleDataset` describes: the six required fields and one record. -/
def sampleModel : XMLParser.Dataset :=
  ⟨"dataset_1735689600000_k3x9q2m1z",
    [("title", .str "Padron municipal"), ("description", .str "Habitantes por barrio"),
      ("category", .str "Demografia"), ("source", .str "Ayuntamiento de Salamanca"),
      ("updated", .str "2025-01-01"), ("license", .str "CC BY 4.0")],
    [], .arr [.obj [("x", .num (.finite false 1 0)), ("y", .bool true)]]⟩

/-- A model whose title and tags contain characters reserved by XML. -/
def taggedModel : XMLParser.Dataset :=
  ⟨"dataset_1735689600000_k3x9q2m1z",
    [("title", .str "R&D"), ("tags", .arr [.str "R&D", .str "a<b"])],
    [], .arr [.obj [("x", .num (.finite false 1 0))]]⟩

/-- The replacement of one character by a simultaneous substitution of the five reserved
characters: ampersand, less-than, greater-than, double quote (34), single quote (39). -/
def escapeChar (c : Char) : List Char :=
  if c = '&' then "&amp;".data
  else if c = '<' then "&lt;".data
  else if c = '>' then "&gt;".data
  else if c = Char.ofNat 34 then "&quot;".data
  else if c = Char.ofNat 39 then "&#39;".data
  else [c]

/-- The text with every reserved character replaced by its entity, in one pass. -/
def escapeSimultaneous (s : String) : String := ⟨s.data.flatMap escapeChar⟩

/-- What follows the ampersand in the five entities. -/
def entityBodies : List String := ["amp;", "lt;", "gt;", "quot;", "#39;"]

/-- A text in which every ampersand begins one of the five entities and none of the characters
less-than, greater-than, double quote and single quote occurs. -/
def wellEscaped : List Char → Bool
  | [] => true
  | c :: rest =>
    if c = '&' then (entityBodies.any fun e => e.data.isPrefixOf rest) && wellEscaped rest
    else c != '<' && c != '>' && c != Char.ofNat 34 && c != Char.ofNat 39 && wellEscaped rest

/-- Does a text start or end with a white space character. -/
def hasOuterWhitespace (s : String) : Bool :=
  s.data.head?.any isJSWhitespace || s.data.getLast?.any isJSWhitespace

/-- A metadata section with the optional fields `tags` and `contact`, and the `updated` text
that the regular expression of `isValidDate` accepts. -/
def taggedMetadata : Element :=
  ⟨"metadata", [],
    [leaf "title" "Padron municipal", leaf "description" "Habitantes por barrio",
      leaf "category" "Demografia", leaf "source" "Ayuntamiento de Salamanca",
      leaf "updated" "\\dddd-\\dd-\\dd", leaf "license" "CC BY 4.0",
      leaf "tags" "a, b ,c", leaf "contact" " datos@example.org "]⟩

/-- The element `<data><record><csv>1</csv><x>2</x></record></data>`: its only child is a
record, one field of which has the tag `csv`. -/
def dataWithCsvField : Element :=
  ⟨"data", [], [.element "record" [] [leaf "csv" "1", leaf "x" "2"]]⟩

/-- The element
`<visualization><config><type>stacked</type></config><type>bar</type></visualization>`: the
child `type` comes after a `config` that has a `type` entry. -/
def vizWithNestedType : Element :=
  ⟨"visualization", [], [.element "config" [] [leaf "type" "stacked"], leaf "type" "bar"]⟩

/-- A model whose only record holds a text with markup, as it is parsed from the payload
`[\x7b"note": "&lt;/json&gt;&lt;/data&gt;&lt;data&gt;&lt;item&gt;1&lt;/item&gt;&lt;json&gt;"\x7d]`
of a `json` element. -/
def markupModel : XMLParser.Dataset :=
  ⟨"dataset_1735689600000_k3x9q2m1z",
    [("title", .str "Padron municipal"), ("description", .str "Habitantes por barrio"),
      ("category", .str "Demografia"), ("source", .str "Ayuntamiento de Salamanca"),
      ("updated", .str "2025-01-01"), ("license", .str "CC BY 4.0")],
    [], .arr [.obj [("note", .str "</json></data><data><item>1</item><json>")]]⟩

/-- The text `JSON.stringify(data, null, 6)` for the data of `markupModel`: five lines separated
by line feeds, the record indented by six blanks and its entry by twelve; `JSON.stringify`
quotes a string and leaves the characters `<`, `>` and `/` as they are. -/
def markupStringified : String :=
  "[\n      \x7b\n            \"note\": \"</json></data><data><item>1</item><json>\"\n      \x7d\n]"

/-- The element `<visualization><type>foo</type><type>bar</type></visualization>`: its second
`type` child holds a text of the enumeration, its first one does not. -/
def vizWithTwoTypes : Element := ⟨"visualization", [], [leaf "type" "foo", leaf "type" "bar"]⟩

/-- The document `<root><parsererror/></root>`: a well-formed text whose root has an empty child
element named `parsererror`. -/
def documentWithParsererrorChild : Element := ⟨"root", [], [.element "parsererror" [] []]⟩

/-- Does the text `needle` occur in the text `hay`. -/
def containsText (needle hay : String) : Bool :=
  hay.data.tails.any fun t => needle.data.isPrefixOf t

/-- The document
`<dataset><metadata>...<category>Foo</category>...<updated>2025-01-01</updated>...</metadata>
<data><record><x>1</x></record></data></dataset>`: the six required fields, a category outside
the known names and one record. -/
def fooDocument : Element :=
  ⟨"dataset", [],
    [.element "metadata" []
        [leaf "title" "Padron municipal", leaf "description" "Habitantes por barrio",
          leaf "category" "Foo", leaf "source" "Ayuntamiento de Salamanca",
          leaf "updated" "2025-01-01", leaf "license" "CC BY 4.0"],
      .element "data" [] [.element "record" [] [leaf "x" "1"]]]⟩

/-- A model that the parser's enumeration accepts, with the visualization type `table` and two
records with the same field names. -/
def tableModel : XMLParser.Dataset :=
  ⟨"dataset_1735689600000_k3x9q2m1z",
    [("title", .str "Padron municipal"), ("description", .str "Habitantes por barrio"),
      ("category", .str "Demografia"), ("source", .str "Ayuntamiento de Salamanca"),
      ("updated", .str "2025-01-01"), ("license", .str "CC BY 4.0")],
    [("type", .str "table")],
    .arr [.obj [("distrito", .str "Centro"), ("habitantes", .num (.finite false 12 3))],
      .obj [("distrito", .str "Garrido"), ("habitantes", .num (.finite false 3 4))]]⟩

/-- The dataset object as a value: its four properties in the order of `parseDataset`. -/
def datasetValue (d : XMLParser.Dataset) : JsValue :=
  .obj [("id", .str d.id), ("metadata", .obj d.metadata), ("visualization", .obj d.visualization),
    ("data", d.data)]

/-- One step of reading a path as the specification words it: the property of the current
value, and `undefined` when the current value is `null` or `undefined`. -/
def readStep {β : Type} (realm : Realm β)
    (current : Option (Reached β)) (key : String) :
    Except String (Option (Reached β)) :=
  match current with
  | some (.value .null) => .ok none
  | some c => readProp realm c key
  | none => .ok none

/-- The value reached by reading the keys one after the other. -/
def readKeys {β : Type} (realm : Realm β) :
    List String → Option (Reached β) →
      Except String (Option (Reached β))
  | [], current => .ok current
  | key :: rest, current =>
    match readStep realm current key with
    | .error e => .error e
    | .ok next => readKeys realm rest next

/-- The value reached by reading the keys of a dotted path one after the other. -/
def readPath {β : Type} (realm : Realm β) (obj : JsValue) (path : String) :
    Except String (Option (Reached β)) :=
  readKeys realm (jsSplit "." path) (some (.value obj))

/-- A record with a label candidate among its keys. -/
def districtRecord : JsObject :=
  [("habitantes", .num (.finite false 12 3)), ("distrito", .str "Centro"),
    ("nota", .str "provisional")]

/-- A record without label candidate, whose second key holds a string. -/
def zoneRecord : JsObject := [("codigo", .num (.finite false 5 0)), ("zona", .str "Norte")]

/-- A record with numbers only. -/
def numericRecord : JsObject :=
  [("a", .num (.finite false 1 0)), ("b", .num (.finite false 2 0))]

/-- A config object that sets none of the options `valueFields`, `colors` and `groupField`, and
whose field names `labelField`, `valueField`, `xField` and `yField`, where it sets them, convert
to a string, as every text, number and boolean does. -/
def plainChartConfig (entries : JsObject) : Bool :=
  (entries.get "valueFields").isNone && (entries.get "colors").isNone
    && (entries.get "groupField").isNone
    && ["labelField", "valueField", "xField", "yField"].all fun name =>
      match entries.get name with
      | some v => !ChartGenerator.stringConversionThrows v
      | none => true

/-- A realm with four of the standard members of `Object.prototype`, each a function that is
given by its name. It stands for the built-in objects in the statements made at concrete
inputs. -/
def sampleRealm : Realm String :=
  ⟨fun _ => true, fun _ _ => .ok none,
    fun receiver key =>
      match receiver, key with
      | .value (.obj _), .text name =>
        if name ∈ ["constructor", "toString", "valueOf", "hasOwnProperty"] then
          .ok (some (.builtin name))
        else .ok none
      | _, _ => .ok none,
    fun name => .ok (.text ("function " ++ name ++ "() \x7b [native code] \x7d"))⟩

/-- A model with the visualization type `bar`, a config that sets the title, and two records
with the same field names. -/
def barModel : XMLParser.Dataset :=
  ⟨"dataset_1735689600000_k3x9q2m1z",
    [("title", .str "Padron municipal"), ("description", .str "Habitantes por barrio"),
      ("category", .str "Demografia"), ("source", .str "Ayuntamiento de Salamanca"),
      ("updated", .str "2025-01-01"), ("license", .str "CC BY 4.0")],
    [("type", .str "bar"), ("config", .obj [("title", .str "Habitantes")])],
    .arr [.obj [("distrito", .str "Centro"), ("habitantes", .num (.finite false 12 3))],
      .obj [("distrito", .str "Garrido"), ("habitantes", .num (.finite false 3 4))]]⟩

/-- The model of `barModel` with the config that
`<config><valueFields>habitantes</valueFields></config>` is parsed to: the option `valueFields`
is a text. -/
def barModelWithTextField : XMLParser.Dataset :=
  ⟨barModel.id, barModel.metadata,
    [("type", .str "bar"), ("config", .obj [("valueFields", .str "habitantes")])],
    barModel.data⟩

/-! ## Theorems -/

open XMLParser

/-! ### Objects -/

theorem JsObject.get_setOwn (o : JsObject) (k k2 : String) (v : JsValue) :
    (JsObject.setOwn o k v).get k2 = if k = k2 then some v else o.get k2 := by
  induction o with
  | nil => simp [JsObject.setOwn, JsObject.get]
  | cons hd tl ih =>
    obtain ⟨a, b⟩ := hd
    by_cases hak : a = k
    · subst hak
      by_cases h2 : a = k2 <;> simp [JsObject.setOwn, JsObject.get, h2]
    · by_cases h2 : a = k2
      · subst h2
        have hka : ¬ k = a := fun h => hak h.symm
        simp [JsObject.setOwn, JsObject.get, hak, hka]
      · simp [JsObject.setOwn, JsObject.get, hak, h2, ih]

theorem JsObject.get_set (o : JsObject) (k k2 : String) (v : JsValue) :
    (JsObject.set o k v).get k2 =
      if k = "__proto__" then o.get k2 else if k = k2 then some v else o.get k2 := by
  unfold JsObject.set
  by_cases hk : k = "__proto__"
  · simp [hk]
  · simp [hk, JsObject.get_setOwn]

theorem JsObject.mem_keys_setOwn (o : JsObject) (k k2 : String) (v : JsValue) :
    k2 ∈ JsObject.keys (JsObject.setOwn o k v) ↔ k2 = k ∨ k2 ∈ JsObject.keys o := by
  induction o with
  | nil => simp [JsObject.setOwn, JsObject.keys]
  | cons hd tl ih =>
    obtain ⟨a, b⟩ := hd
    unfold JsObject.keys at ih
    by_cases hak : a = k
    · subst hak
      simp [JsObject.setOwn, JsObject.keys]
    · simp only [JsObject.setOwn, hak, if_false, JsObject.keys, List.map_cons, List.mem_cons, ih]
      tauto

theorem JsObject.nodup_keys_setOwn (o : JsObject) (k : String) (v : JsValue)
    (h : (JsObject.keys o).Nodup) : (JsObject.keys (JsObject.setOwn o k v)).Nodup := by
  induction o with
  | nil => simp [JsObject.setOwn, JsObject.keys]
  | cons hd tl ih =>
    obtain ⟨a, b⟩ := hd
    have h2 : a ∉ JsObject.keys tl ∧ (JsObject.keys tl).Nodup := by
      simpa [JsObject.keys] using h
    by_cases hak : a = k
    · subst hak
      simpa [JsObject.setOwn, JsObject.keys] using h
    · have hmem : a ∉ JsObject.keys (JsObject.setOwn tl k v) := by
        rw [JsObject.mem_keys_setOwn]
        intro hor
        rcases hor with hor | hor
        · exact hak hor
        · exact h2.1 hor
      have hnd := ih h2.2
      simp only [JsObject.setOwn, hak, if_false]
      exact List.nodup_cons.2 ⟨hmem, hnd⟩

theorem JsObject.nodup_keys_set (o : JsObject) (k : String) (v : JsValue)
    (h : (JsObject.keys o).Nodup) : (JsObject.keys (JsObject.set o k v)).Nodup := by
  unfold JsObject.set
  by_cases hk : k = "__proto__"
  · simpa [hk] using h
  · simpa [hk] using JsObject.nodup_keys_setOwn o k v h

/-! ### The date check -/

theorem matchAtoms_lit (l cs : List Char) :
    matchAtoms (l.map RegexAtom.lit) cs = true ↔ cs = l := by
  induction l generalizing cs with
  | nil => cases cs <;> simp [matchAtoms]
  | cons a as ih =>
    cases cs with
    | nil => simp [matchAtoms]
    | cons c cs => simp [matchAtoms, RegexAtom.test, ih]

theorem isValidDateRegex_accepts (s : String) :
    matchAtoms (expandCounts isValidDateRegex) s.data = true ↔ s = escapedDateText := by
  have h : expandCounts isValidDateRegex = escapedDateText.data.map RegexAtom.lit := rfl
  rw [h, matchAtoms_lit]
  constructor
  · intro hs
    exact String.ext hs
  · intro hs
    rw [hs]

theorem isValidDate_eq_true_iff (p : Platform) (s : String) :
    isValidDate p s = true ↔ s = escapedDateText ∧ p.dateIsValid escapedDateText = true := by
  unfold isValidDate
  by_cases h : matchAtoms (expandCounts isValidDateRegex) s.data = true
  · have hs := (isValidDateRegex_accepts s).1 h
    subst hs
    simp [h]
  · have hs : ¬ s = escapedDateText := fun e => h ((isValidDateRegex_accepts s).2 e)
    simp [h, hs]

/-! ### Metadata -/

theorem get_foldl_set (g : String → JsValue) (fields : List String) (md : JsObject) (k : String) :
    (fields.foldl (fun acc f => JsObject.set acc f (g f)) md).get k =
      if k ∈ fields ∧ k ≠ "__proto__" then some (g k) else md.get k := by
  induction fields generalizing md with
  | nil => simp
  | cons f fs ih =>
    rw [List.foldl_cons, ih, JsObject.get_set]
    by_cases hk : k ∈ fs
    · by_cases hp : k = "__proto__"
      · subst hp
        by_cases hf : f = "__proto__" <;> simp [hf]
      · simp [hk, hp]
    · by_cases hf : f = k
      · subst hf
        by_cases hp : f = "__proto__" <;> simp [hk, hp]
      · have hkf : ¬ k = f := fun h => hf h.symm
        by_cases hp : f = "__proto__" <;> simp [hk, hf, hkf, hp]

theorem parseRequiredFields_present (m : Element) (fields : List String) (md : JsObject)
    (h : ∀ f ∈ fields, m.firstText f ≠ none) :
    parseRequiredFields m fields md =
      .ok (fields.foldl (fun acc f => JsObject.set acc f (.str ((m.firstText f).getD ""))) md) := by
  induction fields generalizing md with
  | nil => simp [parseRequiredFields]
  | cons f fs ih =>
    have hf := h f (List.mem_cons_self f fs)
    have hfs : ∀ g ∈ fs, m.firstText g ≠ none := fun g hg => h g (List.mem_cons_of_mem f hg)
    unfold Element.firstText at hf
    cases hhd : (m.getElementsByTagName f).head? with
    | none => simp [hhd] at hf
    | some e =>
      rw [parseRequiredFields, List.foldl_cons]
      simp only [hhd]
      rw [ih _ hfs]
      simp [Element.firstText, hhd]

theorem parseRequiredFields_missing (m : Element) (field : String) (fields : List String)
    (md : JsObject) (hfield : field ∈ fields) (hmissing : m.firstText field = none)
    (hfirst : ∀ g ∈ fields.takeWhile (fun g => g != field), m.firstText g ≠ none) :
    parseRequiredFields m fields md = .error ("Missing required metadata field: " ++ field) := by
  induction fields generalizing md with
  | nil => simp at hfield
  | cons f fs ih =>
    by_cases hf : f = field
    · subst hf
      unfold Element.firstText at hmissing
      cases hhd : (m.getElementsByTagName f).head? with
      | none => simp [parseRequiredFields, hhd]
      | some e => simp [hhd] at hmissing
    · have hmem : field ∈ fs := by
        rcases List.mem_cons.1 hfield with h | h
        · exact absurd h.symm hf
        · exact h
      have htw : (f :: fs).takeWhile (fun g => g != field) =
          f :: fs.takeWhile (fun g => g != field) := by
        have hne : (f != field) = true := by simp [hf]
        simp [List.takeWhile, hne]
      rw [htw] at hfirst
      have hpres := hfirst f (List.mem_cons_self _ _)
      unfold Element.firstText at hpres
      cases hhd : (m.getElementsByTagName f).head? with
      | none => simp [hhd] at hpres
      | some e =>
        rw [parseRequiredFields]
        simp only [hhd]
        exact ih _ hmem (fun g hg => hfirst g (List.mem_cons_of_mem f hg))

theorem parseOptionalFields_get (m : Element) (fields : List String) (md : JsObject) (k : String)
    (hk : k ∉ fields) : (parseOptionalFields m fields md).get k = md.get k := by
  induction fields generalizing md with
  | nil => simp [parseOptionalFields]
  | cons f fs ih =>
    have hkf : ¬ f = k := fun h => hk (h ▸ List.mem_cons_self f fs)
    have hkfs : k ∉ fs := fun h => hk (List.mem_cons_of_mem f h)
    rw [parseOptionalFields]
    cases (m.getElementsByTagName f).head? with
    | none => exact ih _ hkfs
    | some e =>
      by_cases ht : f = "tags"
      · simp only [ht, if_true]
        rw [ih _ hkfs, JsObject.get_set]
        have : ¬ "tags" = k := fun h => hkf (ht.trans h)
        simp [this]
      · simp only [ht, if_false]
        rw [ih _ hkfs, JsObject.get_set]
        simp [hkf]

theorem isValidDate_rejects_every_YMD (p : Platform) (s : String) (h : matchesYMD s = true) :
    isValidDate p s = false := by
  cases hv : isValidDate p s with
  | false => rfl
  | true =>
    have hs := ((isValidDate_eq_true_iff p s).1 hv).1
    subst hs
    exact absurd h (by decide)

theorem parseRequiredFields_ok_present (m : Element) (fields : List String) (md md2 : JsObject)
    (h : parseRequiredFields m fields md = .ok md2) : ∀ f ∈ fields, m.firstText f ≠ none := by
  induction fields generalizing md with
  | nil => simp
  | cons f fs ih =>
    rw [parseRequiredFields] at h
    cases hhd : (m.getElementsByTagName f).head? with
    | none => simp [hhd] at h
    | some e =>
      simp only [hhd] at h
      intro g hg
      rcases List.mem_cons.1 hg with hgf | hgfs
      · subst hgf
        simp [Element.firstText, hhd]
      · exact ih _ h g hgfs

theorem firstMissing_none (present : String → Bool) (xs : List String)
    (h : firstMissing present xs = none) : ∀ x ∈ xs, present x = true := by
  induction xs with
  | nil => simp
  | cons a as ih =>
    rw [firstMissing] at h
    cases hp : present a with
    | false => simp [hp] at h
    | true =>
      simp only [hp, Bool.not_true] at h
      intro x hx
      rcases List.mem_cons.1 hx with hxa | hxas
      · rw [hxa]
        exact hp
      · exact ih h x hxas

theorem parseMetadata_ok_updated_empty (p : Platform)
    (hDate : p.dateIsValid escapedDateText = false) (m : Element) (md : JsObject)
    (h : parseMetadata p m = .ok md) : md.get "updated" = some (.str "") := by
  unfold parseMetadata at h
  cases hreq : parseRequiredFields m metadataRequired [] with
  | error e =>
    rw [hreq] at h
    simp at h
  | ok md0 =>
    rw [hreq] at h
    dsimp only at h
    have hpres := parseRequiredFields_ok_present m metadataRequired [] md0 hreq
    rw [parseRequiredFields_present m metadataRequired [] hpres] at hreq
    have hmd0 : md0 = List.foldl (fun acc f => JsObject.set acc f
        (.str ((m.firstText f).getD ""))) [] metadataRequired := by
      injection hreq with h1
      exact h1.symm
    have hget : (parseOptionalFields m metadataOptional md0).get "updated" =
        some (.str ((m.firstText "updated").getD "")) := by
      rw [parseOptionalFields_get _ _ _ _ (by decide), hmd0, get_foldl_set]
      simp [metadataRequired]
    unfold checkUpdated at h
    rw [hget] at h
    dsimp only at h
    have hinv : isValidDate p ((m.firstText "updated").getD "") = false := by
      cases hv : isValidDate p ((m.firstText "updated").getD "") with
      | false => rfl
      | true =>
        have h2 := (isValidDate_eq_true_iff p _).1 hv
        rw [h2.2] at hDate
        exact absurd hDate (by simp)
    by_cases hu : (m.firstText "updated").getD "" = ""
    · simp only [hu, bne_self_eq_false, Bool.false_and] at h
      injection h with h1
      rw [← h1, hget, hu]
    · have hb : (((m.firstText "updated").getD "") != "") = true := by simp [hu]
      simp [hb, hinv] at h

theorem validateDataset_updated_empty (p : Platform) (d : Dataset)
    (h : d.metadata.get "updated" = some (.str "")) : ∃ e, validateDataset p d = .error e := by
  unfold validateDataset
  cases h1 : firstMissing (fun s => truthyOpt (d.prop s)) datasetRequired with
  | some s => exact ⟨_, rfl⟩
  | none =>
    cases h2 : firstMissing (fun field => truthyOpt (d.metadata.get field)) metadataRequired with
    | some f => exact ⟨_, rfl⟩
    | none =>
      have h3 := firstMissing_none _ _ h2 "updated" (by decide)
      rw [h] at h3
      exact absurd h3 (by decide)

/-- No document at all is accepted as a dataset, in a browser that builds an invalid `Date` from
the one text accepted by the regular expression of `isValidDate`. -/
theorem parseXML_dataset_never_succeeds (p : Platform)
    (hDate : p.dateIsValid escapedDateText = false) (root : Element) :
    ∃ e, parseXML p root "dataset" = .error e := by
  have hds : ∃ e, parseDataset p root = .error e := by
    unfold parseDataset
    cases (root.getElementsByTagName "metadata").head? with
    | none => exact ⟨_, rfl⟩
    | some m =>
      dsimp only
      cases hm : parseMetadata p m with
      | error e => exact ⟨_, rfl⟩
      | ok md =>
        have hu := parseMetadata_ok_updated_empty p hDate m md hm
        have hval : ∀ viz data, ∃ e,
            validateDataset p ⟨generateId p, md, viz, data⟩ = .error e :=
          fun viz data => validateDataset_updated_empty p ⟨generateId p, md, viz, data⟩ hu
        dsimp only
        cases (root.getElementsByTagName "visualization").head? with
        | none =>
          dsimp only
          cases (root.getElementsByTagName "data").head? with
          | none => exact ⟨_, rfl⟩
          | some de =>
            dsimp only
            cases parseData p de with
            | error e => exact ⟨_, rfl⟩
            | ok data =>
              obtain ⟨e, he⟩ := hval [] data
              dsimp only
              rw [he]
              exact ⟨_, rfl⟩
        | some v =>
          dsimp only
          cases parseVisualization p v with
          | error e => exact ⟨_, rfl⟩
          | ok viz =>
            dsimp only
            cases (root.getElementsByTagName "data").head? with
            | none => exact ⟨_, rfl⟩
            | some de =>
              dsimp only
              cases parseData p de with
              | error e => exact ⟨_, rfl⟩
              | ok data =>
                obtain ⟨e, he⟩ := hval viz data
                dsimp only
                rw [he]
                exact ⟨_, rfl⟩
  obtain ⟨e, he⟩ := hds
  unfold parseXML parseXMLBody
  cases (documentElementsByTagName root "parsererror").head? with
  | some pe => exact ⟨_, rfl⟩
  | none =>
    simp only [if_true, he]
    exact ⟨_, rfl⟩

theorem checkUpdated_rejects (p : Platform) (md : JsObject) (updated : String)
    (hget : md.get "updated" = some (.str updated)) (hne : updated ≠ "")
    (hinvalid : isValidDate p updated = false) :
    checkUpdated p md = .error "Invalid date format in updated field. Use YYYY-MM-DD format." := by
  unfold checkUpdated
  simp [hget, hne, hinvalid]

/-! ### Claims -/

/-- C1 (code defect). A dataset document that matches the schema, with the real date
`2025-01-01` in `updated` and one record, is rejected by `parseXML` with the date-format error,
whatever the browser's `Date` and `JSON.parse` do: no model is returned. -/
theorem C1_valid_dataset_is_rejected (p : Platform) :
    parseXML p sampleDataset "dataset" =
      .error "XML Processing Error: Invalid date format in updated field. Use YYYY-MM-DD format." :=
  rfl

/-- C2 (code defect). The text `2025-01-01` has the form `YYYY-MM-DD` and denotes a real date,
yet `isValidDate` returns false for it, and `parseMetadata` rejects a metadata section whose
`updated` is `2025-01-01`. -/
theorem C2_isValidDate_rejects_real_date (p : Platform) :
    denotesRealDate "2025-01-01" = true ∧
      isValidDate p "2025-01-01" = false ∧
      parseMetadata p (sampleMetadata "2025-01-01") =
        .error "Invalid date format in updated field. Use YYYY-MM-DD format." :=
  ⟨by decide, rfl, rfl⟩

/-- C3. When the six required fields are present and the trimmed `updated` text is not empty
and either lacks the form `YYYY-MM-DD` or denotes no real calendar date, `isValidDate` returns
false, `parseMetadata` fails with the date-format error, and so does `parseXML` on a document
with this metadata section: no model is returned. The browser is assumed to build an invalid
`Date` from the one text accepted by the regular expression. (The rejection does not depend on
the condition on the text: see C2.) -/
theorem C3_invalid_updated_is_rejected (p : Platform)
    (hDate : p.dateIsValid escapedDateText = false)
    (metadataElement : Element) (updated : String)
    (hreq : ∀ f ∈ metadataRequired, metadataElement.firstText f ≠ none)
    (hupd : metadataElement.firstText "updated" = some updated)
    (hne : updated ≠ "")
    (_hbad : matchesYMD updated = false ∨ denotesRealDate updated = false) :
    isValidDate p updated = false ∧
      parseMetadata p metadataElement =
        .error "Invalid date format in updated field. Use YYYY-MM-DD format." ∧
      ∀ root : Element,
        (documentElementsByTagName root "parsererror").head? = none →
        (root.getElementsByTagName "metadata").head? = some metadataElement →
        parseXML p root "dataset" = .error
          "XML Processing Error: Invalid date format in updated field. Use YYYY-MM-DD format." := by
  have hinvalid : isValidDate p updated = false := by
    cases hv : isValidDate p updated with
    | false => rfl
    | true =>
      have h := (isValidDate_eq_true_iff p updated).1 hv
      rw [h.2] at hDate
      exact absurd hDate (by simp)
  have hmeta : parseMetadata p metadataElement =
      .error "Invalid date format in updated field. Use YYYY-MM-DD format." := by
    unfold parseMetadata
    rw [parseRequiredFields_present metadataElement metadataRequired [] hreq]
    simp only []
    apply checkUpdated_rejects p _ updated _ hne hinvalid
    rw [parseOptionalFields_get _ _ _ _ (by decide), get_foldl_set]
    simp [metadataRequired, hupd]
  refine ⟨hinvalid, hmeta, ?_⟩
  intro root hwf hroot
  simp only [parseXML, parseXMLBody, parseDataset, hwf, hroot, hmeta, if_true]
  rfl

/-- Witness of C3: the metadata section whose `updated` is `2025-02-30`, in a browser with a
strict `Date`. -/
theorem C3_invalid_updated_is_rejected_witness :
    isValidDate strictPlatform "2025-02-30" = false ∧
      parseMetadata strictPlatform (sampleMetadata "2025-02-30") =
        .error "Invalid date format in updated field. Use YYYY-MM-DD format." ∧
      ∀ root : Element,
        (documentElementsByTagName root "parsererror").head? = none →
        (root.getElementsByTagName "metadata").head? = some (sampleMetadata "2025-02-30") →
        parseXML strictPlatform root "dataset" = .error
          "XML Processing Error: Invalid date format in updated field. Use YYYY-MM-DD format." :=
  C3_invalid_updated_is_rejected strictPlatform (by decide) (sampleMetadata "2025-02-30")
    "2025-02-30" (by decide) (by decide) (by decide) (Or.inr (by decide))

/-- C4. In a document without parser error whose metadata section lacks one of the six required
fields, `parseXML` fails with `Missing required metadata field: ` followed by the name of the
first field, in schema order, that has no element. -/
theorem C4_missing_required_field_is_named (p : Platform) (root metadataElement : Element)
    (field : String)
    (hwf : (documentElementsByTagName root "parsererror").head? = none)
    (hmeta : (root.getElementsByTagName "metadata").head? = some metadataElement)
    (hfield : field ∈ metadataRequired)
    (hmissing : metadataElement.firstText field = none)
    (hfirst : ∀ g ∈ metadataRequired.takeWhile (fun g => g != field),
      metadataElement.firstText g ≠ none) :
    parseXML p root "dataset" =
      .error ("XML Processing Error: Missing required metadata field: " ++ field) := by
  have h := parseRequiredFields_missing metadataElement field metadataRequired [] hfield
    hmissing hfirst
  simp only [parseXML, parseXMLBody, parseDataset, parseMetadata, hwf, hmeta, h, if_true]
  rw [← String.append_assoc]
  rfl

/-- Witness of C4: with `source` and `license` both missing, `source` is the field named. -/
theorem C4_missing_required_field_is_named_witness :
    parseXML strictPlatform datasetWithoutSource "dataset" =
      .error ("XML Processing Error: Missing required metadata field: " ++ "source") :=
  C4_missing_required_field_is_named strictPlatform datasetWithoutSource metadataWithoutSource
    "source" rfl rfl (by decide) rfl (by decide)

/-- C5, counterexample. The section `<visualization><type>foo</type><type>bar</type>
</visualization>` has a `type` element whose trimmed text, `bar`, is in the enumeration, and
`parseVisualization` fails on it with `Invalid visualization type: foo` in every browser: the
existence of a `type` element with a valid text does not make the call succeed. -/
theorem C5_counterexample_second_type :
    (vizWithTwoTypes.children.map fun t => (t.tagName, jsTrim t.textContent)) =
        [("type", "foo"), ("type", "bar")] ∧
      ((vizWithTwoTypes.getElementsByTagName "type").any fun t =>
        validTypes.contains (jsTrim t.textContent)) = true ∧
      (∀ p : Platform, parseVisualization p vizWithTwoTypes =
        .error "Invalid visualization type: foo") ∧
      ¬ ∀ (p : Platform) (vizElement : Element),
        ((∃ v, parseVisualization p vizElement = .ok v) ↔
          ∃ t ∈ vizElement.getElementsByTagName "type",
            jsTrim t.textContent ∈
              ["bar", "line", "pie", "doughnut", "scatter", "area", "map", "table", "heatmap"]) := by
  refine ⟨rfl, rfl, fun _ => rfl, ?_⟩
  intro h
  have h2 := (h strictPlatform vizWithTwoTypes).2
    ⟨⟨"type", [], [.text "bar"]⟩, by
      simp [vizWithTwoTypes, leaf, Element.getElementsByTagName, Element.descendants,
        Node.subtreeElementsList, Node.subtreeElements], by
      simp [Element.textContent, Node.textContentList, Node.textContent, jsTrim, trimChars]
      decide⟩
  obtain ⟨v, hv⟩ := h2
  have he : parseVisualization strictPlatform vizWithTwoTypes =
      .error "Invalid visualization type: foo" := rfl
  rw [he] at hv
  exact Except.noConfusion hv

/-- C5, amended. `parseVisualization` succeeds exactly when the first `type` element found
below the section, in document order, has a trimmed text of the fixed enumeration; another
trimmed text `t` of that first element gives the error `Invalid visualization type: ` followed
by `t`, and a section without `type` element gives `Missing required visualization type`. -/
theorem C5_parseVisualization_type (p : Platform) (vizElement : Element) :
    ((∃ v, parseVisualization p vizElement = .ok v) ↔
        ∃ t, vizElement.firstText "type" = some t ∧
          t ∈ ["bar", "line", "pie", "doughnut", "scatter", "area", "map", "table", "heatmap"]) ∧
      (∀ t, vizElement.firstText "type" = some t →
        t ∉ ["bar", "line", "pie", "doughnut", "scatter", "area", "map", "table", "heatmap"] →
        parseVisualization p vizElement = .error ("Invalid visualization type: " ++ t)) ∧
      (vizElement.firstText "type" = none →
        parseVisualization p vizElement = .error "Missing required visualization type") := by
  unfold Element.firstText parseVisualization
  cases (vizElement.getElementsByTagName "type").head? with
  | none => simp
  | some typeElement =>
    by_cases hv : jsTrim typeElement.textContent ∈ validTypes
    · have hc : validTypes.contains (jsTrim typeElement.textContent) = true := by
        simpa using hv
      refine ⟨?_, ?_, ?_⟩
      · simp only [hc, Option.map_some']
        constructor
        · intro _
          exact ⟨_, rfl, hv⟩
        · intro _
          exact ⟨_, rfl⟩
      · intro t ht hnot
        simp only [Option.map_some', Option.some.injEq] at ht
        subst ht
        exact absurd hv hnot
      · intro h
        simp at h
    · have hc : validTypes.contains (jsTrim typeElement.textContent) = false := by
        simpa using hv
      refine ⟨?_, ?_, ?_⟩
      · simp only [hc, Option.map_some']
        constructor
        · intro h
          obtain ⟨v, hv2⟩ := h
          simp at hv2
        · intro h
          obtain ⟨t, ht, hmem⟩ := h
          simp only [Option.some.injEq] at ht
          subst ht
          exact absurd hmem hv
      · intro t ht _
        simp only [Option.map_some', Option.some.injEq] at ht
        subst ht
        simp only [hc]
        rfl
      · intro h
        simp at h

/-- C6. `parseData` looks for `json`, `csv`, `record` and `item` elements in this order, each
with `getElementsByTagName`, and the first kind found decides: a `json` element gives its parsed
payload, or the error `Invalid JSON data format` when the payload is malformed; without `json`,
a `csv` element gives the result of `parseCSV`; without both, `record` elements give
`parseRecords`; without the three, `item` elements give `parseItems`; with none of the four the
call fails with `No valid data format found`. -/
theorem C6_parseData_first_format_wins (p : Platform) (dataElement : Element) :
    (∀ jsonData, (dataElement.getElementsByTagName "json").head? = some jsonData →
        (∀ v, p.jsonParse jsonData.textContent = some v → parseData p dataElement = .ok v) ∧
        (p.jsonParse jsonData.textContent = none →
          parseData p dataElement = .error "Invalid JSON data format")) ∧
      (dataElement.getElementsByTagName "json" = [] →
        ∀ csvData, (dataElement.getElementsByTagName "csv").head? = some csvData →
          parseData p dataElement = parseCSV csvData.textContent) ∧
      (dataElement.getElementsByTagName "json" = [] →
        dataElement.getElementsByTagName "csv" = [] →
        dataElement.getElementsByTagName "record" ≠ [] →
          parseData p dataElement =
            .ok (.arr (parseRecords (dataElement.getElementsByTagName "record")))) ∧
      (dataElement.getElementsByTagName "json" = [] →
        dataElement.getElementsByTagName "csv" = [] →
        dataElement.getElementsByTagName "record" = [] →
        dataElement.getElementsByTagName "item" ≠ [] →
          parseData p dataElement =
            .ok (.arr (parseItems (dataElement.getElementsByTagName "item")))) ∧
      (dataElement.getElementsByTagName "json" = [] →
        dataElement.getElementsByTagName "csv" = [] →
        dataElement.getElementsByTagName "record" = [] →
        dataElement.getElementsByTagName "item" = [] →
          parseData p dataElement =
            .error "No valid data format found. Use json, csv, record, or item elements.") := by
  refine ⟨?_, ?_, ?_, ?_, ?_⟩
  · intro jsonData hj
    constructor
    · intro v hv
      simp [parseData, hj, hv]
    · intro hv
      simp [parseData, hj, hv]
  · intro hj csvData hc
    simp [parseData, hj, hc]
  · intro hj hc hr
    have hlen : 0 < (dataElement.getElementsByTagName "record").length :=
      List.length_pos.2 hr
    simp [parseData, hj, hc, hlen]
  · intro hj hc hr hi
    have hlen : 0 < (dataElement.getElementsByTagName "item").length :=
      List.length_pos.2 hi
    simp [parseData, hj, hc, hr, hlen]
  · intro hj hc hr hi
    simp [parseData, hj, hc, hr, hi]

/-! ### Records -/

theorem get_foldl_fields (fields : List Element) (acc : JsObject) (k : String)
    (hk : k ≠ "__proto__") :
    (fields.foldl (fun recordData field =>
        JsObject.set recordData field.tagName (coerceValue (jsTrim field.textContent))) acc).get k =
      (((fields.filter fun f => f.tagName == k).getLast?).map fun f =>
        coerceValue (jsTrim f.textContent)).or (acc.get k) := by
  induction fields generalizing acc with
  | nil => simp
  | cons f fs ih =>
    rw [List.foldl_cons, ih, JsObject.get_set]
    by_cases hf : f.tagName = k
    · have hp : ¬ f.tagName = "__proto__" := fun h => hk (hf ▸ h)
      have hfilter : (List.filter (fun f => f.tagName == k) (f :: fs)) =
          f :: List.filter (fun f => f.tagName == k) fs := by
        simp [List.filter, hf]
      rw [hfilter, List.getLast?_cons]
      cases (List.filter (fun f => f.tagName == k) fs).getLast? <;> simp [hf, hp, hk]
    · have hfilter : (List.filter (fun f => f.tagName == k) (f :: fs)) =
          List.filter (fun f => f.tagName == k) fs := by
        have hne : (f.tagName == k) = false := by simp [hf]
        simp [List.filter, hne]
      rw [hfilter]
      by_cases hp : f.tagName = "__proto__" <;> simp [hf, hp]

theorem get_proto_foldl_fields (fields : List Element) (acc : JsObject) :
    (fields.foldl (fun recordData field =>
        JsObject.set recordData field.tagName (coerceValue (jsTrim field.textContent))) acc).get
          "__proto__" = acc.get "__proto__" := by
  induction fields generalizing acc with
  | nil => simp
  | cons f fs ih =>
    rw [List.foldl_cons, ih, JsObject.get_set]
    by_cases hp : f.tagName = "__proto__" <;> simp [hp]

theorem nodup_keys_foldl_fields (fields : List Element) (acc : JsObject)
    (h : (JsObject.keys acc).Nodup) :
    (JsObject.keys (fields.foldl (fun recordData field =>
        JsObject.set recordData field.tagName (coerceValue (jsTrim field.textContent))) acc)).Nodup := by
  induction fields generalizing acc with
  | nil => simpa using h
  | cons f fs ih =>
    rw [List.foldl_cons]
    exact ih _ (JsObject.nodup_keys_set acc _ _ h)

/-- C7 (code defect). The CSV text `a,b`, `1,2`, `3,4` on three lines separated by newline
characters does not parse to two records: `parseCSV` fails with the error for a text of fewer
than two lines. The two records are returned only when the lines are separated by the two
characters backslash and n. -/
theorem C7_parseCSV_rejects_newline_separated_text :
    parseCSV "a,b\n1,2\n3,4" = .error "CSV must have at least header and one data row" ∧
      parseCSV "a,b\\n1,2\\n3,4" =
        .ok (.arr [.obj [("a", .num (.finite false 1 0)), ("b", .num (.finite false 2 0))],
          .obj [("a", .num (.finite false 3 0)), ("b", .num (.finite false 4 0))]]) :=
  ⟨rfl, rfl⟩

/-- C8 (code defect). For the CSV text with the header `a,b` and, after a newline character, the
data line `1,2,3`, `parseCSV` fails, but not with the row-count error: it reports a text of
fewer than two lines. The row-count error appears only when the lines are separated by the two
characters backslash and n. -/
theorem C8_parseCSV_row_count_error_not_reported :
    parseCSV "a,b\n1,2,3" = .error "CSV must have at least header and one data row" ∧
      parseCSV "a,b\\n1,2,3" = .error "CSV row 1 has 3 values but expected 2" :=
  ⟨rfl, rfl⟩

/-- C9 (code defect). The text made of the two lines `a,b` and `1,2`, separated by a newline
character, fails with the error reserved for fewer than two lines, and a text without any
newline character, `a,b\n1,2` written with a backslash and an n, does not fail. -/
theorem C9_parseCSV_counts_lines_wrongly :
    jsSplit "\n" (jsTrim "a,b\n1,2") = ["a,b", "1,2"] ∧
      parseCSV "a,b\n1,2" = .error "CSV must have at least header and one data row" ∧
      jsSplit "\n" (jsTrim "a,b\\n1,2") = ["a,b\\n1,2"] ∧
      parseCSV "a,b\\n1,2" =
        .ok (.arr [.obj [("a", .num (.finite false 1 0)), ("b", .num (.finite false 2 0))]]) :=
  ⟨rfl, rfl, rfl, rfl⟩

/-- C10, as stated, fails: the record `<record><x>1</x><x>2</x></record>` has two immediate
child elements, and `parseRecords` returns the object with the single entry `x: 2`, not one
entry per child. -/
theorem C10_counterexample_repeated_tag :
    recordWithRepeatedTag.children.length = 2 ∧
      parseRecords [recordWithRepeatedTag] = [.obj [("x", .num (.finite false 2 0))]] ∧
      parseRecords [recordWithRepeatedTag] ≠ [.obj (entriesPerChild recordWithRepeatedTag)] := by
  refine ⟨rfl, rfl, ?_⟩
  intro h
  have h2 : parseRecords [recordWithRepeatedTag] =
      [.obj [("x", .num (.finite false 2 0))]] := rfl
  have h3 : entriesPerChild recordWithRepeatedTag =
      [("x", .num (.finite false 1 0)), ("x", .num (.finite false 2 0))] := rfl
  rw [h2, h3] at h
  simp at h

/-- C10, amended. `parseRecords` returns one object per record, in document order. The object of
a record has no two entries with the same key; its entry for a name `k` other than `__proto__`
exists exactly when some immediate child element has the tag `k`, and holds the coerced trimmed
text of the last such child; `__proto__` is never a key. The coercion gives a number for a
numeric non-empty text, a boolean for exactly `true` or `false`, and the text otherwise; the
record `<record><x>1</x><y>true</y></record>` yields the object with `x: 1` and `y: true`. -/
theorem C10_parseRecords_last_child_wins (records : List Element) :
    (parseRecords records).length = records.length ∧
      (∀ (i : Nat) (h : i < records.length),
        (parseRecords records)[i]? = some (.obj (recordObject records[i]))) ∧
      (∀ record : Element,
        (JsObject.keys (recordObject record)).Nodup ∧
        (recordObject record).get "__proto__" = none ∧
        ∀ k : String, k ≠ "__proto__" →
          (recordObject record).get k =
            ((record.children.filter fun f => f.tagName == k).getLast?).map fun f =>
              coerceValue (jsTrim f.textContent)) ∧
      (∀ t : String,
        ((jsIsNaN t = false ∧ t ≠ "") → coerceValue t = .num (stringToNumber t)) ∧
        (t = "true" → coerceValue t = .bool true) ∧
        (t = "false" → coerceValue t = .bool false) ∧
        (¬ (jsIsNaN t = false ∧ t ≠ "") → t ≠ "true" → t ≠ "false" → coerceValue t = .str t)) ∧
      parseRecords [sampleRecord] =
        [.obj [("x", .num (.finite false 1 0)), ("y", .bool true)]] := by
  refine ⟨?_, ?_, ?_, ?_, rfl⟩
  · simp [parseRecords]
  · intro i h
    simp [parseRecords, h]
  · intro record
    refine ⟨?_, ?_, ?_⟩
    · exact nodup_keys_foldl_fields record.children [] (by simp [JsObject.keys])
    · unfold recordObject
      rw [get_proto_foldl_fields]
      rfl
    · intro k hk
      unfold recordObject
      rw [get_foldl_fields _ _ _ hk]
      simp [JsObject.get]
  · intro t
    refine ⟨?_, ?_, ?_, ?_⟩
    · intro h
      simp [coerceValue, h.1, h.2]
    · intro h
      subst h
      rfl
    · intro h
      subst h
      rfl
    · intro h1 h2 h3
      unfold coerceValue
      have hc : (!jsIsNaN t && t != "") = false := by
        cases hn : jsIsNaN t with
        | true => simp
        | false =>
          have : t = "" := by
            by_contra hne
            exact h1 ⟨hn, hne⟩
          simp [this]
      simp [hc, h2, h3]

/-! ### Items and config -/

theorem get_own_assign (config : ConfigState) (key k : String) (value : JsValue)
    (hk : k ≠ "__proto__") :
    (config.assign key value).own.get k = if key = k then some value else config.own.get k := by
  unfold ConfigState.assign
  by_cases hc : (key = "__proto__" && (config.own.get key).isNone
      && config.prototype.reachesAccessor) = true
  · rw [if_pos hc]
    have hkey : key = "__proto__" := by
      simp only [Bool.and_eq_true, decide_eq_true_eq] at hc
      exact hc.1.1
    have hne : ¬ key = k := fun h => hk (h ▸ hkey)
    simp [hne]
  · rw [if_neg hc]
    exact JsObject.get_setOwn _ _ _ _

theorem nodup_own_assign (config : ConfigState) (key : String) (value : JsValue)
    (h : (JsObject.keys config.own).Nodup) :
    (JsObject.keys (config.assign key value).own).Nodup := by
  unfold ConfigState.assign
  split
  · exact h
  · exact JsObject.nodup_keys_setOwn _ _ _ h

theorem get_own_foldl_assign (g : Element → JsValue) (fields : List Element)
    (acc : ConfigState) (k : String) (hk : k ≠ "__proto__") :
    (fields.foldl (fun config field => config.assign field.tagName (g field)) acc).own.get k =
      (((fields.filter fun f => f.tagName == k).getLast?).map g).or (acc.own.get k) := by
  induction fields generalizing acc with
  | nil => simp
  | cons f fs ih =>
    rw [List.foldl_cons, ih, get_own_assign _ _ _ _ hk]
    by_cases hf : f.tagName = k
    · have hfilter : (List.filter (fun f => f.tagName == k) (f :: fs)) =
          f :: List.filter (fun f => f.tagName == k) fs := by
        simp [List.filter, hf]
      rw [hfilter, List.getLast?_cons]
      cases (List.filter (fun f => f.tagName == k) fs).getLast? <;> simp [hf]
    · have hfilter : (List.filter (fun f => f.tagName == k) (f :: fs)) =
          List.filter (fun f => f.tagName == k) fs := by
        have hne : (f.tagName == k) = false := by simp [hf]
        simp [List.filter, hne]
      rw [hfilter]
      simp [hf]

theorem nodup_own_foldl_assign (g : Element → JsValue) (fields : List Element)
    (acc : ConfigState) (h : (JsObject.keys acc.own).Nodup) :
    (JsObject.keys (fields.foldl (fun config field => config.assign field.tagName (g field))
      acc).own).Nodup := by
  induction fields generalizing acc with
  | nil => simpa using h
  | cons f fs ih =>
    rw [List.foldl_cons]
    exact ih _ (nodup_own_assign acc _ _ h)

theorem assign_primitive_proto (config : ConfigState) (value : JsValue)
    (hown : config.own.get "__proto__" = none) (hproto : config.prototype = .objectPrototype)
    (hv : typeofIsObject value = false) :
    config.assign "__proto__" value = config := by
  obtain ⟨own, prototype⟩ := config
  simp only at hown hproto
  subst hproto
  unfold ConfigState.assign
  simp only [hown, ConfigPrototype.reachesAccessor, Option.isNone_none, Bool.and_self,
    decide_True, if_true]
  cases value <;> simp_all [typeofIsObject, ConfigPrototype.assigned]

theorem foldl_assign_primitive_proto (g : Element → JsValue) (fields : List Element)
    (acc : ConfigState) (hown : acc.own.get "__proto__" = none)
    (hproto : acc.prototype = .objectPrototype)
    (h : ∀ f ∈ fields, f.tagName = "__proto__" → typeofIsObject (g f) = false) :
    (fields.foldl (fun config field => config.assign field.tagName (g field))
      acc).own.get "__proto__" = none := by
  induction fields generalizing acc with
  | nil => simpa using hown
  | cons f fs ih =>
    rw [List.foldl_cons]
    have hrest : ∀ x ∈ fs, x.tagName = "__proto__" → typeofIsObject (g x) = false :=
      fun x hx => h x (List.mem_cons_of_mem f hx)
    by_cases hf : f.tagName = "__proto__"
    · rw [hf, assign_primitive_proto acc (g f) hown hproto (h f (List.mem_cons_self f fs) hf)]
      exact ih acc hown hproto hrest
    · refine ih _ ?_ ?_ hrest
      · have hcond : (f.tagName = "__proto__" && (acc.own.get f.tagName).isNone
            && acc.prototype.reachesAccessor) = false := by simp [hf]
        unfold ConfigState.assign
        rw [hcond]
        simp only [Bool.false_eq_true, if_false]
        rw [JsObject.get_setOwn, if_neg hf]
        exact hown
      · have hcond : (f.tagName = "__proto__" && (acc.own.get f.tagName).isNone
            && acc.prototype.reachesAccessor) = false := by simp [hf]
        unfold ConfigState.assign
        rw [hcond]
        simpa using hproto

/-- C11, as stated, fails: the item `<item key="">5</item>` carries a `key` attribute, and
`parseItems` returns the bare number 5 for it, not a single-entry object. -/
theorem C11_counterexample_empty_key :
    itemWithEmptyKey.getAttribute "key" = some "" ∧
      parseItems [itemWithEmptyKey] = [.num (.finite false 5 0)] ∧
      parseItems [itemWithEmptyKey] ≠ [itemPerAttribute itemWithEmptyKey] := by
  refine ⟨rfl, rfl, ?_⟩
  intro h
  have h2 : parseItems [itemWithEmptyKey] = [.num (.finite false 5 0)] := rfl
  have h3 : itemPerAttribute itemWithEmptyKey = .obj [("", .num (.finite false 5 0))] := rfl
  rw [h2, h3] at h
  simp at h

/-- C11, amended. `parseItems` returns a list of the same length and order. An item whose `key`
attribute is present and not empty becomes the single-entry object keyed by it; otherwise an
item whose `name` attribute is present and not empty becomes the single-entry object keyed by
that; an item with neither (missing or empty) becomes the bare value. The value is the coerced
trimmed text, by the rules of record fields. -/
theorem C11_parseItems_non_empty_attribute (items : List Element) :
    (parseItems items).length = items.length ∧
      (∀ (i : Nat) (h : i < items.length),
        (parseItems items)[i]? = some (itemPerNonEmptyAttribute items[i])) ∧
      (∀ (item : Element) (k : String), item.getAttribute "key" = some k → k ≠ "" →
        parseItems [item] = [.obj [(k, coerceValue (jsTrim item.textContent))]]) ∧
      (∀ (item : Element) (n : String),
        (item.getAttribute "key" = none ∨ item.getAttribute "key" = some "") →
        item.getAttribute "name" = some n → n ≠ "" →
        parseItems [item] = [.obj [(n, coerceValue (jsTrim item.textContent))]]) ∧
      (∀ item : Element,
        (item.getAttribute "key" = none ∨ item.getAttribute "key" = some "") →
        (item.getAttribute "name" = none ∨ item.getAttribute "name" = some "") →
        parseItems [item] = [coerceValue (jsTrim item.textContent)]) := by
  have hone : ∀ item : Element, parseItems [item] = [itemPerNonEmptyAttribute item] := by
    intro item
    simp only [parseItems, List.map_cons, List.map_nil, itemKey, itemPerNonEmptyAttribute,
      nonEmptyAttribute]
    cases hk : item.getAttribute "key" with
    | some k =>
      by_cases hke : k = ""
      · subst hke
        cases hn : item.getAttribute "name" with
        | some n => by_cases hne : n = "" <;> simp [hne]
        | none => simp
      · simp [hke]
    | none =>
      cases hn : item.getAttribute "name" with
      | some n => by_cases hne : n = "" <;> simp [hne]
      | none => simp
  have hmap : parseItems items = items.map itemPerNonEmptyAttribute := by
    induction items with
    | nil => rfl
    | cons a as ih =>
      have h1 : parseItems (a :: as) = parseItems [a] ++ parseItems as := by
        simp [parseItems]
      rw [h1, ih, hone]
      rfl
  refine ⟨?_, ?_, ?_, ?_, ?_⟩
  · simp [parseItems]
  · intro i h
    rw [hmap]
    simp [h]
  · intro item k hk hne
    rw [hone]
    simp [itemPerNonEmptyAttribute, nonEmptyAttribute, hk, hne]
  · intro item n hk hn hne
    rw [hone]
    rcases hk with hk | hk <;> simp [itemPerNonEmptyAttribute, nonEmptyAttribute, hk, hn, hne]
  · intro item hk hn
    rw [hone]
    rcases hk with hk | hk <;> rcases hn with hn | hn <;>
      simp [itemPerNonEmptyAttribute, nonEmptyAttribute, hk, hn]

/-- C12, as stated, fails: the element `<config><a>1</a><a>2</a></config>` has two immediate
child elements, and `parseConfig` returns the object with the single entry `a: 2`, so the first
child is not mapped to an entry decided from its own text. -/
theorem C12_counterexample_repeated_tag :
    configWithRepeatedTag.children.length = 2 ∧
      parseConfig strictPlatform configWithRepeatedTag = [("a", .num (.finite false 2 0))] ∧
      parseConfig strictPlatform configWithRepeatedTag ≠
        configEntriesPerChild strictPlatform configWithRepeatedTag := by
  refine ⟨rfl, rfl, ?_⟩
  intro h
  have h2 : parseConfig strictPlatform configWithRepeatedTag =
      [("a", .num (.finite false 2 0))] := rfl
  have h3 : configEntriesPerChild strictPlatform configWithRepeatedTag =
      [("a", .num (.finite false 1 0)), ("a", .num (.finite false 2 0))] := rfl
  rw [h2, h3] at h
  simp at h

/-- C12, amended. `parseConfig` is a total function. Its result has no two entries with the same
key; the entry for a name `k` other than `__proto__` exists exactly when some immediate child
element has the tag `k`, and holds the value decided from the trimmed text of the last such
child. A child named `__proto__` is an assignment to the accessor of that name: it stores no
entry as long as the values of the `__proto__` children are primitive (a text, a number, a
boolean); after a `__proto__` child has replaced the prototype by a parsed object that has an
own `__proto__` property, a later `__proto__` child is stored as an entry, as in the element
`configWithProtoChildren`. The value of a trimmed text is decided in this order: a text
starting with an opening brace or bracket is the result of `JSON.parse`, or the text itself when
that parse fails; exactly `true` or `false` is the boolean; a numeric non-empty text is the
number; anything else is the text. -/
theorem C12_parseConfig_last_child_wins (p : Platform) (configElement : Element) :
    (JsObject.keys (parseConfig p configElement)).Nodup ∧
      (∀ k : String, k ≠ "__proto__" →
        (parseConfig p configElement).get k =
          ((configElement.children.filter fun f => f.tagName == k).getLast?).map fun child =>
            configValue p (jsTrim child.textContent)) ∧
      ((∀ child ∈ configElement.children, child.tagName = "__proto__" →
          typeofIsObject (configValue p (jsTrim child.textContent)) = false) →
        (parseConfig p configElement).get "__proto__" = none) ∧
      (p.jsonParse "\x7b\"__proto__\":null\x7d" = some (.obj [("__proto__", .null)]) →
        parseConfig p configWithProtoChildren = [("__proto__", .str "x")]) ∧
      (∀ t : String,
        ((jsStartsWith t "\x7b" = true ∨ jsStartsWith t "[" = true) →
          (∀ v, p.jsonParse t = some v → configValue p t = v) ∧
          (p.jsonParse t = none → configValue p t = .str t)) ∧
        (jsStartsWith t "\x7b" = false → jsStartsWith t "[" = false →
          (t = "true" → configValue p t = .bool true) ∧
          (t = "false" → configValue p t = .bool false) ∧
          (t ≠ "true" → t ≠ "false" → jsIsNaN t = false → t ≠ "" →
            configValue p t = .num (stringToNumber t)) ∧
          (t ≠ "true" → t ≠ "false" → ¬ (jsIsNaN t = false ∧ t ≠ "") →
            configValue p t = .str t))) := by
  refine ⟨?_, ?_, ?_, ?_, ?_⟩
  · exact nodup_own_foldl_assign _ configElement.children ⟨[], .objectPrototype⟩
      (by simp [JsObject.keys])
  · intro k hk
    unfold parseConfig parseConfigState
    rw [get_own_foldl_assign _ _ _ _ hk]
    simp [JsObject.get]
  · intro h
    exact foldl_assign_primitive_proto _ configElement.children ⟨[], .objectPrototype⟩ rfl rfl h
  · intro h
    have h1 : parseConfig p configWithProtoChildren =
        (((⟨[], .objectPrototype⟩ : ConfigState).assign "__proto__"
          (configValue p "\x7b\"__proto__\":null\x7d")).assign "__proto__"
          (configValue p "x")).own := rfl
    have h2 : configValue p "\x7b\"__proto__\":null\x7d" = .obj [("__proto__", .null)] := by
      unfold configValue
      rw [if_pos (by decide), h]
    have h3 : configValue p "x" = .str "x" := rfl
    rw [h1, h2, h3]
    rfl
  · intro t
    refine ⟨?_, ?_⟩
    · intro hs
      have hb : (jsStartsWith t "\x7b" || jsStartsWith t "[") = true := by
        rcases hs with hs | hs <;> simp [hs]
      constructor
      · intro v hv
        simp [configValue, hb, hv]
      · intro hv
        simp [configValue, hb, hv]
    · intro h1 h2
      refine ⟨?_, ?_, ?_, ?_⟩
      · intro ht
        subst ht
        simp [configValue, h1, h2]
      · intro ht
        subst ht
        simp [configValue, h1, h2]
      · intro ht hf hn he
        simp [configValue, h1, h2, ht, hf, hn, he]
      · intro ht hf hn
        have hc : (!jsIsNaN t && t != "") = false := by
          cases hnan : jsIsNaN t with
          | true => simp
          | false =>
            have : t = "" := by
              by_contra hne
              exact hn ⟨hnan, hne⟩
            simp [this]
        simp [configValue, h1, h2, ht, hf, hc]

/-! ### Validation and the parsed model -/

theorem firstMissing_eq_none (present : String → Bool) (xs : List String)
    (h : ∀ x ∈ xs, present x = true) : firstMissing present xs = none := by
  induction xs with
  | nil => rfl
  | cons a as ih =>
    have ha := h a (List.mem_cons_self a as)
    rw [firstMissing]
    simp only [ha, Bool.not_true]
    exact ih fun x hx => h x (List.mem_cons_of_mem a hx)

theorem validateDataset_ok_inv (p : Platform) (d : Dataset) (w : List String)
    (h : validateDataset p d = .ok w) :
    (∀ f ∈ metadataRequired, truthyOpt (d.metadata.get f) = true) ∧
      d.data.truthy = true ∧ isEmptyArray d.data = false := by
  unfold validateDataset at h
  cases h1 : firstMissing (fun s => truthyOpt (d.prop s)) datasetRequired with
  | some s =>
    rw [h1] at h
    simp at h
  | none =>
    rw [h1] at h
    cases h2 : firstMissing (fun field => truthyOpt (d.metadata.get field)) metadataRequired with
    | some f =>
      rw [h2] at h
      simp at h
    | none =>
      rw [h2] at h
      dsimp only at h
      have hm := firstMissing_none _ _ h2
      cases ht : d.data.truthy with
      | false => simp [ht] at h
      | true =>
        cases he : isEmptyArray d.data with
        | true => simp [ht, he] at h
        | false => exact ⟨hm, rfl, rfl⟩

theorem parseDataset_ok_inv (p : Platform) (root : Element) (d : Dataset) (w : List String)
    (h : parseDataset p root = .ok (d, w)) :
    ∃ m, (root.getElementsByTagName "metadata").head? = some m ∧
      parseMetadata p m = .ok d.metadata ∧ validateDataset p d = .ok w := by
  unfold parseDataset at h
  cases hmeta : (root.getElementsByTagName "metadata").head? with
  | none =>
    rw [hmeta] at h
    simp at h
  | some m =>
    rw [hmeta] at h
    dsimp only at h
    cases hm : parseMetadata p m with
    | error e =>
      rw [hm] at h
      simp at h
    | ok md =>
      rw [hm] at h
      dsimp only at h
      have key : ∀ (viz : JsObject),
          (match (root.getElementsByTagName "data").head? with
            | none => (Except.error "Missing required data section" :
                Except String (Dataset × List String))
            | some dataElement =>
              match parseData p dataElement with
              | .error e => .error e
              | .ok data =>
                match validateDataset p ⟨generateId p, md, viz, data⟩ with
                | .error e => .error e
                | .ok warnings => .ok (⟨generateId p, md, viz, data⟩, warnings)) = .ok (d, w) →
          d.metadata = md ∧ validateDataset p d = .ok w := by
        intro viz hk
        cases hde : (root.getElementsByTagName "data").head? with
        | none =>
          rw [hde] at hk
          simp at hk
        | some de =>
          rw [hde] at hk
          dsimp only at hk
          cases hpd : parseData p de with
          | error e =>
            rw [hpd] at hk
            simp at hk
          | ok data =>
            rw [hpd] at hk
            dsimp only at hk
            cases hv : validateDataset p ⟨generateId p, md, viz, data⟩ with
            | error e =>
              rw [hv] at hk
              simp at hk
            | ok warnings =>
              rw [hv] at hk
              dsimp only at hk
              injection hk with hk
              injection hk with hd hw
              subst hd
              subst hw
              exact ⟨rfl, hv⟩
      cases hvz : (root.getElementsByTagName "visualization").head? with
      | none =>
        rw [hvz] at h
        dsimp only at h
        obtain ⟨h1, h2⟩ := key [] h
        exact ⟨m, rfl, by rw [h1]; exact hm, h2⟩
      | some v =>
        rw [hvz] at h
        dsimp only at h
        cases hpv : parseVisualization p v with
        | error e =>
          rw [hpv] at h
          simp at h
        | ok viz =>
          rw [hpv] at h
          dsimp only at h
          obtain ⟨h1, h2⟩ := key viz h
          exact ⟨m, rfl, by rw [h1]; exact hm, h2⟩

theorem parseXML_dataset_ok_inv (p : Platform) (root : Element) (r : Parsed) (w : List String)
    (h : parseXML p root "dataset" = .ok (r, w)) :
    ∃ d, r = .dataset d ∧ parseDataset p root = .ok (d, w) := by
  unfold parseXML parseXMLBody at h
  cases hpe : (documentElementsByTagName root "parsererror").head? with
  | some pe =>
    rw [hpe] at h
    simp at h
  | none =>
    rw [hpe] at h
    simp only [if_true] at h
    cases hd : parseDataset p root with
    | error e =>
      rw [hd] at h
      simp at h
    | ok res =>
      rw [hd] at h
      dsimp only at h
      injection h with h
      injection h with h1 h2
      exact ⟨res.1, h1.symm, by rw [← h2]⟩

theorem checkUpdated_ok (p : Platform) (x md : JsObject) (h : checkUpdated p x = .ok md) :
    md = x := by
  unfold checkUpdated at h
  split at h
  · split at h
    · simp at h
    · injection h with h
      exact h.symm
  · injection h with h
    exact h.symm

theorem mem_required_not_optional (f : String) (hf : f ∈ metadataRequired) :
    f ∉ metadataOptional ∧ f ≠ "__proto__" := by
  simp only [metadataRequired, List.mem_cons, List.mem_singleton, List.mem_nil_iff,
    or_false] at hf
  rcases hf with h | h | h | h | h | h <;> subst h <;> decide

theorem parseMetadata_ok_inv (p : Platform) (m : Element) (md : JsObject)
    (h : parseMetadata p m = .ok md) :
    ∀ f ∈ metadataRequired,
      md.get f = some (.str ((m.firstText f).getD "")) ∧ m.firstText f ≠ none := by
  unfold parseMetadata at h
  cases hreq : parseRequiredFields m metadataRequired [] with
  | error e =>
    rw [hreq] at h
    simp at h
  | ok md0 =>
    rw [hreq] at h
    dsimp only at h
    have hpres := parseRequiredFields_ok_present m metadataRequired [] md0 hreq
    rw [parseRequiredFields_present m metadataRequired [] hpres] at hreq
    have hmd0 : md0 = List.foldl (fun acc f => JsObject.set acc f
        (.str ((m.firstText f).getD ""))) [] metadataRequired := by
      injection hreq with h1
      exact h1.symm
    have hmd := checkUpdated_ok p _ md h
    intro f hf
    obtain ⟨hopt, hproto⟩ := mem_required_not_optional f hf
    refine ⟨?_, hpres f hf⟩
    rw [hmd, parseOptionalFields_get _ _ _ _ hopt, hmd0, get_foldl_set]
    simp [hf, hproto]

theorem trimChars_head (cs : List Char) (c : Char) (h : (trimChars cs).head? = some c) :
    isJSWhitespace c = false := by
  unfold trimChars at h
  have hsuf : List.dropWhile isJSWhitespace (cs.dropWhile isJSWhitespace).reverse <:+
      (cs.dropWhile isJSWhitespace).reverse := List.dropWhile_suffix isJSWhitespace
  have hpre : ((cs.dropWhile isJSWhitespace).reverse.dropWhile isJSWhitespace).reverse <+:
      cs.dropWhile isJSWhitespace := by
    have h2 := hsuf.reverse
    simpa using h2
  obtain ⟨t, ht⟩ := hpre
  have hY : (cs.dropWhile isJSWhitespace).head? = some c := by
    rw [← ht, List.head?_append, h]
    rfl
  have h3 := List.head?_dropWhile_not isJSWhitespace cs
  rw [hY] at h3
  exact h3

theorem trimChars_getLast (cs : List Char) (c : Char) (h : (trimChars cs).getLast? = some c) :
    isJSWhitespace c = false := by
  unfold trimChars at h
  rw [List.getLast?_reverse] at h
  have h3 := List.head?_dropWhile_not isJSWhitespace (cs.dropWhile isJSWhitespace).reverse
  rw [h] at h3
  exact h3

theorem hasOuterWhitespace_jsTrim (t : String) : hasOuterWhitespace (jsTrim t) = false := by
  unfold hasOuterWhitespace jsTrim
  have h1 : (trimChars t.data).head?.any isJSWhitespace = false := by
    cases hh : (trimChars t.data).head? with
    | none => rfl
    | some c => exact trimChars_head t.data c hh
  have h2 : (trimChars t.data).getLast?.any isJSWhitespace = false := by
    cases hh : (trimChars t.data).getLast? with
    | none => rfl
    | some c => exact trimChars_getLast t.data c hh
  simp [h1, h2]

theorem firstText_trimmed (e : Element) (name s : String) (h : e.firstText name = some s) :
    hasOuterWhitespace s = false := by
  unfold Element.firstText at h
  cases hh : (e.getElementsByTagName name).head? with
  | none => simp [hh] at h
  | some x =>
    simp only [hh, Option.map_some', Option.some.injEq] at h
    rw [← h]
    exact hasOuterWhitespace_jsTrim _

/-- For a dataset that passes the hard rules (the six required metadata fields truthy, the data
truthy and not an empty array) `validateDataset` does not throw, whatever the category and the
license are: it returns the category warning exactly when the category is not one of the ten
known names, followed by the license warning exactly when the license is not one of the five
known ones. -/
theorem validateDataset_soft_violations (p : Platform) (d : Dataset)
    (hmeta : ∀ f ∈ metadataRequired, truthyOpt (d.metadata.get f) = true)
    (hdata : d.data.truthy = true) (hnonempty : isEmptyArray d.data = false) :
    validateDataset p d = .ok
        ((if includesValue validCategories (d.metadata.get "category") then []
          else ["Category '" ++ jsToStringOpt p (d.metadata.get "category")
            ++ "' is not in the standard list"])
        ++ (if includesValue validLicenses (d.metadata.get "license") then []
          else ["License '" ++ jsToStringOpt p (d.metadata.get "license")
            ++ "' is not in the recommended list"])) ∧
      (∀ c : String, includesValue validCategories (some (.str c)) = true ↔
        c ∈ ["Demografia", "Economia", "Educacion", "Finanzas", "Transporte", "Medio Ambiente",
          "Cultura", "Deportes", "Salud", "Seguridad"]) ∧
      (∀ l : String, includesValue validLicenses (some (.str l)) = true ↔
        l ∈ ["CC BY 4.0", "CC BY-SA 4.0", "CC0 1.0", "ODbL", "Public Domain"]) := by
  refine ⟨?_, ?_, ?_⟩
  · have h1 : firstMissing (fun s => truthyOpt (d.prop s)) datasetRequired = none := by
      apply firstMissing_eq_none
      intro x hx
      simp only [datasetRequired, List.mem_cons, List.mem_singleton, List.mem_nil_iff,
        or_false] at hx
      rcases hx with hx | hx <;> subst hx
      · rfl
      · simpa [Dataset.prop, truthyOpt] using hdata
    have h2 := firstMissing_eq_none (fun field => truthyOpt (d.metadata.get field))
      metadataRequired hmeta
    unfold validateDataset
    rw [h1, h2]
    dsimp only
    rw [hdata, hnonempty]
    cases includesValue validCategories (d.metadata.get "category") <;>
      cases includesValue validLicenses (d.metadata.get "license") <;> simp
  · intro c
    simp [includesValue, validCategories]
  · intro l
    simp [includesValue, validLicenses]

/-- C13 (code defect). The validation itself never aborts on a soft violation: for every
dataset that passes the hard rules it returns the warnings, and for the model with category
`Foo` it returns the one category warning. But the document with category `Foo` does not parse:
`parseXML` rejects it with the date-format error before the validation is reached, in every
browser, as it rejects every document for the dataset schema when `Date` is invalid on the one
text that the regular expression of `isValidDate` accepts. -/
theorem C13_foo_document_is_rejected (p : Platform) :
    parseXML p fooDocument "dataset" =
        .error
          "XML Processing Error: Invalid date format in updated field. Use YYYY-MM-DD format." ∧
      validateDataset p fooDataset = .ok ["Category 'Foo' is not in the standard list"] ∧
      (∀ d : Dataset, (∀ f ∈ metadataRequired, truthyOpt (d.metadata.get f) = true) →
        d.data.truthy = true → isEmptyArray d.data = false →
        validateDataset p d = .ok
          ((if includesValue validCategories (d.metadata.get "category") then []
            else ["Category '" ++ jsToStringOpt p (d.metadata.get "category")
              ++ "' is not in the standard list"])
          ++ (if includesValue validLicenses (d.metadata.get "license") then []
            else ["License '" ++ jsToStringOpt p (d.metadata.get "license")
              ++ "' is not in the recommended list"]))) ∧
      (p.dateIsValid escapedDateText = false →
        ∀ root : Element, ∃ e, parseXML p root "dataset" = .error e) := by
  refine ⟨rfl, rfl, ?_, fun hDate root => parseXML_dataset_never_succeeds p hDate root⟩
  intro d hmeta hdata hnonempty
  exact (validateDataset_soft_violations p d hmeta hdata hnonempty).1

/-- The sample document with the accepted `updated` text is parsed by a browser whose `Date`
accepts every text: the statements about returned models are not empty. -/
theorem parseXML_escapedDataset :
    parseXML lenientPlatform escapedDataset "dataset" = .ok (.dataset escapedModel, []) :=
  rfl

/-- C14. `validateDataset` throws for every model whose data is `null` and for every model whose
data is the empty list, and `parseDataset` validates the data of every branch of `parseData`:
so the model returned by a successful `parseXML` for the dataset schema has data that is neither
`null` nor the empty list. -/
theorem C14_empty_data_is_rejected (p : Platform) :
    (∀ (id : String) (md viz : JsObject),
        ∃ e, validateDataset p ⟨id, md, viz, .null⟩ = .error e) ∧
      (∀ (id : String) (md viz : JsObject),
        ∃ e, validateDataset p ⟨id, md, viz, .arr []⟩ = .error e) ∧
      (∀ (root : Element) (r : Parsed) (w : List String),
        parseXML p root "dataset" = .ok (r, w) →
        ∃ d, r = .dataset d ∧ d.data ≠ .null ∧ d.data ≠ .arr []) := by
  refine ⟨?_, ?_, ?_⟩
  · intro id md viz
    cases h : validateDataset p ⟨id, md, viz, .null⟩ with
    | error e => exact ⟨e, rfl⟩
    | ok w =>
      have hinv := (validateDataset_ok_inv p _ w h).2.1
      exact absurd hinv (by simp [JsValue.truthy])
  · intro id md viz
    cases h : validateDataset p ⟨id, md, viz, .arr []⟩ with
    | error e => exact ⟨e, rfl⟩
    | ok w =>
      have hinv := (validateDataset_ok_inv p _ w h).2.2
      exact absurd hinv (by simp [isEmptyArray])
  · intro root r w h
    obtain ⟨d, hr, hd⟩ := parseXML_dataset_ok_inv p root r w h
    obtain ⟨m, _, _, hv⟩ := parseDataset_ok_inv p root d w hd
    have hinv := validateDataset_ok_inv p d w hv
    refine ⟨d, hr, ?_, ?_⟩
    · intro hnull
      have h1 := hinv.2.1
      rw [hnull] at h1
      simp [JsValue.truthy] at h1
    · intro hempty
      have h2 := hinv.2.2
      rw [hempty] at h2
      simp [isEmptyArray] at h2

/-- C15. In the model returned by a successful `parseXML` for the dataset schema each of the six
required metadata fields is a string that is not empty and neither starts nor ends with white
space; and a document whose metadata section has a required field element with only white space
(an empty trimmed text) is rejected. -/
theorem C15_required_metadata_non_blank (p : Platform) (root : Element) :
    (∀ (d : Dataset) (w : List String), parseXML p root "dataset" = .ok (.dataset d, w) →
        ∀ f ∈ metadataRequired, ∃ s : String,
          d.metadata.get f = some (.str s) ∧ s ≠ "" ∧ hasOuterWhitespace s = false) ∧
      (∀ (m : Element) (f : String),
        (root.getElementsByTagName "metadata").head? = some m →
        f ∈ metadataRequired → m.firstText f = some "" →
        ∃ e, parseXML p root "dataset" = .error e) := by
  have hfields : ∀ (d : Dataset) (w : List String) (r : Parsed),
      parseXML p root "dataset" = .ok (r, w) → r = .dataset d →
      ∃ m, (root.getElementsByTagName "metadata").head? = some m ∧
        ∀ f ∈ metadataRequired,
          d.metadata.get f = some (.str ((m.firstText f).getD "")) ∧ m.firstText f ≠ none ∧
          truthyOpt (d.metadata.get f) = true := by
    intro d w r h hr
    obtain ⟨d2, hr2, hd⟩ := parseXML_dataset_ok_inv p root r w h
    have hdd : d2 = d := by
      rw [hr] at hr2
      injection hr2 with h3
      exact h3.symm
    subst hdd
    obtain ⟨m, hm, hpm, hv⟩ := parseDataset_ok_inv p root d2 w hd
    have hmd := parseMetadata_ok_inv p m d2.metadata hpm
    have hval := (validateDataset_ok_inv p d2 w hv).1
    exact ⟨m, hm, fun f hf => ⟨(hmd f hf).1, (hmd f hf).2, hval f hf⟩⟩
  refine ⟨?_, ?_⟩
  · intro d w h f hf
    obtain ⟨m, _, hall⟩ := hfields d w _ h rfl
    obtain ⟨hget, hpres, htruthy⟩ := hall f hf
    cases hft : m.firstText f with
    | none => exact absurd hft hpres
    | some s =>
      rw [hft] at hget
      refine ⟨s, hget, ?_, firstText_trimmed m f s hft⟩
      intro hs
      rw [hget, hs] at htruthy
      simp [truthyOpt, JsValue.truthy] at htruthy
  · intro m f hm hf hblank
    cases hres : parseXML p root "dataset" with
    | error e => exact ⟨e, rfl⟩
    | ok res =>
      obtain ⟨r, w⟩ := res
      obtain ⟨d, hr, _⟩ := parseXML_dataset_ok_inv p root r w hres
      obtain ⟨m2, hm2, hall⟩ := hfields d w r hres hr
      have hmm : m2 = m := by
        rw [hm] at hm2
        injection hm2 with h3
        exact h3.symm
      subst hmm
      obtain ⟨hget, _, htruthy⟩ := hall f hf
      rw [hget, hblank] at htruthy
      simp [truthyOpt, JsValue.truthy] at htruthy

/-- Witness of C15: the six required fields of the model parsed from `escapedDataset`. -/
theorem C15_required_metadata_non_blank_witness :
    ∀ f ∈ XMLParser.metadataRequired, ∃ s : String,
      escapedModel.metadata.get f = some (.str s) ∧ s ≠ "" ∧ hasOuterWhitespace s = false :=
  (C15_required_metadata_non_blank lenientPlatform escapedDataset).1 escapedModel [] rfl

/-! ### Serialisation -/

set_option maxRecDepth 16384

theorem escapeText_data (s : String) :
    (escapeText s).data = s.data.flatMap fun c =>
      (((((if c = '&' then "&amp;".data else [c]).flatMap fun x =>
        if x = '<' then "&lt;".data else [x]).flatMap fun x =>
        if x = '>' then "&gt;".data else [x]).flatMap fun x =>
        if x = Char.ofNat 34 then "&quot;".data else [x]).flatMap fun x =>
        if x = Char.ofNat 39 then "&#39;".data else [x]) := by
  simp only [escapeText, replaceAllChar, List.flatMap_assoc]

theorem escapeChain_eq_escapeChar (c : Char) :
    (((((if c = '&' then "&amp;".data else [c]).flatMap fun x =>
        if x = '<' then "&lt;".data else [x]).flatMap fun x =>
        if x = '>' then "&gt;".data else [x]).flatMap fun x =>
        if x = Char.ofNat 34 then "&quot;".data else [x]).flatMap fun x =>
        if x = Char.ofNat 39 then "&#39;".data else [x]) = escapeChar c := by
  unfold escapeChar
  by_cases h1 : c = '&'
  · subst h1
    rfl
  · by_cases h2 : c = '<'
    · subst h2
      rfl
    · by_cases h3 : c = '>'
      · subst h3
        rfl
      · by_cases h4 : c = Char.ofNat 34
        · subst h4
          rfl
        · by_cases h5 : c = Char.ofNat 39
          · subst h5
            rfl
          · simp [h1, h2, h3, h4, h5]

theorem escapeText_eq_escapeSimultaneous (s : String) : escapeText s = escapeSimultaneous s := by
  apply String.ext
  rw [escapeText_data]
  exact congrArg (fun f => s.data.flatMap f) (funext escapeChain_eq_escapeChar)

theorem wellEscaped_escapeChar_append (c : Char) (rest : List Char)
    (h : wellEscaped rest = true) : wellEscaped (escapeChar c ++ rest) = true := by
  unfold escapeChar
  by_cases h1 : c = '&'
  · subst h1
    simp [wellEscaped, entityBodies, h]
  · by_cases h2 : c = '<'
    · subst h2
      simp [wellEscaped, entityBodies, h]
    · by_cases h3 : c = '>'
      · subst h3
        simp [wellEscaped, entityBodies, h]
      · by_cases h4 : c = Char.ofNat 34
        · subst h4
          simp [wellEscaped, entityBodies, h]
        · by_cases h5 : c = Char.ofNat 39
          · subst h5
            simp [wellEscaped, entityBodies, h]
          · simp [h1, h2, h3, h4, h5, wellEscaped, h]

theorem wellEscaped_flatMap (cs : List Char) : wellEscaped (cs.flatMap escapeChar) = true := by
  induction cs with
  | nil => rfl
  | cons c rest ih =>
    rw [List.flatMap_cons]
    exact wellEscaped_escapeChar_append c _ ih

theorem wellEscaped_no_reserved (cs : List Char) (h : wellEscaped cs = true) :
    ∀ c ∈ cs, c ≠ '<' ∧ c ≠ '>' ∧ c ≠ Char.ofNat 34 ∧ c ≠ Char.ofNat 39 := by
  induction cs with
  | nil => simp
  | cons a rest ih =>
    rw [wellEscaped] at h
    by_cases ha : a = '&'
    · subst ha
      simp only [if_true, Bool.and_eq_true] at h
      intro c hc
      rcases List.mem_cons.1 hc with hca | hcr
      · subst hca
        decide
      · exact ih h.2 c hcr
    · simp only [ha, if_false, Bool.and_eq_true, bne_iff_ne, ne_eq] at h
      intro c hc
      rcases List.mem_cons.1 hc with hca | hcr
      · subst hca
        exact ⟨h.1.1.1.1, h.1.1.1.2, h.1.1.2, h.1.2⟩
      · exact ih h.2 c hcr

theorem hasTextAfterDeclaration_header (rest : String) :
    hasTextAfterDeclaration ("<?xml version=\"1.0\" encoding=\"UTF-8\"?>\\n" ++ rest) = true := by
  cases rest with
  | mk cs => rfl

theorem hasTextAfterDeclaration_datasetToXML (p : Platform) (m : Dataset) :
    hasTextAfterDeclaration (datasetToXML p m) = true := by
  simp only [datasetToXML, String.append_assoc]
  exact hasTextAfterDeclaration_header _

theorem parseXML_escapedDataset_of_date (p : Platform)
    (h : p.dateIsValid escapedDateText = true) :
    parseXML p escapedDataset "dataset" =
      .ok (.dataset ⟨generateId p, escapedModel.metadata, [], escapedModel.data⟩, []) := by
  have hv : isValidDate p "\\dddd-\\dd-\\dd" = true := by
    unfold isValidDate
    rw [if_neg (by decide)]
    exact h
  have hm : parseMetadata p ⟨"metadata", [], (sampleMetadata "\\dddd-\\dd-\\dd").childNodes⟩ =
      .ok escapedModel.metadata := by
    have h1 : parseMetadata p ⟨"metadata", [], (sampleMetadata "\\dddd-\\dd-\\dd").childNodes⟩ =
        checkUpdated p escapedModel.metadata := rfl
    rw [h1]
    show (if ("\\dddd-\\dd-\\dd" != "" && !isValidDate p "\\dddd-\\dd-\\dd") = true
      then _ else _) = _
    rw [hv]
    rfl
  have hd : parseDataset p escapedDataset =
      .ok (⟨generateId p, escapedModel.metadata, [], escapedModel.data⟩, []) := by
    unfold parseDataset
    have e1 : (escapedDataset.getElementsByTagName "metadata").head? =
        some ⟨"metadata", [], (sampleMetadata "\\dddd-\\dd-\\dd").childNodes⟩ := rfl
    rw [e1]
    dsimp only
    rw [hm]
    rfl
  unfold parseXML parseXMLBody
  have e2 : (documentElementsByTagName escapedDataset "parsererror").head? = none := rfl
  rw [e2]
  dsimp only
  rw [if_pos rfl, hd]

/-- C16 (code defect). The round trip fails. In a browser whose `Date` accepts the one
`updated` text that the regular expression of `isValidDate` lets through, the sample document
with that text is parsed to a model `m`; for this model, as for every model, the text written
by `datasetToXML` has a backslash and the letter n, not a line break, after the XML declaration
and after every element, so character data stands before the root element; and a `DOMParser`
that answers such a text with a document holding a `parsererror` element makes `parseXML` fail
on it with `XML Parse Error`. In a browser whose `Date` does not accept that text, `parseXML`
rejects every document for the dataset schema, so no model is returned at all. -/
theorem C16_round_trip_fails (p : Platform) :
    (p.dateIsValid escapedDateText = true →
        parseXML p escapedDataset "dataset" =
          .ok (.dataset ⟨generateId p, escapedModel.metadata, [], escapedModel.data⟩, [])) ∧
      datasetToXML p ⟨generateId p, escapedModel.metadata, [], escapedModel.data⟩ =
        "<?xml version=\"1.0\" encoding=\"UTF-8\"?>\\n<dataset>\\n  <metadata>\\n"
          ++ "    <title>Padron municipal</title>\\n"
          ++ "    <description>Habitantes por barrio</description>\\n"
          ++ "    <category>Demografia</category>\\n"
          ++ "    <source>Ayuntamiento de Salamanca</source>\\n"
          ++ "    <updated>\\dddd-\\dd-\\dd</updated>\\n"
          ++ "    <license>CC BY 4.0</license>\\n  </metadata>\\n"
          ++ "  <data>\\n    <json>\\n"
          ++ p.jsonStringifyIndent 6 escapedModel.data
          ++ "\\n    </json>\\n  </data>\\n</dataset>" ∧
      (∀ m : Dataset, hasTextAfterDeclaration (datasetToXML p m) = true) ∧
      (∀ parseFromString : String → Element,
        (∀ text, hasTextAfterDeclaration text = true →
          ∃ parseError,
            (documentElementsByTagName (parseFromString text) "parsererror").head? =
              some parseError) →
        ∀ m : Dataset, ∃ parseError : Element,
          parseXMLText p parseFromString (datasetToXML p m) "dataset" =
            .error ("XML Processing Error: " ++ ("XML Parse Error: " ++ parseError.textContent))) ∧
      (p.dateIsValid escapedDateText = false →
        ∀ root : Element, ∃ e, parseXML p root "dataset" = .error e) := by
  refine ⟨parseXML_escapedDataset_of_date p, ?_, hasTextAfterDeclaration_datasetToXML p, ?_,
    fun hDate root => parseXML_dataset_never_succeeds p hDate root⟩
  · simp only [datasetToXML, dataSection, String.append_assoc]
    rfl
  · intro parseFromString hdom m
    obtain ⟨parseError, hpe⟩ := hdom _ (hasTextAfterDeclaration_datasetToXML p m)
    exact ⟨parseError, by simp [parseXMLText, parseXML, parseXMLBody, hpe]⟩

/-- C17 (code defect). In the metadata section a scalar value is escaped and an array value is
not: for the model with title `R&D` and tags `R&D` and `a<b`, `datasetToXML` writes the title
as `R&amp;D` and the tags as `R&D, a<b`, with the ampersand and the less-than sign as they
are. -/
theorem C17_tags_are_not_escaped (p : Platform) :
    metadataLine p ("title", .str "R&D") = "    <title>R&amp;D</title>\\n" ∧
      metadataLine p ("tags", .arr [.str "R&D", .str "a<b"]) = "    <tags>R&D, a<b</tags>\\n" ∧
      datasetToXML p taggedModel =
        "<?xml version=\"1.0\" encoding=\"UTF-8\"?>\\n<dataset>\\n  <metadata>\\n"
          ++ "    <title>R&amp;D</title>\\n"
          ++ "    <tags>R&D, a<b</tags>\\n  </metadata>\\n"
          ++ "  <data>\\n    <json>\\n"
          ++ p.jsonStringifyIndent 6 taggedModel.data
          ++ "\\n    </json>\\n  </data>\\n</dataset>" := by
  refine ⟨rfl, rfl, ?_⟩
  simp only [datasetToXML, dataSection, String.append_assoc]
  rfl

/-- C18. For every text, the chain of replacements of `escapeXML` equals the simultaneous
substitution of the five reserved characters by their entities; in the result every ampersand
begins one of the five entities and no less-than, greater-than, double quote (34) or single
quote (39) occurs; so the ampersand of a text that already holds an entity is escaped once. A
value that is not a string is converted with `String` first. -/
theorem C18_escapeXML_is_simultaneous_substitution (s : String) :
    escapeText s = escapeSimultaneous s ∧
      wellEscaped (escapeText s).data = true ∧
      (∀ c ∈ (escapeText s).data,
        c ≠ '<' ∧ c ≠ '>' ∧ c ≠ Char.ofNat 34 ∧ c ≠ Char.ofNat 39) ∧
      escapeText "a<b & \"c\" > d" = "a&lt;b &amp; &quot;c&quot; &gt; d" ∧
      escapeText "&lt;" = "&amp;lt;" ∧
      (∀ p : Platform, escapeXML p (.str s) = escapeText s) ∧
      (∀ (p : Platform) (v : JsValue), escapeXML p v = escapeText (jsToString p v)) := by
  have hw : wellEscaped (escapeText s).data = true := by
    rw [escapeText_eq_escapeSimultaneous]
    exact wellEscaped_flatMap s.data
  refine ⟨escapeText_eq_escapeSimultaneous s, hw, wellEscaped_no_reserved _ hw, rfl, rfl,
    fun _ => rfl, ?_⟩
  intro p v
  cases v <;> rfl

/-- The layout of the text written by `datasetToXML`: the declaration and the opening tag, the
metadata section, the visualization section, which is empty when the visualization object has
no key, the data section and the closing tag. -/
theorem datasetToXML_layout (p : Platform) (d : Dataset) :
    datasetToXML p d =
        "<?xml version=\"1.0\" encoding=\"UTF-8\"?>\\n" ++ "<dataset>\\n"
          ++ metadataSection p d.metadata
          ++ visualizationSection p d.visualization
          ++ ("  <data>\\n" ++ "    <json>\\n" ++ p.jsonStringifyIndent 6 d.data
            ++ "\\n    </json>\\n" ++ "  </data>\\n")
          ++ "</dataset>" ∧
      (d.visualization = [] → visualizationSection p d.visualization = "") :=
  ⟨rfl, fun h => by rw [h]; rfl⟩

/-- C19 (code defect). `datasetToXML` writes `JSON.stringify(data, null, 6)` into the `json`
wrapper as it is, without the call of `escapeXML` that the sibling branches for the metadata and
config values make. For the model whose record holds the text
`</json></data><data><item>1</item><json>`, in a browser whose `JSON.stringify` gives the
standard text, the output has two `data` sections and two `json` wrappers, and the second
`data` section holds an `item` element; escaped, the text would hold no markup. -/
theorem C19_json_payload_is_not_escaped (p : Platform) :
    (∀ data : JsValue, dataSection p data =
        "  <data>\\n    <json>\\n" ++ p.jsonStringifyIndent 6 data
          ++ "\\n    </json>\\n  </data>\\n") ∧
      (p.jsonStringifyIndent 6 markupModel.data = markupStringified →
        datasetToXML p markupModel =
            "<?xml version=\"1.0\" encoding=\"UTF-8\"?>\\n<dataset>\\n  <metadata>\\n"
              ++ "    <title>Padron municipal</title>\\n"
              ++ "    <description>Habitantes por barrio</description>\\n"
              ++ "    <category>Demografia</category>\\n"
              ++ "    <source>Ayuntamiento de Salamanca</source>\\n"
              ++ "    <updated>2025-01-01</updated>\\n"
              ++ "    <license>CC BY 4.0</license>\\n  </metadata>\\n"
              ++ "  <data>\\n    <json>\\n"
              ++ "[\n      \x7b\n            \"note\": "
              ++ "\"</json></data><data><item>1</item><json>\"\n      \x7d\n]"
              ++ "\\n    </json>\\n  </data>\\n</dataset>" ∧
          countOccurrences "<data>" (datasetToXML p markupModel) = 2 ∧
          countOccurrences "</data>" (datasetToXML p markupModel) = 2 ∧
          countOccurrences "<json>" (datasetToXML p markupModel) = 2 ∧
          countOccurrences "<item>1</item>" (datasetToXML p markupModel) = 1) ∧
      escapeText "</json></data><data><item>1</item><json>" =
        "&lt;/json&gt;&lt;/data&gt;&lt;data&gt;&lt;item&gt;1&lt;/item&gt;&lt;json&gt;" := by
  refine ⟨fun data => ?_, fun h => ?_, rfl⟩
  · simp only [dataSection, String.append_assoc]
    rfl
  · have hx : datasetToXML p markupModel =
        "<?xml version=\"1.0\" encoding=\"UTF-8\"?>\\n<dataset>\\n  <metadata>\\n"
          ++ "    <title>Padron municipal</title>\\n"
          ++ "    <description>Habitantes por barrio</description>\\n"
          ++ "    <category>Demografia</category>\\n"
          ++ "    <source>Ayuntamiento de Salamanca</source>\\n"
          ++ "    <updated>2025-01-01</updated>\\n"
          ++ "    <license>CC BY 4.0</license>\\n  </metadata>\\n"
          ++ "  <data>\\n    <json>\\n"
          ++ "[\n      \x7b\n            \"note\": "
          ++ "\"</json></data><data><item>1</item><json>\"\n      \x7d\n]"
          ++ "\\n    </json>\\n  </data>\\n</dataset>" := by
      simp only [datasetToXML, dataSection]
      rw [h]
      rfl
    rw [hx]
    exact ⟨rfl, by decide, by decide, by decide, by decide⟩

/-- C20, counterexample. The well-formed text `<root><parsererror/></root>` and the schema type
`foo`, which is neither `dataset` nor `category`: `parseXML` fails with
`XML Processing Error: XML Parse Error: `, a message that does not contain
`Unknown schema type: foo`. -/
theorem C20_counterexample_parsererror_element :
    (documentWithParsererrorChild.children.map fun c => c.tagName) = ["parsererror"] ∧
      (∀ p : Platform, parseXML p documentWithParsererrorChild "foo" =
        .error "XML Processing Error: XML Parse Error: ") ∧
      containsText "Unknown schema type: foo" "XML Processing Error: XML Parse Error: " = false ∧
      ¬ ∀ (p : Platform) (root : Element) (schemaType : String),
        schemaType ≠ "dataset" → schemaType ≠ "category" →
        ∃ e, parseXML p root schemaType = .error e ∧
          containsText ("Unknown schema type: " ++ schemaType) e = true := by
  refine ⟨rfl, fun _ => rfl, by decide, ?_⟩
  intro h
  obtain ⟨e, he, hc⟩ := h strictPlatform documentWithParsererrorChild "foo" (by decide) (by decide)
  have he2 : parseXML strictPlatform documentWithParsererrorChild "foo" =
      .error "XML Processing Error: XML Parse Error: " := rfl
  rw [he2] at he
  have hee : e = "XML Processing Error: XML Parse Error: " := by
    injection he with he3
    exact he3.symm
  subst hee
  revert hc
  decide

/-- C20, amended. In a document that has no element named `parsererror`, a schema type other
than `dataset` and `category` makes `parseXML` fail with `Unknown schema type: ` followed by the
name; `dataset` gives the result of `parseDataset` and `category` the result of
`parseCategory`; a document that has an element named `parsererror` fails with
`XML Parse Error: ` followed by the text of the first such element, whatever the schema type
is; and every error of the body reaches the caller behind the prefix
`XML Processing Error: `. -/
theorem C20_parseXML_dispatch (p : Platform) (root : Element) (schemaType : String) :
    ((documentElementsByTagName root "parsererror").head? = none →
        schemaType ≠ "dataset" → schemaType ≠ "category" →
        parseXML p root schemaType =
          .error ("XML Processing Error: " ++ ("Unknown schema type: " ++ schemaType))) ∧
      ((documentElementsByTagName root "parsererror").head? = none →
        (∀ r, parseDataset p root = .ok r →
          parseXML p root "dataset" = .ok (.dataset r.1, r.2)) ∧
        (∀ e, parseDataset p root = .error e →
          parseXML p root "dataset" = .error ("XML Processing Error: " ++ e)) ∧
        (∀ c, parseCategory p root = .ok c →
          parseXML p root "category" = .ok (.category c, [])) ∧
        (∀ e, parseCategory p root = .error e →
          parseXML p root "category" = .error ("XML Processing Error: " ++ e))) ∧
      (∀ parseError, (documentElementsByTagName root "parsererror").head? = some parseError →
        parseXML p root schemaType =
          .error ("XML Processing Error: " ++ ("XML Parse Error: " ++ parseError.textContent))) ∧
      (∀ e, parseXMLBody p root schemaType = .error e →
        parseXML p root schemaType = .error ("XML Processing Error: " ++ e)) := by
  refine ⟨?_, ?_, ?_, ?_⟩
  · intro hwf h1 h2
    simp [parseXML, parseXMLBody, hwf, h1, h2]
  · intro hwf
    refine ⟨?_, ?_, ?_, ?_⟩
    · intro r hr
      simp [parseXML, parseXMLBody, hwf, hr]
    · intro e he
      simp [parseXML, parseXMLBody, hwf, he]
    · intro c hc
      simp [parseXML, parseXMLBody, hwf, hc]
    · intro e he
      simp [parseXML, parseXMLBody, hwf, he]
  · intro parseError hpe
    simp [parseXML, parseXMLBody, hpe]
  · intro e he
    simp [parseXML, he]

/-! ### Categories, optional metadata and element lookup -/

/-- C21. `parseCategory` succeeds exactly when a `name` and a `description` element are found;
the result then holds the generated id, the trimmed texts of `name` and `description`, and for
each of `icon`, `color`, `parent` the trimmed text of its element when there is one and no key
otherwise; without `name` the error is `Missing required category field: name`, and with `name`
but without `description` it is `Missing required category field: description`. -/
theorem C21_parseCategory_fields (p : Platform) (root : Element) :
    ((∃ c, parseCategory p root = .ok c) ↔
        (root.firstText "name" ≠ none ∧ root.firstText "description" ≠ none)) ∧
      (∀ c, parseCategory p root = .ok c →
        c.get "id" = some (.str (generateId p)) ∧
        c.get "name" = (root.firstText "name").map JsValue.str ∧
        c.get "description" = (root.firstText "description").map JsValue.str ∧
        c.get "icon" = (root.firstText "icon").map JsValue.str ∧
        c.get "color" = (root.firstText "color").map JsValue.str ∧
        c.get "parent" = (root.firstText "parent").map JsValue.str) ∧
      (root.firstText "name" = none →
        parseCategory p root = .error "Missing required category field: name") ∧
      (root.firstText "name" ≠ none → root.firstText "description" = none →
        parseCategory p root = .error "Missing required category field: description") := by
  unfold Element.firstText
  cases hn : (root.getElementsByTagName "name").head? with
  | none =>
    simp [parseCategory, parseCategoryRequired, categoryRequired, hn]
  | some en =>
    cases hd : (root.getElementsByTagName "description").head? with
    | none =>
      simp [parseCategory, parseCategoryRequired, categoryRequired, hn, hd]
    | some ed =>
      cases hi : (root.getElementsByTagName "icon").head? <;>
        cases hc : (root.getElementsByTagName "color").head? <;>
        cases hp : (root.getElementsByTagName "parent").head? <;>
        simp [parseCategory, parseCategoryRequired, parseCategoryOptional, categoryRequired,
          categoryOptional, hn, hd, hi, hc, hp, JsObject.get_set, JsObject.get]

theorem parseOptionalFields_get_optional (m : Element) (md0 : JsObject)
    (h0 : ∀ k ∈ metadataOptional, md0.get k = none) :
    (parseOptionalFields m metadataOptional md0).get "tags" =
        ((m.getElementsByTagName "tags").head?).map (fun e =>
          JsValue.arr ((jsSplit "," e.textContent).map fun tag => .str (jsTrim tag))) ∧
      (parseOptionalFields m metadataOptional md0).get "contact" =
        (m.firstText "contact").map JsValue.str ∧
      (parseOptionalFields m metadataOptional md0).get "frequency" =
        (m.firstText "frequency").map JsValue.str := by
  have ht := h0 "tags" (by decide)
  have hc := h0 "contact" (by decide)
  have hf := h0 "frequency" (by decide)
  unfold Element.firstText
  cases h1 : (m.getElementsByTagName "tags").head? <;>
    cases h2 : (m.getElementsByTagName "contact").head? <;>
    cases h3 : (m.getElementsByTagName "frequency").head? <;>
    simp [parseOptionalFields, metadataOptional, h1, h2, h3, JsObject.get_set, ht, hc, hf]

/-- C23. In the metadata returned by `parseMetadata`, `tags` is the list of the trimmed segments
of the text of the `tags` element split on commas, in order; `contact` and `frequency` are the
trimmed texts of their elements; an optional element that is absent leaves no key. The text
`a, b ,c` gives the three tags `a`, `b`, `c`. -/
theorem C23_optional_metadata (p : Platform) (m : Element) (md : JsObject)
    (h : parseMetadata p m = .ok md) :
    md.get "tags" =
        ((m.getElementsByTagName "tags").head?).map (fun e =>
          JsValue.arr ((jsSplit "," e.textContent).map fun tag => .str (jsTrim tag))) ∧
      md.get "contact" = (m.firstText "contact").map JsValue.str ∧
      md.get "frequency" = (m.firstText "frequency").map JsValue.str ∧
      (jsSplit "," "a, b ,c").map jsTrim = ["a", "b", "c"] := by
  unfold parseMetadata at h
  cases hreq : parseRequiredFields m metadataRequired [] with
  | error e =>
    rw [hreq] at h
    simp at h
  | ok md0 =>
    rw [hreq] at h
    dsimp only at h
    have hpres := parseRequiredFields_ok_present m metadataRequired [] md0 hreq
    rw [parseRequiredFields_present m metadataRequired [] hpres] at hreq
    have hmd0 : md0 = List.foldl (fun acc f => JsObject.set acc f
        (.str ((m.firstText f).getD ""))) [] metadataRequired := by
      injection hreq with h1
      exact h1.symm
    have hmd := checkUpdated_ok p _ md h
    have h0 : ∀ k ∈ metadataOptional, md0.get k = none := by
      intro k hk
      rw [hmd0, get_foldl_set]
      have hnot : k ∉ metadataRequired := by
        simp only [metadataOptional, List.mem_cons, List.mem_singleton, List.mem_nil_iff,
          or_false] at hk
        rcases hk with hk | hk | hk <;> subst hk <;> decide
      simp [hnot, JsObject.get]
    obtain ⟨h1, h2, h3⟩ := parseOptionalFields_get_optional m md0 h0
    rw [hmd]
    exact ⟨h1, h2, h3, by decide⟩

/-- Witness of C23: the metadata section with tags `a, b ,c` and a contact, in a browser whose
`Date` lets the `updated` text through. -/
theorem C23_optional_metadata_witness :
    JsObject.get
        [("title", .str "Padron municipal"), ("description", .str "Habitantes por barrio"),
          ("category", .str "Demografia"), ("source", .str "Ayuntamiento de Salamanca"),
          ("updated", .str "\\dddd-\\dd-\\dd"), ("license", .str "CC BY 4.0"),
          ("tags", .arr [.str "a", .str "b", .str "c"]),
          ("contact", .str "datos@example.org")] "tags" =
        some (.arr [.str "a", .str "b", .str "c"]) ∧
      JsObject.get
        [("title", .str "Padron municipal"), ("description", .str "Habitantes por barrio"),
          ("category", .str "Demografia"), ("source", .str "Ayuntamiento de Salamanca"),
          ("updated", .str "\\dddd-\\dd-\\dd"), ("license", .str "CC BY 4.0"),
          ("tags", .arr [.str "a", .str "b", .str "c"]),
          ("contact", .str "datos@example.org")] "contact" =
        some (.str "datos@example.org") ∧
      JsObject.get
        [("title", .str "Padron municipal"), ("description", .str "Habitantes por barrio"),
          ("category", .str "Demografia"), ("source", .str "Ayuntamiento de Salamanca"),
          ("updated", .str "\\dddd-\\dd-\\dd"), ("license", .str "CC BY 4.0"),
          ("tags", .arr [.str "a", .str "b", .str "c"]),
          ("contact", .str "datos@example.org")] "frequency" = none ∧
      (jsSplit "," "a, b ,c").map jsTrim = ["a", "b", "c"] :=
  C23_optional_metadata lenientPlatform taggedMetadata _ rfl

theorem mem_subtreeElementsList_of_child (ns : List Node) (c : Element)
    (h : c ∈ ns.filterMap Node.toElement?) :
    c ∈ Node.subtreeElementsList ns ∧
      ∀ g ∈ Node.subtreeElementsList c.childNodes, g ∈ Node.subtreeElementsList ns := by
  induction ns with
  | nil => simp at h
  | cons n rest ih =>
    cases n with
    | text d =>
      have h2 : c ∈ rest.filterMap Node.toElement? := by
        simpa [List.filterMap, Node.toElement?] using h
      obtain ⟨h3, h4⟩ := ih h2
      simp only [Node.subtreeElementsList, Node.subtreeElements, List.nil_append]
      exact ⟨h3, h4⟩
    | comment d =>
      have h2 : c ∈ rest.filterMap Node.toElement? := by
        simpa [List.filterMap, Node.toElement?] using h
      obtain ⟨h3, h4⟩ := ih h2
      simp only [Node.subtreeElementsList, Node.subtreeElements, List.nil_append]
      exact ⟨h3, h4⟩
    | element t a cs =>
      have h2 : c = ⟨t, a, cs⟩ ∨ c ∈ rest.filterMap Node.toElement? := by
        simpa [List.filterMap, Node.toElement?] using h
      simp only [Node.subtreeElementsList, Node.subtreeElements, List.cons_append,
        List.mem_cons, List.mem_append]
      rcases h2 with h2 | h2
      · subst h2
        exact ⟨Or.inl rfl, fun g hg => Or.inr (Or.inl hg)⟩
      · obtain ⟨h3, h4⟩ := ih h2
        exact ⟨Or.inr (Or.inr h3), fun g hg => Or.inr (Or.inr (h4 g hg))⟩

/-- C24, as stated, fails. The only child of the `data` element
`<data><record><csv>1</csv><x>2</x></record></data>` is a record, yet `parseData` takes the
field `csv` of the record for the data format and fails in `parseCSV`, where the claim has the
list with the one record. And in
`<visualization><config><type>stacked</type></config><type>bar</type></visualization>` the type
is taken from the entry inside `config`, not from the child `type`, so the section is
rejected. -/
theorem C24_counterexample_nested_elements :
    dataWithCsvField.children.map (fun c => c.tagName) = ["record"] ∧
      parseData strictPlatform dataWithCsvField =
        .error "CSV must have at least header and one data row" ∧
      parseRecords dataWithCsvField.children =
        [.obj [("csv", .num (.finite false 1 0)), ("x", .num (.finite false 2 0))]] ∧
      vizWithNestedType.children.map (fun c => c.tagName) = ["config", "type"] ∧
      parseVisualization strictPlatform vizWithNestedType =
        .error "Invalid visualization type: stacked" :=
  ⟨rfl, rfl, rfl, rfl, rfl⟩

/-- C24, amended. Element lookup considers all descendants, in document order: every child
element and everything below it is a descendant, and `getElementsByTagName` keeps exactly the
descendants with the given name. So an element named `json` anywhere below `data` decides the
format (its payload or the JSON error is the result), an element named `csv` anywhere below
decides when there is no `json`, and the records are the result only when no descendant is named
`json` or `csv`; a field of a section is the trimmed text of the first descendant with its
name. -/
theorem C24_lookup_is_among_descendants (p : Platform) (e : Element) :
    (∀ c ∈ e.children, c ∈ e.descendants ∧ ∀ g ∈ c.descendants, g ∈ e.descendants) ∧
      (∀ (name : String) (x : Element), name ≠ "*" →
        (x ∈ e.getElementsByTagName name ↔ x ∈ e.descendants ∧ x.tagName = name)) ∧
      (∀ name : String, e.firstText name =
        ((e.descendants.filter fun d => name == "*" || d.tagName == name).head?).map fun x =>
          jsTrim x.textContent) ∧
      ((∃ x ∈ e.descendants, x.tagName = "json") →
        (∃ v, parseData p e = .ok v ∧ ∃ j ∈ e.descendants, p.jsonParse j.textContent = some v) ∨
          parseData p e = .error "Invalid JSON data format") ∧
      ((∀ x ∈ e.descendants, x.tagName ≠ "json") → (∃ x ∈ e.descendants, x.tagName = "csv") →
        ∃ c ∈ e.descendants, c.tagName = "csv" ∧ parseData p e = parseCSV c.textContent) ∧
      ((∀ x ∈ e.descendants, x.tagName ≠ "json" ∧ x.tagName ≠ "csv") →
        (∃ x ∈ e.descendants, x.tagName = "record") →
        parseData p e = .ok (.arr (parseRecords (e.getElementsByTagName "record")))) := by
  have hmem : ∀ (name : String) (x : Element), name ≠ "*" →
      (x ∈ e.getElementsByTagName name ↔ x ∈ e.descendants ∧ x.tagName = name) := by
    intro name x hname
    simp [Element.getElementsByTagName, hname]
  have hnil : ∀ name : String, name ≠ "*" → (∀ x ∈ e.descendants, x.tagName ≠ name) →
      e.getElementsByTagName name = [] := by
    intro name hname hall
    apply List.eq_nil_iff_forall_not_mem.2
    intro x hx
    exact hall x ((hmem name x hname).1 hx).1 ((hmem name x hname).1 hx).2
  have hhead : ∀ name : String, name ≠ "*" → (∃ x ∈ e.descendants, x.tagName = name) →
      ∃ y, (e.getElementsByTagName name).head? = some y ∧ y ∈ e.descendants ∧
        y.tagName = name := by
    intro name hname hex
    obtain ⟨x, hx, hxn⟩ := hex
    have hxm : x ∈ e.getElementsByTagName name := (hmem name x hname).2 ⟨hx, hxn⟩
    cases hl : e.getElementsByTagName name with
    | nil =>
      rw [hl] at hxm
      simp at hxm
    | cons y ys =>
      have hy : y ∈ e.getElementsByTagName name := by
        rw [hl]
        exact List.mem_cons_self y ys
      exact ⟨y, rfl, ((hmem name y hname).1 hy).1, ((hmem name y hname).1 hy).2⟩
  refine ⟨?_, hmem, ?_, ?_, ?_, ?_⟩
  · intro c hc
    exact mem_subtreeElementsList_of_child e.childNodes c hc
  · intro name
    rfl
  · intro hex
    obtain ⟨j, hj, hjd, _⟩ := hhead "json" (by decide) hex
    cases hv : p.jsonParse j.textContent with
    | none =>
      right
      simp [parseData, hj, hv]
    | some v =>
      left
      exact ⟨v, by simp [parseData, hj, hv], j, hjd, hv⟩
  · intro hno hex
    have hjn := hnil "json" (by decide) hno
    obtain ⟨c, hc, hcd, hcn⟩ := hhead "csv" (by decide) hex
    exact ⟨c, hcd, hcn, by simp [parseData, hjn, hc]⟩
  · intro hno hex
    have hjn := hnil "json" (by decide) fun x hx => (hno x hx).1
    have hcn := hnil "csv" (by decide) fun x hx => (hno x hx).2
    obtain ⟨r, hr, _, _⟩ := hhead "record" (by decide) hex
    have hlen : 0 < (e.getElementsByTagName "record").length := by
      cases hl : e.getElementsByTagName "record" with
      | nil =>
        rw [hl] at hr
        simp at hr
      | cons y ys => simp
    simp [parseData, hjn, hcn, hlen]

/-! ### Charts -/

theorem mapThrowing_ok {α γ ε : Type} (f : α → Nat → Except ε γ) (xs : List α)
    (h : ∀ x ∈ xs, ∀ i, ∃ y, f x i = .ok y) (index : Nat) :
    ∃ ys, ChartGenerator.mapThrowing f xs index = .ok ys := by
  induction xs generalizing index with
  | nil => exact ⟨[], rfl⟩
  | cons x rest ih =>
    obtain ⟨y, hy⟩ := h x (List.mem_cons_self x rest) index
    obtain ⟨ys, hys⟩ := ih (fun z hz => h z (List.mem_cons_of_mem x hz)) (index + 1)
    exact ⟨y :: ys, by simp [ChartGenerator.mapThrowing, hy, hys]⟩

theorem mapThrowing_forall {α γ ε : Type} (f : α → Nat → Except ε γ) (P : γ → Prop)
    (xs : List α) (hP : ∀ x ∈ xs, ∀ i y, f x i = .ok y → P y) (index : Nat) (ys : List γ)
    (h : ChartGenerator.mapThrowing f xs index = .ok ys) : ∀ y ∈ ys, P y := by
  induction xs generalizing index ys with
  | nil =>
    simp only [ChartGenerator.mapThrowing, Except.ok.injEq] at h
    subst h
    simp
  | cons x rest ih =>
    rw [ChartGenerator.mapThrowing] at h
    cases hx : f x index with
    | error e => rw [hx] at h; exact Except.noConfusion h
    | ok y =>
      rw [hx] at h
      dsimp only at h
      cases hr : ChartGenerator.mapThrowing f rest (index + 1) with
      | error e => rw [hr] at h; exact Except.noConfusion h
      | ok zs =>
        rw [hr] at h
        simp only [Except.ok.injEq] at h
        subst h
        intro z hz
        rcases List.mem_cons.1 hz with hz | hz
        · subst hz
          exact hP x (List.mem_cons_self x rest) index _ hx
        · exact ih (fun w hw => hP w (List.mem_cons_of_mem x hw)) (index + 1) zs hr z hz

/-- A read on a value of the model other than `null` does not throw in a realm whose inherited
reads do not throw. -/
theorem readKey_value_ok {β : Type} (realm : Realm β)
    (hquiet : ∀ (receiver : Reached β) (key : PropertyKey),
      ∃ r, realm.inherited receiver key = .ok r)
    (v : JsValue) (hv : v ≠ .null) (key : PropertyKey) :
    ∃ r, readKey realm (.value v) key = .ok r := by
  cases v with
  | null => exact absurd rfl hv
  | bool b =>
    obtain ⟨r, hr⟩ := hquiet (.value (.bool b)) key
    cases hk : ownKey (β := β) (.value (.bool b)) key with
    | some w => exact ⟨some w, by simp [readKey, hk]⟩
    | none => exact ⟨r, by simp [readKey, hk, hr]⟩
  | num n =>
    obtain ⟨r, hr⟩ := hquiet (.value (.num n)) key
    cases hk : ownKey (β := β) (.value (.num n)) key with
    | some w => exact ⟨some w, by simp [readKey, hk]⟩
    | none => exact ⟨r, by simp [readKey, hk, hr]⟩
  | str s =>
    obtain ⟨r, hr⟩ := hquiet (.value (.str s)) key
    cases hk : ownKey (β := β) (.value (.str s)) key with
    | some w => exact ⟨some w, by simp [readKey, hk]⟩
    | none => exact ⟨r, by simp [readKey, hk, hr]⟩
  | arr items =>
    obtain ⟨r, hr⟩ := hquiet (.value (.arr items)) key
    cases hk : ownKey (β := β) (.value (.arr items)) key with
    | some w => exact ⟨some w, by simp [readKey, hk]⟩
    | none => exact ⟨r, by simp [readKey, hk, hr]⟩
  | obj entries =>
    obtain ⟨r, hr⟩ := hquiet (.value (.obj entries)) key
    cases hk : ownKey (β := β) (.value (.obj entries)) key with
    | some w => exact ⟨some w, by simp [readKey, hk]⟩
    | none => exact ⟨r, by simp [readKey, hk, hr]⟩

/-- The read of an option on a config that is a plain object gives its own entry, in a realm
in which a plain object inherits no property named like an option. -/
theorem option_plain {β : Type} (realm : Realm β)
    (hplain : ∀ (o : JsObject) (name : String), name ∈ ChartGenerator.optionNames →
      realm.inherited (.value (.obj o)) (.text name) = .ok none)
    (entries : JsObject) (name : String) (hname : name ∈ ChartGenerator.optionNames) :
    ChartGenerator.option realm (.value (.obj entries)) name =
      .ok ((entries.get name).map .value) := by
  unfold ChartGenerator.option readProp readKey
  cases h : entries.get name with
  | some v => simp [ownKey, ownProp, h, ChartGenerator.liftRead]
  | none => simp [ownKey, ownProp, h, hplain entries name hname, ChartGenerator.liftRead]

theorem readOptions_plain {β : Type} (realm : Realm β)
    (hplain : ∀ (o : JsObject) (name : String), name ∈ ChartGenerator.optionNames →
      realm.inherited (.value (.obj o)) (.text name) = .ok none)
    (entries : JsObject) (names : List String) (hnames : ∀ n ∈ names, n ∈ ChartGenerator.optionNames) :
    ∃ reads, ChartGenerator.readOptions realm (.value (.obj entries)) names = .ok reads := by
  unfold ChartGenerator.readOptions
  apply mapThrowing_ok
  intro name hn i
  rw [option_plain realm hplain entries name (hnames name hn)]
  exact ⟨_, rfl⟩

theorem sampleFields_isSome (sample : JsValue) (h : sample ≠ .null) :
    ∃ fields, ChartGenerator.sampleFields sample = some fields := by
  cases sample with
  | null => exact absurd rfl h
  | bool b => exact ⟨_, rfl⟩
  | num n => exact ⟨_, rfl⟩
  | str s => exact ⟨_, rfl⟩
  | arr items => exact ⟨_, rfl⟩
  | obj entries => exact ⟨_, rfl⟩

theorem toPropertyKey_name {β : Type} (p : Platform) (realm : Realm β) (name : Option String) :
    ∃ k, ChartGenerator.toPropertyKey p realm (name.map fun f => Reached.value (.str f)) =
      .ok k := by
  cases name with
  | none => exact ⟨_, rfl⟩
  | some f => exact ⟨_, rfl⟩

theorem itemProp_ok {β : Type} (p : Platform) (realm : Realm β)
    (hquiet : ∀ (receiver : Reached β) (key : PropertyKey),
      ∃ r, realm.inherited receiver key = .ok r)
    (item : JsValue) (hitem : item ≠ .null) (key : Option (Reached β)) (k : PropertyKey)
    (hk : ChartGenerator.toPropertyKey p realm key = .ok k) :
    ∃ r, ChartGenerator.itemProp p realm item key = .ok r := by
  obtain ⟨r, hr⟩ := readKey_value_ok realm hquiet item hitem k
  refine ⟨r, ?_⟩
  cases item with
  | null => exact absurd rfl hitem
  | bool b => simp [ChartGenerator.itemProp, hk, hr, ChartGenerator.liftRead]
  | num n => simp [ChartGenerator.itemProp, hk, hr, ChartGenerator.liftRead]
  | str s => simp [ChartGenerator.itemProp, hk, hr, ChartGenerator.liftRead]
  | arr items => simp [ChartGenerator.itemProp, hk, hr, ChartGenerator.liftRead]
  | obj entries => simp [ChartGenerator.itemProp, hk, hr, ChartGenerator.liftRead]

/-- A configured value, or else a guessed field name: the pattern of `labelFieldOf`,
`valueFieldOf` and of the field names of a scatter chart. Either way the result converts to a
property key when the configured value does. -/
theorem configured_or_guess_key {β : Type} (p : Platform) (realm : Realm β)
    (configured : Option JsValue) (guess : Option String)
    (hconv : ∀ v, configured = some v → ChartGenerator.stringConversionThrows v = false) :
    ∃ k, ChartGenerator.toPropertyKey p realm
      (if ChartGenerator.truthyRead realm (configured.map Reached.value) then
        configured.map Reached.value
      else guess.map fun f => Reached.value (.str f)) = .ok k := by
  split
  · cases configured with
    | none => exact ⟨_, rfl⟩
    | some v => exact ⟨.text (jsToString p v), by simp [ChartGenerator.toPropertyKey, hconv v rfl]⟩
  · exact toPropertyKey_name p realm guess

theorem labelFieldOf_ok {β : Type} (p : Platform) (realm : Realm β)
    (hplain : ∀ (o : JsObject) (name : String), name ∈ ChartGenerator.optionNames →
      realm.inherited (.value (.obj o)) (.text name) = .ok none)
    (entries : JsObject) (sample : JsValue) (hsample : sample ≠ .null)
    (hconv : ∀ v, entries.get "labelField" = some v →
      ChartGenerator.stringConversionThrows v = false) :
    ∃ labelField, ChartGenerator.labelFieldOf realm sample (.value (.obj entries)) =
        .ok labelField ∧
      ∃ k, ChartGenerator.toPropertyKey p realm labelField = .ok k := by
  obtain ⟨fields, hf⟩ := sampleFields_isSome sample hsample
  unfold ChartGenerator.labelFieldOf
  rw [option_plain realm hplain entries "labelField" (by decide), hf]
  dsimp only
  have hkey := configured_or_guess_key p realm (entries.get "labelField")
    (ChartGenerator.guessLabelField fields) hconv
  by_cases hc : ChartGenerator.truthyRead realm
      (Option.map Reached.value (entries.get "labelField")) = true
  · rw [if_pos hc] at hkey ⊢
    exact ⟨_, rfl, hkey⟩
  · rw [if_neg hc] at hkey ⊢
    exact ⟨_, rfl, hkey⟩

theorem extractLabels_ok {β : Type} (p : Platform) (realm : Realm β)
    (hquiet : ∀ (receiver : Reached β) (key : PropertyKey),
      ∃ r, realm.inherited receiver key = .ok r)
    (hplain : ∀ (o : JsObject) (name : String), name ∈ ChartGenerator.optionNames →
      realm.inherited (.value (.obj o)) (.text name) = .ok none)
    (entries : JsObject) (items : List JsValue) (hnull : ∀ item ∈ items, item ≠ .null)
    (hconv : ∀ v, entries.get "labelField" = some v →
      ChartGenerator.stringConversionThrows v = false) :
    ∃ labels, ChartGenerator.extractLabels p realm (.arr items) (.value (.obj entries)) =
      .ok labels := by
  cases items with
  | nil => exact ⟨[], rfl⟩
  | cons first rest =>
    obtain ⟨labelField, hl, k, hk⟩ := labelFieldOf_ok p realm hplain entries first
      (hnull first (List.mem_cons_self first rest)) hconv
    simp only [ChartGenerator.extractLabels, hl]
    apply mapThrowing_ok
    intro item hitem i
    obtain ⟨r, hr⟩ := itemProp_ok p realm hquiet item (hnull item hitem) labelField k hk
    rw [hr]
    exact ⟨_, rfl⟩

theorem hexToRgba_text {β : Type} (p : Platform) (s alpha : String) :
    ∃ t, ChartGenerator.hexToRgba (β := β) p (.value (.str s)) alpha = .ok t :=
  ⟨_, rfl⟩

theorem seriesLabel_ok {β : Type} (realm : Realm β)
    (hquiet : ∀ (receiver : Reached β) (key : PropertyKey),
      ∃ r, realm.inherited receiver key = .ok r)
    (hplain : ∀ (o : JsObject) (name : String), name ∈ ChartGenerator.optionNames →
      realm.inherited (.value (.obj o)) (.text name) = .ok none)
    (entries : JsObject) (field : JsValue) (index : Nat) :
    ∃ label, ChartGenerator.seriesLabel realm (.value (.obj entries)) field index =
      .ok label := by
  unfold ChartGenerator.seriesLabel
  rw [option_plain realm hplain entries "datasetLabels" (by decide)]
  cases entries.get "datasetLabels" with
  | none => exact ⟨_, rfl⟩
  | some v =>
    simp only [Option.map_some']
    by_cases ht : (Reached.value v : Reached β).truthy realm = true
    · rw [if_pos ht]
      have hv : v ≠ .null := by
        intro h
        subst h
        simp [Reached.truthy, JsValue.truthy] at ht
      obtain ⟨r, hr⟩ := readKey_value_ok realm hquiet v hv (.text (toString index))
      unfold readProp
      rw [hr]
      exact ⟨_, rfl⟩
    · rw [if_neg ht]
      exact ⟨_, rfl⟩

theorem seriesOf_ok {β : Type} (p : Platform) (realm : Realm β)
    (hquiet : ∀ (receiver : Reached β) (key : PropertyKey),
      ∃ r, realm.inherited receiver key = .ok r)
    (hplain : ∀ (o : JsObject) (name : String), name ∈ ChartGenerator.optionNames →
      realm.inherited (.value (.obj o)) (.text name) = .ok none)
    (entries : JsObject) (items : List JsValue) (hnull : ∀ item ∈ items, item ≠ .null)
    (hcolors : entries.get "colors" = none)
    (chartType field : String) (index : Nat) :
    ∃ series, ChartGenerator.seriesOf p realm items (.value (.obj entries)) chartType
        (.str field) index = .ok series ∧
      series.borderColor = .value (.str (ChartGenerator.defaultColor index)) := by
  have hcolor : ChartGenerator.seriesColor realm (.value (.obj entries)) index =
      .ok (.value (.str (ChartGenerator.defaultColor index))) := by
    unfold ChartGenerator.seriesColor
    rw [option_plain realm hplain entries "colors" (by decide), hcolors]
    rfl
  obtain ⟨label, hlabel⟩ := seriesLabel_ok realm hquiet hplain entries (.str field) index
  obtain ⟨data, hdata⟩ := mapThrowing_ok
    (fun item (_ : Nat) =>
      match ChartGenerator.itemProp p realm item (some (.value (.str field))) with
      | .error e => .error e
      | .ok v => .ok (ChartGenerator.orValue realm v (.number 0 0)))
    items
    (by
      intro item hitem i
      obtain ⟨r, hr⟩ := itemProp_ok p realm hquiet item (hnull item hitem)
        (some (.value (.str field))) (.text field) rfl
      dsimp only
      rw [hr]
      exact ⟨_, rfl⟩) 0
  obtain ⟨reads, hreads⟩ := readOptions_plain realm hplain entries ["tension", "fill"]
    (by decide)
  unfold ChartGenerator.seriesOf
  rw [hcolor]
  dsimp only
  rw [hlabel]
  dsimp only
  rw [hdata]
  dsimp only
  by_cases hline : chartType = "line"
  · rw [if_pos hline]
    obtain ⟨background, hb⟩ := hexToRgba_text (β := β) p (ChartGenerator.defaultColor index) "0.1"
    rw [hb]
    dsimp only
    rw [hreads]
    exact ⟨_, rfl, rfl⟩
  · rw [if_neg hline]
    exact ⟨_, rfl, rfl⟩

theorem guessValueFieldsOf_ok {β : Type} (sample : JsValue) (hsample : sample ≠ .null)
    (labelField : Option (Reached β)) :
    ∃ fields, ChartGenerator.guessValueFieldsOf sample labelField = .ok fields := by
  obtain ⟨fields, hf⟩ := sampleFields_isSome sample hsample
  refine ⟨ChartGenerator.guessValueFields fields (ChartGenerator.labelName labelField), ?_⟩
  simp [ChartGenerator.guessValueFieldsOf, hf]

theorem extractDatasets_ok {β : Type} (p : Platform) (realm : Realm β)
    (hquiet : ∀ (receiver : Reached β) (key : PropertyKey),
      ∃ r, realm.inherited receiver key = .ok r)
    (hplain : ∀ (o : JsObject) (name : String), name ∈ ChartGenerator.optionNames →
      realm.inherited (.value (.obj o)) (.text name) = .ok none)
    (entries : JsObject) (items : List JsValue) (hnull : ∀ item ∈ items, item ≠ .null)
    (hconv : ∀ v, entries.get "labelField" = some v →
      ChartGenerator.stringConversionThrows v = false)
    (hfields : entries.get "valueFields" = none) (hcolors : entries.get "colors" = none)
    (chartType : String) :
    ∃ datasets, ChartGenerator.extractDatasets p realm (.arr items) (.value (.obj entries))
        chartType = .ok datasets ∧
      ∀ series ∈ datasets, ∃ color : String, series.borderColor = .value (.str color) := by
  cases items with
  | nil => exact ⟨[], rfl, by simp⟩
  | cons first rest =>
    have hfirst := hnull first (List.mem_cons_self first rest)
    obtain ⟨labelField, hl, _⟩ := labelFieldOf_ok p realm hplain entries first hfirst hconv
    obtain ⟨names, hn⟩ := guessValueFieldsOf_ok first hfirst labelField
    have hv : ChartGenerator.valueFieldsOf realm first (.value (.obj entries)) labelField =
        .ok (names.map .str) := by
      unfold ChartGenerator.valueFieldsOf
      rw [option_plain realm hplain entries "valueFields" (by decide), hfields, hn]
      rfl
    simp only [ChartGenerator.extractDatasets, hl, hv]
    obtain ⟨datasets, hd⟩ := mapThrowing_ok
      (ChartGenerator.seriesOf p realm (first :: rest) (.value (.obj entries)) chartType)
      (names.map .str)
      (by
        intro field hfield i
        obtain ⟨name, _, hname⟩ := List.mem_map.1 hfield
        subst hname
        obtain ⟨series, hs, _⟩ := seriesOf_ok p realm hquiet hplain entries (first :: rest)
          hnull hcolors chartType name i
        exact ⟨series, hs⟩) 0
    refine ⟨datasets, hd, ?_⟩
    refine mapThrowing_forall _ (fun series => ∃ color : String,
      series.borderColor = .value (.str color)) _ ?_ 0 datasets hd
    intro field hfield i series hs
    obtain ⟨name, _, hname⟩ := List.mem_map.1 hfield
    subst hname
    obtain ⟨series2, hs2, hcolor⟩ := seriesOf_ok p realm hquiet hplain entries (first :: rest)
      hnull hcolors chartType name i
    rw [hs2] at hs
    injection hs with hs
    subst hs
    exact ⟨_, hcolor⟩

theorem valueFieldOf_ok {β : Type} (p : Platform) (realm : Realm β)
    (hplain : ∀ (o : JsObject) (name : String), name ∈ ChartGenerator.optionNames →
      realm.inherited (.value (.obj o)) (.text name) = .ok none)
    (entries : JsObject) (sample : JsValue) (hsample : sample ≠ .null)
    (labelField : Option (Reached β))
    (hconv : ∀ v, entries.get "valueField" = some v →
      ChartGenerator.stringConversionThrows v = false) :
    ∃ valueField, ChartGenerator.valueFieldOf realm sample (.value (.obj entries)) labelField =
        .ok valueField ∧
      ∃ k, ChartGenerator.toPropertyKey p realm valueField = .ok k := by
  obtain ⟨fields, hf⟩ := guessValueFieldsOf_ok sample hsample labelField
  unfold ChartGenerator.valueFieldOf
  rw [option_plain realm hplain entries "valueField" (by decide), hf]
  dsimp only
  have hkey := configured_or_guess_key p realm (entries.get "valueField") fields.head? hconv
  by_cases hc : ChartGenerator.truthyRead realm
      (Option.map Reached.value (entries.get "valueField")) = true
  · rw [if_pos hc] at hkey ⊢
    exact ⟨_, rfl, hkey⟩
  · rw [if_neg hc] at hkey ⊢
    exact ⟨_, rfl, hkey⟩

theorem extractValues_ok {β : Type} (p : Platform) (realm : Realm β)
    (hquiet : ∀ (receiver : Reached β) (key : PropertyKey),
      ∃ r, realm.inherited receiver key = .ok r)
    (hplain : ∀ (o : JsObject) (name : String), name ∈ ChartGenerator.optionNames →
      realm.inherited (.value (.obj o)) (.text name) = .ok none)
    (entries : JsObject) (items : List JsValue) (hnull : ∀ item ∈ items, item ≠ .null)
    (hconvL : ∀ v, entries.get "labelField" = some v →
      ChartGenerator.stringConversionThrows v = false)
    (hconvV : ∀ v, entries.get "valueField" = some v →
      ChartGenerator.stringConversionThrows v = false) :
    ∃ values, ChartGenerator.extractValues p realm (.arr items) (.value (.obj entries)) =
      .ok values := by
  cases items with
  | nil => exact ⟨[], rfl⟩
  | cons first rest =>
    have hfirst := hnull first (List.mem_cons_self first rest)
    obtain ⟨labelField, hl, _⟩ := labelFieldOf_ok p realm hplain entries first hfirst hconvL
    obtain ⟨valueField, hv, k, hk⟩ := valueFieldOf_ok p realm hplain entries first hfirst
      labelField hconvV
    simp only [ChartGenerator.extractValues, hl, hv]
    apply mapThrowing_ok
    intro item hitem i
    obtain ⟨r, hr⟩ := itemProp_ok p realm hquiet item (hnull item hitem) valueField k hk
    rw [hr]
    exact ⟨_, rfl⟩

theorem orReached_key {β : Type} (p : Platform) (realm : Realm β) (configured : Option JsValue)
    (fallback : String)
    (hconv : ∀ v, configured = some v → ChartGenerator.stringConversionThrows v = false) :
    ∃ k, ChartGenerator.toPropertyKey p realm
      (some (ChartGenerator.orReached realm (configured.map Reached.value)
        (.value (.str fallback)))) = .ok k := by
  cases configured with
  | none => exact ⟨_, rfl⟩
  | some v =>
    simp only [Option.map_some', ChartGenerator.orReached]
    split
    · exact ⟨.text (jsToString p v), by simp [ChartGenerator.toPropertyKey, hconv v rfl]⟩
    · exact ⟨_, rfl⟩

theorem scatterPoint_ok {β : Type} (p : Platform) (realm : Realm β)
    (hquiet : ∀ (receiver : Reached β) (key : PropertyKey),
      ∃ r, realm.inherited receiver key = .ok r)
    (xField yField : Reached β) (kx ky : PropertyKey)
    (hx : ChartGenerator.toPropertyKey p realm (some xField) = .ok kx)
    (hy : ChartGenerator.toPropertyKey p realm (some yField) = .ok ky)
    (item : JsValue) (hitem : item ≠ .null) :
    ∃ point, ChartGenerator.scatterPoint p realm xField yField item = .ok point := by
  obtain ⟨x, hxr⟩ := itemProp_ok p realm hquiet item hitem (some xField) kx hx
  obtain ⟨y, hyr⟩ := itemProp_ok p realm hquiet item hitem (some yField) ky hy
  refine ⟨.obj [("x", .ofRead x), ("y", .ofRead y)], ?_⟩
  simp [ChartGenerator.scatterPoint, hxr, hyr]

theorem extractScatterDatasets_ok {β : Type} (p : Platform) (realm : Realm β)
    (hquiet : ∀ (receiver : Reached β) (key : PropertyKey),
      ∃ r, realm.inherited receiver key = .ok r)
    (hplain : ∀ (o : JsObject) (name : String), name ∈ ChartGenerator.optionNames →
      realm.inherited (.value (.obj o)) (.text name) = .ok none)
    (entries : JsObject) (items : List JsValue) (hnull : ∀ item ∈ items, item ≠ .null)
    (hgroup : entries.get "groupField" = none)
    (hconvX : ∀ v, entries.get "xField" = some v →
      ChartGenerator.stringConversionThrows v = false)
    (hconvY : ∀ v, entries.get "yField" = some v →
      ChartGenerator.stringConversionThrows v = false) :
    ∃ datasets, ChartGenerator.extractScatterDatasets p realm (.arr items)
      (.value (.obj entries)) = .ok datasets := by
  cases items with
  | nil => exact ⟨[], rfl⟩
  | cons first rest =>
    have hreads : ChartGenerator.readOptions realm (.value (.obj entries))
        ["xField", "yField", "groupField"] =
        .ok [("xField", (entries.get "xField").map .value),
          ("yField", (entries.get "yField").map .value), ("groupField", none)] := by
      simp only [ChartGenerator.readOptions, ChartGenerator.mapThrowing]
      rw [option_plain realm hplain entries "xField" (by decide),
        option_plain realm hplain entries "yField" (by decide),
        option_plain realm hplain entries "groupField" (by decide), hgroup]
      rfl
    obtain ⟨kx, hkx⟩ := orReached_key p realm (entries.get "xField") "x" hconvX
    obtain ⟨ky, hky⟩ := orReached_key p realm (entries.get "yField") "y" hconvY
    obtain ⟨points, hpoints⟩ := mapThrowing_ok
      (fun item (_ : Nat) => ChartGenerator.scatterPoint p realm
        (ChartGenerator.orReached realm ((entries.get "xField").map .value) (.value (.str "x")))
        (ChartGenerator.orReached realm ((entries.get "yField").map .value) (.value (.str "y")))
        item)
      (first :: rest)
      (fun item hitem _ => scatterPoint_ok p realm hquiet _ _ kx ky hkx hky item
        (hnull item hitem)) 0
    simp only [ChartGenerator.extractScatterDatasets, hreads]
    have hx : ChartGenerator.optionRead
        [("xField", (entries.get "xField").map Reached.value),
          ("yField", (entries.get "yField").map Reached.value),
          ("groupField", (none : Option (Reached β)))] "xField" =
        (entries.get "xField").map .value := rfl
    have hy : ChartGenerator.optionRead
        [("xField", (entries.get "xField").map Reached.value),
          ("yField", (entries.get "yField").map Reached.value),
          ("groupField", (none : Option (Reached β)))] "yField" =
        (entries.get "yField").map .value := rfl
    have hg : ChartGenerator.optionRead
        [("xField", (entries.get "xField").map Reached.value),
          ("yField", (entries.get "yField").map Reached.value),
          ("groupField", (none : Option (Reached β)))] "groupField" = none := rfl
    rw [hg, hx, hy]
    dsimp only
    rw [option_plain realm hplain entries "label" (by decide)]
    dsimp only
    rw [hpoints]
    exact ⟨_, rfl⟩

theorem plainChartConfig_spec (entries : JsObject) (h : plainChartConfig entries = true) :
    entries.get "valueFields" = none ∧ entries.get "colors" = none ∧
      entries.get "groupField" = none ∧
      ∀ name ∈ ["labelField", "valueField", "xField", "yField"], ∀ v,
        entries.get name = some v → ChartGenerator.stringConversionThrows v = false := by
  unfold plainChartConfig at h
  simp only [Bool.and_eq_true, Option.isNone_iff_eq_none, List.all_eq_true] at h
  refine ⟨h.1.1.1, h.1.1.2, h.1.2, ?_⟩
  intro name hname v hv
  have := h.2 name hname
  rw [hv] at this
  simpa using this

theorem buildBarChart_ok {β : Type} (p : Platform) (realm : Realm β)
    (hquiet : ∀ (receiver : Reached β) (key : PropertyKey),
      ∃ r, realm.inherited receiver key = .ok r)
    (hplain : ∀ (o : JsObject) (name : String), name ∈ ChartGenerator.optionNames →
      realm.inherited (.value (.obj o)) (.text name) = .ok none)
    (entries : JsObject) (hconfig : plainChartConfig entries = true)
    (items : List JsValue) (hnull : ∀ item ∈ items, item ≠ .null) :
    ∃ c, ChartGenerator.buildBarChart p realm (.arr items) (.value (.obj entries)) = .ok c := by
  obtain ⟨hf, hc, _, hconv⟩ := plainChartConfig_spec entries hconfig
  obtain ⟨labels, hl⟩ := extractLabels_ok p realm hquiet hplain entries items hnull
    (hconv "labelField" (by decide))
  obtain ⟨datasets, hd, _⟩ := extractDatasets_ok p realm hquiet hplain entries items hnull
    (hconv "labelField" (by decide)) hf hc "bar"
  obtain ⟨reads, hr⟩ := readOptions_plain realm hplain entries
    ["title", "xAxis", "showGrid", "yAxis", "beginAtZero"] (by decide)
  simp only [ChartGenerator.buildBarChart, hl, hd, hr]
  exact ⟨_, rfl⟩

theorem lineParts_ok {β : Type} (p : Platform) (realm : Realm β)
    (hquiet : ∀ (receiver : Reached β) (key : PropertyKey),
      ∃ r, realm.inherited receiver key = .ok r)
    (hplain : ∀ (o : JsObject) (name : String), name ∈ ChartGenerator.optionNames →
      realm.inherited (.value (.obj o)) (.text name) = .ok none)
    (entries : JsObject) (hconfig : plainChartConfig entries = true)
    (items : List JsValue) (hnull : ∀ item ∈ items, item ≠ .null) :
    ∃ parts, ChartGenerator.lineParts p realm (.arr items) (.value (.obj entries)) = .ok parts ∧
      ∀ series ∈ parts.datasets, ∃ color : String, series.borderColor = .value (.str color) := by
  obtain ⟨hf, hc, _, hconv⟩ := plainChartConfig_spec entries hconfig
  obtain ⟨labels, hl⟩ := extractLabels_ok p realm hquiet hplain entries items hnull
    (hconv "labelField" (by decide))
  obtain ⟨datasets, hd, hcolor⟩ := extractDatasets_ok p realm hquiet hplain entries items hnull
    (hconv "labelField" (by decide)) hf hc "line"
  obtain ⟨reads, hr⟩ := readOptions_plain realm hplain entries
    ["title", "xAxis", "showGrid", "yAxis", "beginAtZero", "tension", "pointRadius",
      "pointHoverRadius"] (by decide)
  simp only [ChartGenerator.lineParts, hl, hd, hr]
  exact ⟨_, rfl, hcolor⟩

theorem buildLineChart_ok {β : Type} (p : Platform) (realm : Realm β)
    (hquiet : ∀ (receiver : Reached β) (key : PropertyKey),
      ∃ r, realm.inherited receiver key = .ok r)
    (hplain : ∀ (o : JsObject) (name : String), name ∈ ChartGenerator.optionNames →
      realm.inherited (.value (.obj o)) (.text name) = .ok none)
    (entries : JsObject) (hconfig : plainChartConfig entries = true)
    (items : List JsValue) (hnull : ∀ item ∈ items, item ≠ .null) :
    ∃ c, ChartGenerator.buildLineChart p realm (.arr items) (.value (.obj entries)) = .ok c := by
  obtain ⟨parts, hp, _⟩ := lineParts_ok p realm hquiet hplain entries hconfig items hnull
  simp only [ChartGenerator.buildLineChart, hp]
  exact ⟨_, rfl⟩

theorem buildAreaChart_ok {β : Type} (p : Platform) (realm : Realm β)
    (hquiet : ∀ (receiver : Reached β) (key : PropertyKey),
      ∃ r, realm.inherited receiver key = .ok r)
    (hplain : ∀ (o : JsObject) (name : String), name ∈ ChartGenerator.optionNames →
      realm.inherited (.value (.obj o)) (.text name) = .ok none)
    (entries : JsObject) (hconfig : plainChartConfig entries = true)
    (items : List JsValue) (hnull : ∀ item ∈ items, item ≠ .null) :
    ∃ c, ChartGenerator.buildAreaChart p realm (.arr items) (.value (.obj entries)) = .ok c := by
  obtain ⟨parts, hp, hcolor⟩ := lineParts_ok p realm hquiet hplain entries hconfig items hnull
  obtain ⟨datasets, hd⟩ := mapThrowing_ok
    (fun series (_ : Nat) => ChartGenerator.areaSeries p series) parts.datasets
    (by
      intro series hs i
      obtain ⟨color, hc⟩ := hcolor series hs
      obtain ⟨background, hb⟩ := hexToRgba_text (β := β) p color "0.2"
      refine ⟨⟨series.label, series.data, series.borderColor, .text background,
        match series.lineOptions with
        | some (tension, _) => some (tension, .bool true)
        | none => none⟩, ?_⟩
      simp only [ChartGenerator.areaSeries, hc, hb]) 0
  simp only [ChartGenerator.buildAreaChart, hp, hd]
  exact ⟨_, rfl⟩

theorem darkenColor_text {β : Type} (s : String) :
    ∃ t, ChartGenerator.darkenColor (β := β) (.str s) = .ok t :=
  ⟨_, rfl⟩

theorem buildPieChart_ok {β : Type} (p : Platform) (realm : Realm β)
    (hquiet : ∀ (receiver : Reached β) (key : PropertyKey),
      ∃ r, realm.inherited receiver key = .ok r)
    (hplain : ∀ (o : JsObject) (name : String), name ∈ ChartGenerator.optionNames →
      realm.inherited (.value (.obj o)) (.text name) = .ok none)
    (entries : JsObject) (hconfig : plainChartConfig entries = true)
    (items : List JsValue) (hnull : ∀ item ∈ items, item ≠ .null) (type : String) :
    ∃ c, ChartGenerator.buildPieChart p realm (.arr items) (.value (.obj entries)) type =
      .ok c := by
  obtain ⟨_, hc, _, hconv⟩ := plainChartConfig_spec entries hconfig
  obtain ⟨labels, hl⟩ := extractLabels_ok p realm hquiet hplain entries items hnull
    (hconv "labelField" (by decide))
  obtain ⟨values, hv⟩ := extractValues_ok p realm hquiet hplain entries items hnull
    (hconv "labelField" (by decide)) (hconv "valueField" (by decide))
  have hcolors : ChartGenerator.pieColors realm (none : Option (Reached β)) labels.length =
      some ((ChartGenerator.defaultColors.take labels.length).map .str) := rfl
  obtain ⟨borders, hb⟩ := mapThrowing_ok
    (fun color (_ : Nat) => ChartGenerator.darkenColor (β := β) color)
    ((ChartGenerator.defaultColors.take labels.length).map .str)
    (by
      intro color hcolor i
      obtain ⟨s, _, hs⟩ := List.mem_map.1 hcolor
      subst hs
      exact darkenColor_text s) 0
  obtain ⟨reads, hr⟩ := readOptions_plain realm hplain entries ["title", "legendPosition"]
    (by decide)
  simp only [ChartGenerator.buildPieChart, hl, hv,
    option_plain realm hplain entries "colors" (by decide), hc, Option.map_none', hcolors, hb,
    hr]
  exact ⟨_, rfl⟩

theorem buildScatterChart_ok {β : Type} (p : Platform) (realm : Realm β)
    (hquiet : ∀ (receiver : Reached β) (key : PropertyKey),
      ∃ r, realm.inherited receiver key = .ok r)
    (hplain : ∀ (o : JsObject) (name : String), name ∈ ChartGenerator.optionNames →
      realm.inherited (.value (.obj o)) (.text name) = .ok none)
    (entries : JsObject) (hconfig : plainChartConfig entries = true)
    (items : List JsValue) (hnull : ∀ item ∈ items, item ≠ .null) :
    ∃ c, ChartGenerator.buildScatterChart p realm (.arr items) (.value (.obj entries)) =
      .ok c := by
  obtain ⟨_, _, hg, hconv⟩ := plainChartConfig_spec entries hconfig
  obtain ⟨datasets, hd⟩ := extractScatterDatasets_ok p realm hquiet hplain entries items hnull
    hg (hconv "xField" (by decide)) (hconv "yField" (by decide))
  obtain ⟨reads, hr⟩ := readOptions_plain realm hplain entries ["title", "xAxis", "yAxis"]
    (by decide)
  simp only [ChartGenerator.buildScatterChart, hd, hr]
  exact ⟨_, rfl⟩

/-- C22, as stated, fails. The model with the type `table`, which the parser's enumeration
accepts, and two records with the same field names: `buildChartConfig` throws for it in every
realm, and with the standard reads it throws the error of its `default` case, whose message is
`Unsupported chart type: table`; the same holds for `map` and `heatmap`. A supported type can
throw too: for the type `bar` and the config whose `valueFields` is the text `habitantes`, the
call of `map` on that text is a `TypeError`. -/
theorem C22_counterexample_table :
    XMLParser.validTypes.contains "table" = true ∧
      (∀ (β : Type) (p : Platform) (realm : Realm β),
        ∃ e, ChartGenerator.buildChartConfig p realm tableModel = .error e) ∧
      ChartGenerator.buildChartConfig strictPlatform sampleRealm tableModel =
        .error (.unsupportedType (.value (.str "table"))) ∧
      (ChartGenerator.ChartError.unsupportedType (.value (.str "table")) :
        ChartGenerator.ChartError String).message = some "Unsupported chart type: table" ∧
      ChartGenerator.buildChartConfig strictPlatform sampleRealm
          ⟨tableModel.id, tableModel.metadata, [("type", .str "map")], tableModel.data⟩ =
        .error (.unsupportedType (.value (.str "map"))) ∧
      ChartGenerator.buildChartConfig strictPlatform sampleRealm
          ⟨tableModel.id, tableModel.metadata, [("type", .str "heatmap")], tableModel.data⟩ =
        .error (.unsupportedType (.value (.str "heatmap"))) ∧
      ChartGenerator.buildChartConfig strictPlatform sampleRealm barModelWithTextField =
        .error (.typeError "valueFields.map is not a function") := by
  refine ⟨rfl, ?_, rfl, rfl, rfl, rfl, rfl⟩
  intro β p realm
  have htype : readProp realm (.value (.obj tableModel.visualization)) "type" =
      .ok (some (.value (.str "table"))) := rfl
  have hconfig : readProp realm (.value (.obj tableModel.visualization)) "config" =
      realm.inherited (.value (.obj tableModel.visualization)) (.text "config") := rfl
  unfold ChartGenerator.buildChartConfig
  rw [htype, hconfig]
  cases realm.inherited (.value (.obj tableModel.visualization)) (.text "config") with
  | error e => exact ⟨_, rfl⟩
  | ok configRead => exact ⟨_, rfl⟩

/-- C22, amended. In a realm whose inherited reads do not throw and in which a plain object
inherits no property named like a chart option, as with the standard built-in objects, and for
a model whose visualization has a type and either no config or a config that sets none of
`valueFields`, `colors` and `groupField` (and whose field names convert to strings) and whose
data is a list without `null`, in particular a list of records: for the types `bar`, `line`,
`pie`, `doughnut`, `scatter` and `area` the method `buildChartConfig` returns a chart
configuration; for the types `map`, `table` and `heatmap` of the parser's enumeration it throws
the error of its `default` case, which carries the type. -/
theorem C22_buildChartConfig_supported_types {β : Type} (p : Platform) (realm : Realm β)
    (d : Dataset) (type : String) (items : List JsValue)
    (hquiet : ∀ (receiver : Reached β) (key : PropertyKey),
      ∃ r, realm.inherited receiver key = .ok r)
    (hplain : ∀ (o : JsObject) (name : String), name ∈ ChartGenerator.optionNames →
      realm.inherited (.value (.obj o)) (.text name) = .ok none)
    (htype : d.visualization.get "type" = some (.str type))
    (hconfig : d.visualization.get "config" = none ∨
      ∃ entries, d.visualization.get "config" = some (.obj entries) ∧
        plainChartConfig entries = true)
    (hdata : d.data = .arr items) (hnull : ∀ item ∈ items, item ≠ .null) :
    (type ∈ ["bar", "line", "pie", "doughnut", "scatter", "area"] →
        ∃ c, ChartGenerator.buildChartConfig p realm d = .ok c) ∧
      (type ∈ ["map", "table", "heatmap"] →
        ChartGenerator.buildChartConfig p realm d =
          .error (.unsupportedType (.value (.str type)))) := by
  have hread : ∀ name, name ∈ ChartGenerator.optionNames →
      ChartGenerator.liftRead (β := β) (readProp realm (.value (.obj d.visualization)) name) =
        .ok ((d.visualization.get name).map .value) :=
    fun name hname => option_plain realm hplain d.visualization name hname
  have hcfg : ∃ entries, plainChartConfig entries = true ∧
      ChartGenerator.orReached realm ((d.visualization.get "config").map Reached.value)
        (.value (.obj [])) = .value (.obj entries) := by
    rcases hconfig with hnone | ⟨entries, hsome, hplainConfig⟩
    · exact ⟨[], rfl, by rw [hnone]; rfl⟩
    · exact ⟨entries, hplainConfig, by rw [hsome]; rfl⟩
  obtain ⟨entries, hplainConfig, hentries⟩ := hcfg
  unfold ChartGenerator.buildChartConfig
  rw [hread "type" (by decide), hread "config" (by decide), htype, hdata]
  dsimp only
  rw [hentries]
  constructor
  · intro hmem
    simp only [List.mem_cons, List.mem_singleton, List.mem_nil_iff, or_false] at hmem
    rcases hmem with h | h | h | h | h | h <;> subst h
    · simpa [ChartGenerator.orReached, Reached.truthy, JsValue.truthy] using
        buildBarChart_ok p realm hquiet hplain entries hplainConfig items hnull
    · simpa [ChartGenerator.orReached, Reached.truthy, JsValue.truthy] using
        buildLineChart_ok p realm hquiet hplain entries hplainConfig items hnull
    · simpa [ChartGenerator.orReached, Reached.truthy, JsValue.truthy] using
        buildPieChart_ok p realm hquiet hplain entries hplainConfig items hnull "pie"
    · simpa [ChartGenerator.orReached, Reached.truthy, JsValue.truthy] using
        buildPieChart_ok p realm hquiet hplain entries hplainConfig items hnull "doughnut"
    · simpa [ChartGenerator.orReached, Reached.truthy, JsValue.truthy] using
        buildScatterChart_ok p realm hquiet hplain entries hplainConfig items hnull
    · simpa [ChartGenerator.orReached, Reached.truthy, JsValue.truthy] using
        buildAreaChart_ok p realm hquiet hplain entries hplainConfig items hnull
  · intro hmem
    simp only [List.mem_cons, List.mem_singleton, List.mem_nil_iff, or_false] at hmem
    rcases hmem with h | h | h <;> subst h <;> rfl

/-- Witness of C22: the model with the type `bar`, a config that sets the title and two records
gets a chart configuration. -/
theorem C22_buildChartConfig_supported_types_witness :
    ∃ c, ChartGenerator.buildChartConfig strictPlatform sampleRealm barModel = .ok c :=
  (C22_buildChartConfig_supported_types strictPlatform sampleRealm barModel "bar"
    [.obj [("distrito", .str "Centro"), ("habitantes", .num (.finite false 12 3))],
      .obj [("distrito", .str "Garrido"), ("habitantes", .num (.finite false 3 4))]]
    (by
      intro receiver key
      cases receiver with
      | value v =>
        cases v with
        | obj entries =>
          cases key with
          | text name =>
            by_cases h : name ∈ ["constructor", "toString", "valueOf", "hasOwnProperty"]
            · exact ⟨_, if_pos h⟩
            · exact ⟨_, if_neg h⟩
          | unit u => exact ⟨_, rfl⟩
        | _ => exact ⟨_, rfl⟩
      | _ => exact ⟨_, rfl⟩)
    (by
      intro o name hname
      have hnot : name ∉ ["constructor", "toString", "valueOf", "hasOwnProperty"] := by
        intro h
        revert hname
        simp only [List.mem_cons, List.mem_singleton, List.mem_nil_iff, or_false] at h
        rcases h with h | h | h | h <;> subst h <;> decide
      exact if_neg hnot)
    rfl (Or.inr ⟨_, rfl, rfl⟩) rfl
    (by
      intro item hitem
      simp only [List.mem_cons, List.mem_singleton, List.mem_nil_iff, or_false] at hitem
      rcases hitem with h | h <;> subst h <;> exact JsValue.noConfusion)).1 (by decide)

/-- C27. `guessLabelField` returns the first name of the candidate list that is a key of the
sample, otherwise the first key whose value is a string, otherwise the first key;
`guessValueFields` returns, in key order, the keys that differ from the label field and whose
value is a number, so the label field is not among them. -/
theorem C27_guessed_fields (sample : JsObject) (labelField : Option String) :
    (∀ c, (ChartGenerator.labelCandidates.find? fun c => decide (c ∈ sample.map Prod.fst)) = some c →
        ChartGenerator.guessLabelField sample = some c) ∧
      ((∀ c ∈ ChartGenerator.labelCandidates, c ∉ sample.map Prod.fst) →
        ∀ f, ((sample.map Prod.fst).find? fun f =>
            ChartGenerator.isStringValue (sample.get f)) = some f →
          ChartGenerator.guessLabelField sample = some f) ∧
      ((∀ c ∈ ChartGenerator.labelCandidates, c ∉ sample.map Prod.fst) →
        (∀ f ∈ sample.map Prod.fst, ChartGenerator.isStringValue (sample.get f) = false) →
        ChartGenerator.guessLabelField sample = (sample.map Prod.fst).head?) ∧
      ChartGenerator.guessValueFields sample labelField =
        (sample.map Prod.fst).filter (fun f =>
          decide (some f ≠ labelField) && ChartGenerator.isNumberValue (sample.get f)) ∧
      (∀ f, labelField = some f → f ∉ ChartGenerator.guessValueFields sample labelField) ∧
      ChartGenerator.guessLabelField districtRecord = some "distrito" ∧
      ChartGenerator.guessValueFields districtRecord (some "distrito") = ["habitantes"] ∧
      ChartGenerator.guessLabelField zoneRecord = some "zona" ∧
      ChartGenerator.guessLabelField numericRecord = some "a" ∧
      ChartGenerator.guessValueFields numericRecord (some "a") = ["b"] := by
  have hcontains : (fun candidate => (sample.map Prod.fst).contains candidate) =
      fun c => decide (c ∈ sample.map Prod.fst) := by
    funext c
    simp
  refine ⟨?_, ?_, ?_, ?_, ?_, rfl, rfl, rfl, rfl, rfl⟩
  · intro c hc
    simp only [ChartGenerator.guessLabelField, hcontains, hc]
  · intro hno f hf
    have hnone : (ChartGenerator.labelCandidates.find? fun c =>
        decide (c ∈ sample.map Prod.fst)) = none := by
      apply List.find?_eq_none.2
      intro c hc
      simpa using hno c hc
    simp only [ChartGenerator.guessLabelField, hcontains, hnone, hf]
  · intro hno hnostr
    have hnone : (ChartGenerator.labelCandidates.find? fun c =>
        decide (c ∈ sample.map Prod.fst)) = none := by
      apply List.find?_eq_none.2
      intro c hc
      simpa using hno c hc
    have hnone2 : ((sample.map Prod.fst).find? fun f =>
        ChartGenerator.isStringValue (sample.get f)) = none := by
      apply List.find?_eq_none.2
      intro f hf
      simpa using hnostr f hf
    simp only [ChartGenerator.guessLabelField, hcontains, hnone, hnone2]
  · unfold ChartGenerator.guessValueFields
    congr 1
    funext f
    by_cases h : some f = labelField
    · simp [h]
    · have hb : (some f != labelField) = true := by simpa using h
      simp [h, hb]
  · intro f hf hmem
    unfold ChartGenerator.guessValueFields at hmem
    rw [hf] at hmem
    simp at hmem

/-! ### Templates -/

/-- C25 (code defect). In the source text of `processTemplate` the regular expression literal of
the `if` blocks ends at the slash of `/if`, which the doubled backslash before it no longer
escapes: the body stops before that slash and the flags read `if`, which are not valid flags. So
the script is a syntax error and no template is ever processed. -/
theorem C25_if_block_regex_is_a_syntax_error :
    scanRegexLiteral ifBlockRegexSource =
        some ("\\\\\x7b\\\\\x7b#if\\\\s+([^\x7d]+)\\\\\x7d\\\\\x7d([\\\\s\\\\S]*?)\\\\\x7b\\\\\x7b\\\\",
          "if") ∧
      validRegexFlags "if" = false ∧ validRegexFlags "g" = true := by
  refine ⟨rfl, ?_, ?_⟩ <;> decide

theorem reduceKeys_append {β : Type} (realm : Realm β) (keys more : List String)
    (start : Option (Reached β)) :
    TemplateEngine.reduceKeys realm (keys ++ more) start =
      match TemplateEngine.reduceKeys realm keys start with
      | .error e => .error e
      | .ok next => TemplateEngine.reduceKeys realm more next := by
  induction keys generalizing start with
  | nil => rfl
  | cons k ks ih =>
    rw [List.cons_append, TemplateEngine.reduceKeys, TemplateEngine.reduceKeys]
    cases TemplateEngine.getNestedStep realm start k with
    | error e => rfl
    | ok next => exact ih next

theorem reduceKeys_undefined {β : Type} (realm : Realm β) (keys : List String) :
    TemplateEngine.reduceKeys realm keys none = .ok none := by
  induction keys with
  | nil => rfl
  | cons k ks ih => exact ih

/-- C26, as stated, fails: for the object with the entry `a` holding the empty string and the
path `a.length`, reading the keys one after the other reaches the number 0, no key being absent
and no value being `null` or `undefined`, and `getNestedValue` returns `undefined`, whatever the
built-in objects of the page are. -/
theorem C26_counterexample_empty_string :
    (∀ (β : Type) (realm : Realm β),
        readPath realm (.obj [("a", .str "")]) "a.length" =
          .ok (some (.value (.num (.finite false 0 0))))) ∧
      (∀ (β : Type) (realm : Realm β),
        TemplateEngine.getNestedValue realm (.obj [("a", .str "")]) "a.length" = .ok none) :=
  ⟨fun _ _ => rfl, fun _ _ => rfl⟩

/-- C26, amended. `getNestedValue` reads the keys of the dotted path one after the other,
starting from the object: the result for no key is the object, and the result for one more key
is the property read on the value reached so far when that value is truthy, and `undefined`
when it is `undefined` or falsy (`null`, `false`, 0, `NaN`, the empty string); once `undefined`
is reached it stays, and a read that throws makes the call throw. The property read is the one
of JavaScript: an own entry of an object is read as it is, a key without own entry is looked up
along the prototype chain (so `constructor` reads a function, not `undefined`), and the length
of a string counts UTF-16 code units (2 for the character U+1F600). For a dataset model the path `metadata.title` gives what
the read of `title` on its metadata gives, the title when the metadata has one. -/
theorem C26_getNestedValue_stops_at_falsy {β : Type} (realm : Realm β)
    (obj : JsValue) :
    (∀ path, TemplateEngine.getNestedValue realm obj path =
        TemplateEngine.reduceKeys realm (jsSplit "." path) (some (.value obj))) ∧
      (TemplateEngine.reduceKeys realm [] (some (.value obj)) = .ok (some (.value obj))) ∧
      (∀ (keys : List String) (k : String) (c : Reached β),
        TemplateEngine.reduceKeys realm keys (some (.value obj)) = .ok (some c) →
        c.truthy realm = true →
        TemplateEngine.reduceKeys realm (keys ++ [k]) (some (.value obj)) =
          readProp realm c k) ∧
      (∀ (keys : List String) (k : String) (c : Reached β),
        TemplateEngine.reduceKeys realm keys (some (.value obj)) = .ok (some c) →
        c.truthy realm = false →
        TemplateEngine.reduceKeys realm (keys ++ [k]) (some (.value obj)) = .ok none) ∧
      (∀ keys more : List String,
        TemplateEngine.reduceKeys realm keys (some (.value obj)) = .ok none →
        TemplateEngine.reduceKeys realm (keys ++ more) (some (.value obj)) = .ok none) ∧
      (∀ (keys more : List String) (e : String),
        TemplateEngine.reduceKeys realm keys (some (.value obj)) = .error e →
        TemplateEngine.reduceKeys realm (keys ++ more) (some (.value obj)) = .error e) ∧
      (∀ (o : JsObject) (k : String) (v : JsValue), o.get k = some v →
        readProp realm (.value (.obj o)) k = .ok (some (.value v))) ∧
      (∀ (o : JsObject) (k : String), o.get k = none →
        readProp realm (.value (.obj o)) k =
          realm.inherited (.value (.obj o)) (.text k)) ∧
      (∀ s : String, readProp realm (.value (.str s)) "length" =
        .ok (some (.value (natNumber (utf16Units s).length)))) ∧
      (readProp realm (.value (.str (String.singleton (Char.ofNat 0x1F600))))
        "length" = .ok (some (.value (.num (.finite false 2 0))))) ∧
      (∀ d : Dataset,
        TemplateEngine.getNestedValue realm (datasetValue d) "metadata.title" =
          readProp realm (.value (.obj d.metadata)) "title") ∧
      (∀ (d : Dataset) (title : JsValue), d.metadata.get "title" = some title →
        TemplateEngine.getNestedValue realm (datasetValue d) "metadata.title" =
          .ok (some (.value title))) := by
  have hread : ∀ (o : JsObject) (k : String) (v : JsValue), o.get k = some v →
      readProp realm (.value (.obj o)) k = .ok (some (.value v)) := by
    intro o k v h
    simp [readProp, readKey, ownKey, ownProp, h]
  have hdata : ∀ d : Dataset,
      TemplateEngine.getNestedValue realm (datasetValue d) "metadata.title" =
        readProp realm (.value (.obj d.metadata)) "title" := by
    intro d
    have hsplit : jsSplit "." "metadata.title" = ["metadata", "title"] := by decide
    unfold TemplateEngine.getNestedValue
    rw [hsplit]
    have h1 : TemplateEngine.getNestedStep realm (some (.value (datasetValue d))) "metadata" =
        .ok (some (.value (.obj d.metadata))) := by
      simp [TemplateEngine.getNestedStep, Reached.truthy, datasetValue,
        JsValue.truthy, readProp, readKey, ownKey, ownProp, JsObject.get]
    rw [TemplateEngine.reduceKeys, h1]
    simp only [TemplateEngine.reduceKeys, TemplateEngine.getNestedStep,
      Reached.truthy, JsValue.truthy, if_true]
    cases readProp realm (.value (.obj d.metadata)) "title" <;> rfl
  refine ⟨fun _ => rfl, rfl, ?_, ?_, ?_, ?_, hread, ?_, ?_, rfl, hdata, ?_⟩
  · intro keys k c h hc
    rw [reduceKeys_append, h]
    simp only [TemplateEngine.reduceKeys, TemplateEngine.getNestedStep, hc, if_true]
    cases readProp realm c k <;> rfl
  · intro keys k c h hc
    rw [reduceKeys_append, h]
    simp [TemplateEngine.reduceKeys, TemplateEngine.getNestedStep, hc]
  · intro keys more h
    rw [reduceKeys_append, h]
    exact reduceKeys_undefined realm more
  · intro keys more e h
    rw [reduceKeys_append, h]
  · intro o k h
    simp [readProp, readKey, ownKey, ownProp, h]
  · intro s
    simp [readProp, readKey, ownKey, ownProp]
  · intro d title h
    rw [hdata, hread _ _ _ h]

/-! ### Coercions -/

/-- C28. For a trimmed text that starts neither with an opening brace nor with an opening
bracket, the coercion of config values (boolean test first) and the coercion of record fields
and item values (number test first) give the same value; the texts `true` and `false` are not
numeric. -/
theorem C28_coercions_agree (p : Platform) (t : String)
    (hbrace : jsStartsWith t "\x7b" = false) (hbracket : jsStartsWith t "[" = false) :
    configValue p t = coerceValue t ∧ jsIsNaN "true" = true ∧ jsIsNaN "false" = true := by
  refine ⟨?_, by decide, by decide⟩
  unfold configValue coerceValue
  simp only [hbrace, hbracket, Bool.or_self, Bool.false_eq_true, if_false]
  by_cases ht : t = "true"
  · subst ht
    rfl
  · by_cases hf : t = "false"
    · subst hf
      rfl
    · simp [ht, hf]

/-- Witness of C28: the text `true` is the boolean under both coercions, and `42` the number. -/
theorem C28_coercions_agree_witness :
    (configValue strictPlatform "true" = coerceValue "true" ∧
        jsIsNaN "true" = true ∧ jsIsNaN "false" = true) ∧
      (configValue strictPlatform "42" = coerceValue "42" ∧
        jsIsNaN "true" = true ∧ jsIsNaN "false" = true) :=
  ⟨C28_coercions_agree strictPlatform "true" (by decide) (by decide),
    C28_coercions_agree strictPlatform "42" (by decide) (by decide)⟩

/-! ### Escaping is injective -/

theorem escapeChar_cases (c : Char) :
    (c = '&' ∧ escapeChar c = ['&', 'a', 'm', 'p', ';']) ∨
      (c = '<' ∧ escapeChar c = ['&', 'l', 't', ';']) ∨
      (c = '>' ∧ escapeChar c = ['&', 'g', 't', ';']) ∨
      (c = Char.ofNat 34 ∧ escapeChar c = ['&', 'q', 'u', 'o', 't', ';']) ∨
      (c = Char.ofNat 39 ∧ escapeChar c = ['&', '#', '3', '9', ';']) ∨
      ((c ≠ '&' ∧ c ≠ '<' ∧ c ≠ '>' ∧ c ≠ Char.ofNat 34 ∧ c ≠ Char.ofNat 39) ∧
        escapeChar c = [c]) := by
  by_cases h1 : c = '&'
  · subst h1
    exact Or.inl ⟨rfl, rfl⟩
  · by_cases h2 : c = '<'
    · subst h2
      exact Or.inr (Or.inl ⟨rfl, rfl⟩)
    · by_cases h3 : c = '>'
      · subst h3
        exact Or.inr (Or.inr (Or.inl ⟨rfl, rfl⟩))
      · by_cases h4 : c = Char.ofNat 34
        · subst h4
          exact Or.inr (Or.inr (Or.inr (Or.inl ⟨rfl, rfl⟩)))
        · by_cases h5 : c = Char.ofNat 39
          · subst h5
            exact Or.inr (Or.inr (Or.inr (Or.inr (Or.inl ⟨rfl, rfl⟩))))
          · exact Or.inr (Or.inr (Or.inr (Or.inr (Or.inr
              ⟨⟨h1, h2, h3, h4, h5⟩, by simp [escapeChar, h1, h2, h3, h4, h5]⟩))))

theorem escapeChar_append_inj (c d : Char) (r1 r2 : List Char)
    (h : escapeChar c ++ r1 = escapeChar d ++ r2) : c = d ∧ r1 = r2 := by
  rcases escapeChar_cases c with
    ⟨hc, ec⟩ | ⟨hc, ec⟩ | ⟨hc, ec⟩ | ⟨hc, ec⟩ | ⟨hc, ec⟩ | ⟨hc, ec⟩ <;>
    rcases escapeChar_cases d with
      ⟨hd, ed⟩ | ⟨hd, ed⟩ | ⟨hd, ed⟩ | ⟨hd, ed⟩ | ⟨hd, ed⟩ | ⟨hd, ed⟩ <;>
    rw [ec, ed] at h <;>
    simp at h <;>
    first
      | exact ⟨hc.trans hd.symm, h⟩
      | exact ⟨h.1, h.2⟩
      | exact absurd h.1.symm hd.1
      | exact absurd h.1 hc.1

theorem length_escapeChar (c : Char) :
    1 ≤ (escapeChar c).length ∧
      ((escapeChar c).length = 1 →
        c ≠ '&' ∧ c ≠ '<' ∧ c ≠ '>' ∧ c ≠ Char.ofNat 34 ∧ c ≠ Char.ofNat 39) := by
  rcases escapeChar_cases c with
    ⟨hc, ec⟩ | ⟨hc, ec⟩ | ⟨hc, ec⟩ | ⟨hc, ec⟩ | ⟨hc, ec⟩ | ⟨hc, ec⟩ <;>
    rw [ec] <;> simp
  exact hc

theorem flatMap_escapeChar_inj (cs ds : List Char)
    (h : cs.flatMap escapeChar = ds.flatMap escapeChar) : cs = ds := by
  induction cs generalizing ds with
  | nil =>
    cases ds with
    | nil => rfl
    | cons d ds =>
      exfalso
      rw [List.flatMap_nil, List.flatMap_cons] at h
      have hlen := congrArg List.length h
      have h1 := (length_escapeChar d).1
      simp only [List.length_nil, List.length_append] at hlen
      omega
  | cons c cs ih =>
    cases ds with
    | nil =>
      exfalso
      rw [List.flatMap_nil, List.flatMap_cons] at h
      have hlen := congrArg List.length h
      have h1 := (length_escapeChar c).1
      simp only [List.length_nil, List.length_append] at hlen
      omega
    | cons d ds =>
      rw [List.flatMap_cons, List.flatMap_cons] at h
      obtain ⟨hcd, hrest⟩ := escapeChar_append_inj c d _ _ h
      rw [hcd, ih ds hrest]

theorem length_flatMap_escapeChar (cs : List Char) :
    cs.length ≤ (cs.flatMap escapeChar).length ∧
      ((cs.flatMap escapeChar).length = cs.length →
        ∀ c ∈ cs, c ≠ '&' ∧ c ≠ '<' ∧ c ≠ '>' ∧ c ≠ Char.ofNat 34 ∧ c ≠ Char.ofNat 39) := by
  induction cs with
  | nil => simp
  | cons c cs ih =>
    rw [List.flatMap_cons, List.length_append, List.length_cons]
    obtain ⟨h1, h2⟩ := length_escapeChar c
    obtain ⟨h3, h4⟩ := ih
    refine ⟨by omega, ?_⟩
    intro hlen x hx
    rcases List.mem_cons.1 hx with hxc | hxr
    · rw [hxc]
      exact h2 (by omega)
    · exact h4 (by omega) x hxr

theorem flatMap_escapeChar_id (cs : List Char)
    (h : ∀ c ∈ cs, c ≠ '&' ∧ c ≠ '<' ∧ c ≠ '>' ∧ c ≠ Char.ofNat 34 ∧ c ≠ Char.ofNat 39) :
    cs.flatMap escapeChar = cs := by
  induction cs with
  | nil => rfl
  | cons c cs ih =>
    obtain ⟨h1, h2, h3, h4, h5⟩ := h c (List.mem_cons_self c cs)
    rw [List.flatMap_cons, ih fun x hx => h x (List.mem_cons_of_mem c hx)]
    simp [escapeChar, h1, h2, h3, h4, h5]

/-- C29. `escapeXML` is injective on strings, and it returns its argument unchanged exactly when
the argument contains none of the characters ampersand, less-than, greater-than, double quote
(34) and single quote (39). -/
theorem C29_escapeXML_injective :
    (∀ s t : String, escapeText s = escapeText t → s = t) ∧
      (∀ s : String, escapeText s = s ↔
        ∀ c ∈ s.data, c ≠ '&' ∧ c ≠ '<' ∧ c ≠ '>' ∧ c ≠ Char.ofNat 34 ∧ c ≠ Char.ofNat 39) ∧
      (∀ (p : Platform) (s t : String), escapeXML p (.str s) = escapeXML p (.str t) → s = t) := by
  have hinj : ∀ s t : String, escapeText s = escapeText t → s = t := by
    intro s t h
    rw [escapeText_eq_escapeSimultaneous, escapeText_eq_escapeSimultaneous] at h
    have hd : s.data.flatMap escapeChar = t.data.flatMap escapeChar := congrArg String.data h
    exact String.ext (flatMap_escapeChar_inj _ _ hd)
  refine ⟨hinj, ?_, fun p s t h => hinj s t h⟩
  intro s
  rw [escapeText_eq_escapeSimultaneous]
  constructor
  · intro h
    have hd : s.data.flatMap escapeChar = s.data := congrArg String.data h
    exact (length_flatMap_escapeChar s.data).2 (by rw [hd])
  · intro h
    exact String.ext (flatMap_escapeChar_id s.data h)

/-! ### Rows of a CSV text -/

theorem JsObject.mem_keys_set (o : JsObject) (k k2 : String) (v : JsValue) :
    k2 ∈ JsObject.keys (JsObject.set o k v) ↔
      (k2 = k ∧ k ≠ "__proto__") ∨ k2 ∈ JsObject.keys o := by
  unfold JsObject.set
  by_cases hk : k = "__proto__"
  · simp [hk]
  · simp [hk, JsObject.mem_keys_setOwn]

theorem mem_keys_foldl_pairs (pairs : List (String × String)) (acc : JsObject) (k : String) :
    k ∈ JsObject.keys (pairs.foldl (fun row hv => JsObject.set row hv.1 (csvValue hv.2)) acc) ↔
      (k ∈ pairs.map Prod.fst ∧ k ≠ "__proto__") ∨ k ∈ JsObject.keys acc := by
  induction pairs generalizing acc with
  | nil => simp
  | cons hv rest ih =>
    rw [List.foldl_cons, ih, JsObject.mem_keys_set]
    simp only [List.map_cons, List.mem_cons]
    constructor
    · intro h
      rcases h with h | h | h
      · exact Or.inl ⟨Or.inr h.1, h.2⟩
      · exact Or.inl ⟨Or.inl h.1, h.1 ▸ h.2⟩
      · exact Or.inr h
    · intro h
      rcases h with ⟨h1 | h1, h2⟩ | h
      · exact Or.inr (Or.inl ⟨h1, h1 ▸ h2⟩)
      · exact Or.inl ⟨h1, h2⟩
      · exact Or.inr (Or.inr h)

theorem nodup_keys_foldl_pairs (pairs : List (String × String)) (acc : JsObject)
    (h : (JsObject.keys acc).Nodup) :
    (JsObject.keys
      (pairs.foldl (fun row hv => JsObject.set row hv.1 (csvValue hv.2)) acc)).Nodup := by
  induction pairs generalizing acc with
  | nil => simpa using h
  | cons hv rest ih =>
    rw [List.foldl_cons]
    exact ih _ (JsObject.nodup_keys_set acc _ _ h)

theorem parseCSVLoop_ok (headers : List String) (lines : List String) (i : Nat)
    (data out : List JsValue) (h : parseCSVLoop headers i lines data = .ok out) :
    ∃ rows : List JsValue, out = data ++ rows ∧ rows.length = lines.length ∧
      ∀ r ∈ rows, ∃ values : List String,
        values.length = headers.length ∧ r = .obj (csvRow headers values) := by
  induction lines generalizing i data with
  | nil =>
    rw [parseCSVLoop] at h
    injection h with h
    exact ⟨[], by simp [h], rfl, by simp⟩
  | cons line rest ih =>
    rw [parseCSVLoop] at h
    by_cases hlen : ((jsSplit "," line).map jsTrim).length = headers.length
    · have hb : (((jsSplit "," line).map jsTrim).length != headers.length) = false := by
        simpa using hlen
      rw [hb] at h
      simp only [Bool.false_eq_true, if_false] at h
      obtain ⟨rows, hout, hl, hall⟩ := ih _ _ h
      refine ⟨.obj (csvRow headers ((jsSplit "," line).map jsTrim)) :: rows, ?_, ?_, ?_⟩
      · rw [hout]
        simp
      · simp [hl]
      · intro r hr
        rcases List.mem_cons.1 hr with hr | hr
        · exact ⟨_, hlen, hr⟩
        · exact hall r hr
    · have hb : (((jsSplit "," line).map jsTrim).length != headers.length) = true := by
        simpa using hlen
      rw [hb] at h
      simp at h

/-- C30, as stated, fails: for the text with the header `__proto__,b` and the data line `1,2`
(separated by a backslash and an n, the separator of the source) `parseCSV` returns one record
whose only key is `b`, while the trimmed header names are `__proto__` and `b`. -/
theorem C30_counterexample_proto_header :
    parseCSV "__proto__,b\\n1,2" = .ok (.arr [.obj [("b", .num (.finite false 2 0))]]) ∧
      (jsSplit "," ((jsSplit "\\n" (jsTrim "__proto__,b\\n1,2")).headD "")).map jsTrim =
        ["__proto__", "b"] ∧
      JsObject.keys [("b", .num (.finite false 2 0))] = ["b"] :=
  ⟨rfl, rfl, rfl⟩

/-- C30, amended. Whenever `parseCSV` returns, the result is a non-empty list with one record
per segment after the header of the split that the method makes; no record has a key twice, and
the keys of every record are the trimmed header names other than `__proto__`: the records have
the same field names. -/
theorem C30_parseCSV_rows_share_keys (csvText : String) (v : JsValue)
    (h : parseCSV csvText = .ok v) :
    ∃ rows : List JsValue, v = .arr rows ∧ rows ≠ [] ∧
      rows.length + 1 = (jsSplit "\\n" (jsTrim csvText)).length ∧
      ∀ r ∈ rows, ∃ o : JsObject, r = .obj o ∧ (JsObject.keys o).Nodup ∧
        ∀ k : String, k ∈ JsObject.keys o ↔
          (k ∈ (jsSplit "," ((jsSplit "\\n" (jsTrim csvText)).headD "")).map jsTrim ∧
            k ≠ "__proto__") := by
  unfold parseCSV at h
  dsimp only at h
  by_cases hlen : (jsSplit "\\n" (jsTrim csvText)).length < 2
  · simp [hlen] at h
  · simp only [hlen, if_false] at h
    cases hloop : parseCSVLoop
        ((jsSplit "," ((jsSplit "\\n" (jsTrim csvText)).headD "")).map jsTrim) 1
        (jsSplit "\\n" (jsTrim csvText)).tail [] with
    | error e =>
      rw [hloop] at h
      simp at h
    | ok data =>
      rw [hloop] at h
      dsimp only at h
      injection h with hv
      obtain ⟨rows, hout, hl, hall⟩ := parseCSVLoop_ok _ _ _ _ _ hloop
      have hdata : data = rows := by simpa using hout
      have htail : rows.length = (jsSplit "\\n" (jsTrim csvText)).length - 1 := by
        rw [hl, List.length_tail]
      refine ⟨rows, by rw [← hv, hdata], ?_, by omega, ?_⟩
      · intro hnil
        rw [hnil] at htail
        simp only [List.length_nil] at htail
        omega
      · intro r hr
        obtain ⟨values, hvl, hro⟩ := hall r hr
        refine ⟨_, hro, ?_, ?_⟩
        · exact nodup_keys_foldl_pairs _ [] (by simp [JsObject.keys])
        · intro k
          unfold csvRow
          rw [mem_keys_foldl_pairs, List.map_fst_zip _ _ (by omega)]
          simp [JsObject.keys]

/-- Witness of C30: the text `a,b`, `1,2`, `3,4` with the separator of the source. -/
theorem C30_parseCSV_rows_share_keys_witness :
    ∃ rows : List JsValue,
      JsValue.arr [.obj [("a", .num (.finite false 1 0)), ("b", .num (.finite false 2 0))],
          .obj [("a", .num (.finite false 3 0)), ("b", .num (.finite false 4 0))]] = .arr rows ∧
        rows ≠ [] ∧
        rows.length + 1 = (jsSplit "\\n" (jsTrim "a,b\\n1,2\\n3,4")).length ∧
        ∀ r ∈ rows, ∃ o : JsObject, r = .obj o ∧ (JsObject.keys o).Nodup ∧
          ∀ k : String, k ∈ JsObject.keys o ↔
            (k ∈ (jsSplit "," ((jsSplit "\\n" (jsTrim "a,b\\n1,2\\n3,4")).headD "")).map jsTrim ∧
              k ≠ "__proto__") :=
  C30_parseCSV_rows_share_keys "a,b\\n1,2\\n3,4" _ rfl

end OpenSalamanca
